import Mathlib

/-!
# ANSI escape-sequence interpreter of `src/pcbasic/compat/win32_console.c`

A shallow embedding of the console module: the escape-sequence scanner
(`parser_print`), the sequence interpreter (`ansi_output`), the console
operations adapter (`console_put_char`, `console_fill`, `console_scroll`,
`console_set_pos`, `console_resize`) and the line-discipline flags.

Modelling conventions.

* A C `int` is an `Int`; every `int` addition, subtraction and multiplication
  whose operands can come from a sequence argument is wrapped to 32 bits
  (`iadd`, `isub`, `imul`).  Stores into `SHORT`, `WORD` and `DWORD` fields
  truncate (`toSHORT`, `toWORD`, `toDWORD`).
* A `wchar_t` is a `Nat` (its code unit); a C string is the list of the
  characters of its buffer, the terminating NUL being implicit at the end.
* The fixed arrays `argv[MAX_ARG]` and `args[MAX_STRARG]` are functions from
  the index; every store whose index is computed at run time is bounds
  checked and yields `none` when the index is outside the array.
* The native console is external.  Each native call the code makes is
  recorded as a `ConsoleOp`; the scanner runs against an arbitrary
  deterministic console `Console σ` that answers
  `GetConsoleScreenBufferInfo` and executes the calls.
-/

namespace Win32Console

/-! ## Machine integers -/

/-- The value of a 32-bit two's complement `int` that holds `x`. -/
def wrap32 (x : Int) : Int := (x + 2147483648) % 4294967296 - 2147483648

/-- `a + b` on C `int`s. -/
def iadd (a b : Int) : Int := wrap32 (a + b)

/-- `a - b` on C `int`s. -/
def isub (a b : Int) : Int := wrap32 (a - b)

/-- `a * b` on C `int`s. -/
def imul (a b : Int) : Int := wrap32 (a * b)

/-- Conversion of an `int` to the 16-bit signed `SHORT`. -/
def toSHORT (x : Int) : Int := (x + 32768) % 65536 - 32768

/-- Conversion of an `int` to the 32-bit unsigned `DWORD`. -/
def toDWORD (x : Int) : Int := x % 4294967296

/-- Conversion of an `int` to the 16-bit unsigned `WORD`. -/
def toWORD (x : Nat) : Nat := x % 65536

/-! ## Characters and the C library functions the module calls -/

/-- `L'\x1b'`. -/
def ESC : Nat := 27
/-- `L'\x07'`. -/
def BEL : Nat := 7
/-- `L'['`. -/
def LBRACKET : Nat := 91
/-- `L']'`. -/
def RBRACKET : Nat := 93
/-- `L';'`. -/
def SEMICOLON : Nat := 59
/-- `L'?'`. -/
def QUESTION : Nat := 63
/-- `L'0'`. -/
def ZERO : Nat := 48

/-- `iswdigit` of the C library: the ten decimal digits. -/
def iswdigit (c : Nat) : Bool := decide (48 ≤ c ∧ c ≤ 57)

/-- `towupper` of the C library on the basic letters; other characters are
left as they are. -/
def towupper (c : Nat) : Nat := if 97 ≤ c ∧ c ≤ 122 then c - 32 else c

/-- `*a` for a C string: its first character, NUL when the buffer is used up. -/
def deref (a : List Nat) : Nat := a.headD 0

/-- `wcscasecmp` (lines 39-43).  The loop condition
`*a && *b && towupper(*a++) == towupper(*b++)` advances both pointers also on
the comparison that fails; the result is `(*a || *b)` at the pointers the
loop leaves. -/
def wcscasecmp : List Nat → List Nat → Int
  | a :: as, b :: bs =>
    if a ≠ 0 ∧ b ≠ 0 then
      if towupper a = towupper b then wcscasecmp as bs
      else if deref as ≠ 0 ∨ deref bs ≠ 0 then 1 else 0
    else if a ≠ 0 ∨ b ≠ 0 then 1 else 0
  | [], b => if deref b ≠ 0 then 1 else 0
  | a :: _, [] => if a ≠ 0 then 1 else 0

/-- `L"ECHO"`. -/
def str_ECHO : List Nat := [69, 67, 72, 79]
/-- `L"ICRNL"`. -/
def str_ICRNL : List Nat := [73, 67, 82, 78, 76]
/-- `L"ONLCR"`. -/
def str_ONLCR : List Nat := [79, 78, 76, 67, 82]

/-! ## Console globals (lines 46-66) -/

/-- The termios-style flags `FLAGS` (lines 56-60). -/
structure FLAGS where
  echo : Bool
  icrnl : Bool
  onlcr : Bool
deriving DecidableEq, Repr

/-- The initial state `static FLAGS flags = { true, true, false }` (line 63). -/
def flags_initial : FLAGS := { echo := true, icrnl := true, onlcr := false }

/-- `winsi_setraw` (lines 986-994), its effect on the flags. -/
def winsi_setraw (_flags : FLAGS) : FLAGS :=
  { echo := false, icrnl := false, onlcr := false }

/-- `winsi_unsetraw` (lines 997-1005), its effect on the flags. -/
def winsi_unsetraw (_flags : FLAGS) : FLAGS :=
  { echo := true, icrnl := true, onlcr := false }

/-- Size of the pipe buffers. -/
def IO_BUFLEN : Nat := 1024

/-! ## Colour constants (lines 69-121); the bit values are those of `wincon.h` -/

def FOREGROUND_BLUE : Nat := 1
def FOREGROUND_GREEN : Nat := 2
def FOREGROUND_RED : Nat := 4
def FOREGROUND_INTENSITY : Nat := 8
def BACKGROUND_BLUE : Nat := 16
def BACKGROUND_GREEN : Nat := 32
def BACKGROUND_RED : Nat := 64
def BACKGROUND_INTENSITY : Nat := 128

def FOREGROUND_BLACK : Nat := 0
def FOREGROUND_WHITE : Nat := FOREGROUND_RED ||| FOREGROUND_GREEN ||| FOREGROUND_BLUE
def BACKGROUND_BLACK : Nat := 0
def BACKGROUND_WHITE : Nat := BACKGROUND_RED ||| BACKGROUND_GREEN ||| BACKGROUND_BLUE

/-- The table `foregroundcolor[16]` (lines 79-96). -/
def foregroundcolor : List Nat :=
  [ FOREGROUND_BLACK,
    FOREGROUND_RED,
    FOREGROUND_GREEN,
    FOREGROUND_RED ||| FOREGROUND_GREEN,
    FOREGROUND_BLUE,
    FOREGROUND_BLUE ||| FOREGROUND_RED,
    FOREGROUND_BLUE ||| FOREGROUND_GREEN,
    FOREGROUND_WHITE,
    FOREGROUND_BLACK ||| FOREGROUND_INTENSITY,
    FOREGROUND_RED ||| FOREGROUND_INTENSITY,
    FOREGROUND_GREEN ||| FOREGROUND_INTENSITY,
    FOREGROUND_RED ||| FOREGROUND_GREEN ||| FOREGROUND_INTENSITY,
    FOREGROUND_BLUE ||| FOREGROUND_INTENSITY,
    FOREGROUND_BLUE ||| FOREGROUND_RED ||| FOREGROUND_INTENSITY,
    FOREGROUND_BLUE ||| FOREGROUND_GREEN ||| FOREGROUND_INTENSITY,
    FOREGROUND_WHITE ||| FOREGROUND_INTENSITY ]

/-- The table `backgroundcolor[16]` (lines 98-115). -/
def backgroundcolor : List Nat :=
  [ BACKGROUND_BLACK,
    BACKGROUND_RED,
    BACKGROUND_GREEN,
    BACKGROUND_RED ||| BACKGROUND_GREEN,
    BACKGROUND_BLUE,
    BACKGROUND_BLUE ||| BACKGROUND_RED,
    BACKGROUND_BLUE ||| BACKGROUND_GREEN,
    BACKGROUND_WHITE,
    BACKGROUND_BLACK ||| BACKGROUND_INTENSITY,
    BACKGROUND_RED ||| BACKGROUND_INTENSITY,
    BACKGROUND_GREEN ||| BACKGROUND_INTENSITY,
    BACKGROUND_RED ||| BACKGROUND_GREEN ||| BACKGROUND_INTENSITY,
    BACKGROUND_BLUE ||| BACKGROUND_INTENSITY,
    BACKGROUND_BLUE ||| BACKGROUND_RED ||| BACKGROUND_INTENSITY,
    BACKGROUND_BLUE ||| BACKGROUND_GREEN ||| BACKGROUND_INTENSITY,
    BACKGROUND_WHITE ||| BACKGROUND_INTENSITY ]

/-- `static int foreground_default = FOREGROUND_WHITE` (line 120). -/
def foreground_default : Int := FOREGROUND_WHITE

/-- `static int background_default = BACKGROUND_BLACK` (line 121). -/
def background_default : Int := BACKGROUND_BLACK

/-- A read `table[i]` of one of the 16-entry tables; `none` outside it. -/
def table_get (table : List Nat) (i : Int) : Option Nat :=
  if 0 ≤ i then table.get? i.toNat else none

/-! ## The native console: data and calls -/

/-- The Windows `COORD`; both fields are `SHORT`. -/
structure COORD where
  X : Int
  Y : Int
deriving DecidableEq, Repr

/-- The Windows `SMALL_RECT`; all fields are `SHORT`. -/
structure SMALL_RECT where
  Left : Int
  Top : Int
  Right : Int
  Bottom : Int
deriving DecidableEq, Repr

/-- The fields of `CONSOLE_SCREEN_BUFFER_INFO` the module reads. -/
structure CONSOLE_SCREEN_BUFFER_INFO where
  dwSize : COORD
  dwCursorPosition : COORD
  wAttributes : Nat
  srWindow : SMALL_RECT
deriving DecidableEq, Repr

/-- One call of the native console API, with the arguments the code passes. -/
inductive ConsoleOp where
  /-- `WriteConsoleOutput(handle, &ch, onebyone, origin, &dest)`: one cell is
  written in place; the cursor is not moved. -/
  | WriteConsoleOutput (ch : Nat) (attributes : Nat) (dest : SMALL_RECT)
  /-- `WriteConsole(handle, &s, 1, &written, NULL)`: the normal write, which
  advances the cursor. -/
  | WriteConsole (ch : Nat)
  | FillConsoleOutputCharacter (ch : Nat) (len : Int) (pos : COORD)
  | FillConsoleOutputAttribute (attributes : Nat) (len : Int) (pos : COORD)
  /-- `ScrollConsoleScreenBuffer(handle, &rect, &clip, pos, &char_info)`.  Of
  the fill character the code sets the byte `char_info.Char.AsciiChar` only,
  which is what is recorded here; the other byte of `Char.UnicodeChar`, which
  the wide call reads under `#define UNICODE`, is left as the `CHAR_INFO`
  declared without initialiser had it (lines 230 and 236), so it is not an
  argument the code determines. -/
  | ScrollConsoleScreenBuffer (rect clip : SMALL_RECT) (pos : COORD)
      (fill_ascii : Nat) (fill_attributes : Nat)
  | SetConsoleCursorPosition (pos : COORD)
  | SetConsoleScreenBufferSize (size : COORD)
  | SetConsoleWindowInfo (absolute : Bool) (window : SMALL_RECT)
  | SetConsoleTextAttribute (attributes : Nat)
  /-- `GetConsoleCursorInfo` followed by `SetConsoleCursorInfo` with
  `bVisible` replaced. -/
  | SetConsoleCursorInfo (visible : Bool)
  | SetConsoleTitle (title : List Nat)
deriving DecidableEq, Repr

/-! ## Windows console (lines 171-299) -/

/-- The struct `TERM` (lines 176-195), without the handle. -/
structure TERM where
  foreground : Int
  background : Int
  concealed : Bool
  bold : Bool
  underline : Bool
  rvideo : Bool
  scroll_region : SMALL_RECT
  save_pos : COORD
  col : Int
  row : Int
  width : Int
  height : Int
  attr : Nat
  end_ : Int
deriving DecidableEq, Repr

/-- `console_put_char` (lines 200-215). -/
def console_put_char (term : TERM) (s : Nat) : List ConsoleOp :=
  if term.col ≥ isub term.width 1 ∧ s ≠ 10 then
    [ConsoleOp.WriteConsoleOutput s (toWORD term.attr)
      { Left := toSHORT term.col, Top := toSHORT term.row,
        Right := toSHORT term.col, Bottom := toSHORT term.row }]
  else
    [ConsoleOp.WriteConsole s]

/-- `console_fill` (lines 217-225). -/
def console_fill (term : TERM) (x y len : Int) : List ConsoleOp :=
  let pos : COORD := { X := toSHORT x, Y := toSHORT y }
  [ConsoleOp.FillConsoleOutputCharacter 32 (toDWORD len) pos,
   ConsoleOp.FillConsoleOutputAttribute (toWORD term.attr) (toDWORD len) pos]

/-- `console_scroll` (lines 227-255).  `char_info` is declared without
initialiser; the code stores `' '` in `char_info.Char.AsciiChar` and
`term->attr` in `char_info.Attributes`, and these two are the fill values of
the calls.  The character the wide call reads from the struct is given by
`scroll_fill_char`. -/
def console_scroll (term : TERM) (left top right bot x y : Int) : List ConsoleOp :=
  let rect : SMALL_RECT :=
    { Left := toSHORT left, Top := toSHORT top, Right := toSHORT right, Bottom := toSHORT bot }
  let pos : COORD := { X := toSHORT x, Y := toSHORT y }
  if term.scroll_region.Bottom = isub term.height 2 ∧ bot ≥ isub term.height 2 ∧ y < top then
    let temp_scr : SMALL_RECT :=
      { term.scroll_region with Bottom := toSHORT (isub term.height 1) }
    let rect1 : SMALL_RECT := { rect with Bottom := toSHORT (isub term.height 1) }
    let pos2 : COORD := { pos with Y := toSHORT (isub term.height 1) }
    let top2 : Int := toSHORT (isub (isub term.height 1) (isub top y))
    let rect2 : SMALL_RECT := { rect1 with Top := top2, Bottom := top2 }
    [ConsoleOp.ScrollConsoleScreenBuffer rect1 temp_scr pos 32 (toWORD term.attr),
     ConsoleOp.ScrollConsoleScreenBuffer rect2 temp_scr pos2 32 (toWORD term.attr)]
  else
    [ConsoleOp.ScrollConsoleScreenBuffer rect term.scroll_region pos 32 (toWORD term.attr)]

/-- `console_set_pos` (lines 257-267). -/
def console_set_pos (term : TERM) (x y : Int) : List ConsoleOp :=
  let y1 := if y < 0 then 0 else if y ≥ term.height then isub term.height 1 else y
  let x1 := if x < 0 then 0 else if x ≥ term.width then isub term.width 1 else x
  [ConsoleOp.SetConsoleCursorPosition { X := toSHORT x1, Y := toSHORT y1 }]

/-- `console_resize` (lines 269-299).  `buf_Y` is `buf_info.dwSize.Y`, read
from the console at the start of the call. -/
def console_resize (buf_Y : Int) (width height : Int) : List ConsoleOp :=
  let new_size1 : COORD := { X := toSHORT width, Y := buf_Y }
  let new_screen1 : SMALL_RECT :=
    { Top := 0, Left := 0, Bottom := toSHORT (isub buf_Y 1), Right := toSHORT (isub width 1) }
  let new_size2 : COORD := { X := toSHORT width, Y := toSHORT height }
  let new_screen2 : SMALL_RECT :=
    { Top := 0, Left := 0, Bottom := toSHORT (isub height 1), Right := toSHORT (isub width 1) }
  [ConsoleOp.SetConsoleScreenBufferSize new_size1,
   ConsoleOp.SetConsoleWindowInfo true new_screen1,
   ConsoleOp.SetConsoleScreenBufferSize new_size1,
   ConsoleOp.SetConsoleScreenBufferSize new_size2,
   ConsoleOp.SetConsoleWindowInfo true new_screen2,
   ConsoleOp.SetConsoleScreenBufferSize new_size2]

/-! ## ANSI sequences (lines 302-607) -/

/-- Max string arg length. -/
def MAX_STRARG : Int := 1024

/-- Max number of args in an escape sequence. -/
def MAX_ARG : Int := 16

/-- The struct `SEQUENCE` (lines 314-321).  `pfx` and `pfx2` are the fields
`prefix` and `prefix2`. -/
structure SEQUENCE where
  pfx : Nat
  pfx2 : Nat
  suffix : Nat
  argc : Int
  argv : Nat → Int
  args : Nat → Nat

/-- The store `es.argv[i] = v`; `none` when `i` is outside `argv[MAX_ARG]`. -/
def argv_store (es : SEQUENCE) (i : Int) (v : Int) : Option SEQUENCE :=
  if 0 ≤ i ∧ i < MAX_ARG then
    some { es with argv := Function.update es.argv i.toNat v }
  else none

/-- The store `es.args[i] = c`; `none` when `i` is outside `args[MAX_STRARG]`. -/
def args_store (es : SEQUENCE) (i : Int) (c : Nat) : Option SEQUENCE :=
  if 0 ≤ i ∧ i < MAX_STRARG then
    some { es with args := Function.update es.args i.toNat c }
  else none

/-- The string argument as passed to a callee: the buffer `es.args`. -/
def args_buffer (es : SEQUENCE) : List Nat :=
  (List.range MAX_STRARG.toNat).map es.args

/-- The C string a buffer holds: its characters before the first NUL. -/
def cstring (buffer : List Nat) : List Nat := buffer.takeWhile (fun c => c ≠ 0)

/-- The statement `if (es.argc == 0) es.argv[es.argc++] = v;` on the
interpreter's own copy of the sequence. -/
def default_arg (es : SEQUENCE) (v : Int) : SEQUENCE :=
  if es.argc = 0 then { es with argv := Function.update es.argv 0 v, argc := 1 } else es

/-- The body of the `for` loop of the `m` case for one argument `a`
(lines 344-385): the `switch`, then the colour ranges. -/
def sgr_apply (term : TERM) (a : Int) : TERM :=
  let t1 : TERM :=
    if a = 0 then
      { term with foreground := foreground_default, background := background_default,
                  bold := false, underline := false, rvideo := false, concealed := false }
    else if a = 1 then { term with bold := true }
    else if a = 21 then { term with bold := false }
    else if a = 4 then { term with underline := true }
    else if a = 24 then { term with underline := false }
    else if a = 7 then { term with rvideo := true }
    else if a = 27 then { term with rvideo := false }
    else if a = 8 then { term with concealed := true }
    else if a = 28 then { term with concealed := false }
    else term
  if 100 ≤ a ∧ a ≤ 107 then { t1 with background := a - 100 + 8 }
  else if 90 ≤ a ∧ a ≤ 97 then { t1 with foreground := a - 90 + 8 }
  else if 40 ≤ a ∧ a ≤ 47 then { t1 with background := a - 40 }
  else if 30 ≤ a ∧ a ≤ 37 then { t1 with foreground := a - 30 }
  else t1

/-- The loop `for (i = 0; i < es.argc; i++)` of the `m` case, from index `i`
with `n` iterations left; `none` when it reads outside `argv[MAX_ARG]`. -/
def sgr_loop (argv : Nat → Int) : Nat → Nat → TERM → Option TERM
  | 0, _, term => some term
  | n + 1, i, term =>
    if (i : Int) < MAX_ARG then sgr_loop argv n (i + 1) (sgr_apply term (argv i)) else none

/-- The attribute composed at the end of the `m` case (lines 387-394);
`none` when a colour index is outside the tables. -/
def sgr_attr (term : TERM) : Option Nat :=
  let colours : Option Nat :=
    if term.rvideo then
      match table_get foregroundcolor term.background, table_get backgroundcolor term.foreground with
      | some f, some b => some (f ||| b)
      | _, _ => none
    else
      match table_get foregroundcolor term.foreground, table_get backgroundcolor term.background with
      | some f, some b => some (f ||| b)
      | _, _ => none
  match colours with
  | none => none
  | some a0 =>
    let a1 := if term.bold then a0 ||| FOREGROUND_INTENSITY else a0
    let a2 := if term.underline then a1 ||| BACKGROUND_INTENSITY else a1
    some a2

/-- The OSC branch of `ansi_output` for `number = 255` and `number = 254`
(lines 583-604): the named flag is set to `value`. -/
def set_property (flags : FLAGS) (name : List Nat) (value : Bool) : FLAGS :=
  if wcscasecmp name str_ECHO = 0 then { flags with echo := value }
  else if wcscasecmp name str_ICRNL = 0 then { flags with icrnl := value }
  else if wcscasecmp name str_ONLCR = 0 then { flags with onlcr := value }
  else flags

/-- The CSI branch of `ansi_output` for the suffixes of the `switch`
(lines 340-574), entered with `es.prefix2 == 0`. -/
def ansi_output_csi (term : TERM) (es : SEQUENCE) : Option (TERM × List ConsoleOp) :=
  let sfx := es.suffix
  if sfx = 109 then
    -- case L'm'
    let es1 := default_arg es 0
    match sgr_loop es1.argv es1.argc.toNat 0 term with
    | none => none
    | some term1 =>
      match sgr_attr term1 with
      | none => none
      | some new_attr => some (term1, [ConsoleOp.SetConsoleTextAttribute new_attr])
  else if sfx = 74 then
    -- case L'J'
    let es1 := default_arg es 0
    if es1.argc ≠ 1 then some (term, [])
    else if es1.argv 0 = 0 then
      some (term, console_fill term term.col term.row
        (isub (isub (iadd (imul (isub (isub term.height term.row) 1) term.width) term.width)
          term.col) 1))
    else if es1.argv 0 = 1 then
      some (term, console_fill term 0 0 (iadd (iadd (imul term.row term.width) term.col) 1))
    else if es1.argv 0 = 2 then
      some (term, console_fill term 0 0 (imul term.width term.height) ++ console_set_pos term 0 0)
    else some (term, [])
  else if sfx = 75 then
    -- case L'K'
    let es1 := default_arg es 0
    if es1.argc ≠ 1 then some (term, [])
    else if es1.argv 0 = 0 then
      some (term, console_fill term term.col term.row (iadd (isub term.end_ term.col) 1))
    else if es1.argv 0 = 1 then
      some (term, console_fill term 0 term.row (iadd term.col 1))
    else if es1.argv 0 = 2 then
      some (term, console_fill term 0 term.row term.width)
    else some (term, [])
  else if sfx = 76 then
    -- case L'L'
    let es1 := default_arg es 1
    if es1.argc ≠ 1 then some (term, [])
    else
      some (term,
        console_scroll term 0 term.row (isub term.width 1) (isub term.height 1)
          0 (iadd term.row (es1.argv 0))
        ++ console_fill term 0 term.row (imul term.width (es1.argv 0)))
  else if sfx = 77 then
    -- case L'M'
    let es1 := default_arg es 1
    if es1.argc ≠ 1 then some (term, [])
    else
      let n := if es1.argv 0 > isub term.height term.row then isub term.height term.row
               else es1.argv 0
      some (term,
        console_scroll term 0 (iadd term.row n) (isub term.width 1) (isub term.height 1)
          0 term.row
        ++ console_fill term 0 (isub term.height n) (imul term.width n))
  else if sfx = 80 then
    -- case L'P'
    let es1 := default_arg es 1
    if es1.argc ≠ 1 then some (term, [])
    else
      let n := if iadd term.col (es1.argv 0) > isub term.width 1 then isub term.width term.col
               else es1.argv 0
      some (term,
        console_scroll term (iadd term.col n) term.row (isub term.width 1) term.row
          term.col term.row
        ++ console_fill term (isub term.width n) term.row n)
  else if sfx = 64 then
    -- case L'@'
    let es1 := default_arg es 1
    if es1.argc ≠ 1 then some (term, [])
    else
      let n := if iadd term.col (es1.argv 0) > isub term.width 1 then isub term.width term.col
               else es1.argv 0
      some (term,
        console_scroll term term.col term.row (isub (isub term.width 1) n) term.row
          (iadd term.col n) term.row
        ++ console_fill term term.col term.row n)
  else if sfx = 65 then
    -- case L'A'
    let es1 := default_arg es 1
    if es1.argc ≠ 1 then some (term, [])
    else some (term, console_set_pos term term.col (isub term.row (es1.argv 0)))
  else if sfx = 66 then
    -- case L'B'
    let es1 := default_arg es 1
    if es1.argc ≠ 1 then some (term, [])
    else some (term, console_set_pos term term.col (iadd term.row (es1.argv 0)))
  else if sfx = 67 then
    -- case L'C'
    let es1 := default_arg es 1
    if es1.argc ≠ 1 then some (term, [])
    else some (term, console_set_pos term (iadd term.col (es1.argv 0)) term.row)
  else if sfx = 68 then
    -- case L'D'
    let es1 := default_arg es 1
    if es1.argc ≠ 1 then some (term, [])
    else some (term, console_set_pos term (isub term.col (es1.argv 0)) term.row)
  else if sfx = 69 then
    -- case L'E'
    let es1 := default_arg es 1
    if es1.argc ≠ 1 then some (term, [])
    else some (term, console_set_pos term 0 (iadd term.row (es1.argv 0)))
  else if sfx = 70 then
    -- case L'F'
    let es1 := default_arg es 1
    if es1.argc ≠ 1 then some (term, [])
    else some (term, console_set_pos term 0 (isub term.row (es1.argv 0)))
  else if sfx = 71 then
    -- case L'G'
    let es1 := default_arg es 1
    if es1.argc ≠ 1 then some (term, [])
    else some (term, console_set_pos term (isub (es1.argv 0) 1) term.row)
  else if sfx = 102 ∨ sfx = 72 then
    -- case L'f': case L'H':
    let es1 : SEQUENCE :=
      if es.argc = 0 then
        { es with argv := Function.update (Function.update es.argv 0 1) 1 1, argc := 2 }
      else es
    let es2 : SEQUENCE :=
      if es1.argc = 1 then { es1 with argv := Function.update es1.argv 1 1, argc := 2 }
      else es1
    if es2.argc > 2 then some (term, [])
    else some (term, console_set_pos term (isub (es2.argv 1) 1) (isub (es2.argv 0) 1))
  else if sfx = 115 then
    -- case L's'
    if es.argc ≠ 0 then some (term, [])
    else some ({ term with save_pos := { X := toSHORT term.col, Y := toSHORT term.row } }, [])
  else if sfx = 117 then
    -- case L'u'
    if es.argc ≠ 0 then some (term, [])
    else some (term, [ConsoleOp.SetConsoleCursorPosition term.save_pos])
  else if sfx = 114 then
    -- case L'r'
    if es.argc = 0 then
      some ({ term with scroll_region :=
                { term.scroll_region with Top := 0, Bottom := toSHORT (isub term.height 1) } }, [])
    else if es.argc = 2 then
      some ({ term with scroll_region :=
                { term.scroll_region with Top := toSHORT (isub (es.argv 0) 1),
                                          Bottom := toSHORT (isub (es.argv 1) 1) } }, [])
    else some (term, [])
  else if sfx = 83 then
    -- case L'S'
    if es.argc ≠ 1 then some (term, [])
    else
      some (term,
        console_scroll term 0 (es.argv 0) (isub term.width 1) (isub term.height 1) 0 0
        ++ console_fill term 0 term.scroll_region.Bottom (imul term.width (es.argv 0)))
  else if sfx = 84 then
    -- case L'T'
    if es.argc ≠ 1 then some (term, [])
    else
      some (term,
        console_scroll term 0 0 (isub term.width 1) (isub (isub term.height (es.argv 0)) 1)
          0 (es.argv 0)
        ++ console_fill term 0 term.scroll_region.Top (imul term.width (es.argv 0)))
  else if sfx = 116 then
    -- case L't'
    if es.argc < 3 then some (term, [])
    else if es.argv 0 ≠ 8 then some (term, [])
    else some (term, console_resize term.height (es.argv 2) (es.argv 1))
  else some (term, [])

/-- `ansi_output` (lines 324-607): interprets the sequence `es`, passed by
value.  The result is the terminal state, the flags and the native calls
made, in order; `none` when an array is read outside its bounds. -/
def ansi_output (term : TERM) (flags : FLAGS) (es : SEQUENCE) :
    Option (TERM × FLAGS × List ConsoleOp) :=
  if es.pfx = LBRACKET then
    if es.pfx2 = QUESTION ∧ (es.suffix = 104 ∨ es.suffix = 108)
        ∧ es.argc = 1 ∧ es.argv 0 = 25 then
      some (term, flags, [ConsoleOp.SetConsoleCursorInfo (decide (es.suffix = 104))])
    else if es.pfx2 ≠ 0 then some (term, flags, [])
    else
      match ansi_output_csi term es with
      | none => none
      | some (term1, ops) => some (term1, flags, ops)
  else if es.pfx = RBRACKET ∧ es.suffix = BEL then
    if es.argc ≠ 2 then some (term, flags, [])
    else if es.argv 0 = 2 then
      some (term, flags, [ConsoleOp.SetConsoleTitle (cstring (args_buffer es))])
    else if es.argv 0 = 255 then some (term, set_property flags (args_buffer es) true, [])
    else if es.argv 0 = 254 then some (term, set_property flags (args_buffer es) false, [])
    else some (term, flags, [])
  else some (term, flags, [])

/-! ## Parser (lines 753-894) -/

/-- The struct `PARSER` (lines 757-761). -/
structure PARSER where
  es : SEQUENCE
  term : TERM
  state : Int

/-- The start of the loop body of `parser_print` (lines 793-800): the
transient fields of the terminal state are reloaded from the console. -/
def term_refresh (term : TERM) (info : CONSOLE_SCREEN_BUFFER_INFO) : TERM :=
  { term with col := info.dwCursorPosition.X, row := info.dwCursorPosition.Y,
              width := info.dwSize.X, height := info.dwSize.Y,
              attr := info.wAttributes, end_ := info.srWindow.Right }

/-- The dispatch `ansi_output(&(p->term), p->es); p->state = 1;`. -/
def parser_dispatch (p : PARSER) (flags : FLAGS) :
    Option (PARSER × FLAGS × List ConsoleOp) :=
  match ansi_output p.term flags p.es with
  | none => none
  | some (term1, flags1, ops) => some ({ p with term := term1, state := 1 }, flags1, ops)

/-- One iteration of the loop of `parser_print` (lines 792-892) on the
character `c`, after the console's answer `info`. -/
def parser_step (p0 : PARSER) (flags : FLAGS) (info : CONSOLE_SCREEN_BUFFER_INFO) (c : Nat) :
    Option (PARSER × FLAGS × List ConsoleOp) :=
  let p : PARSER := { p0 with term := term_refresh p0.term info }
  if p.state = 1 then
    if c = ESC then some ({ p with state := 2 }, flags, [])
    else
      some (p, flags,
        (if c ≠ 0 then console_put_char p.term (if p.term.concealed then 32 else c) else [])
        ++ (if flags.onlcr ∧ c = 13 then console_put_char p.term 10 else []))
  else if p.state = 2 then
    if c = ESC then some (p, flags, [])
    else if c = LBRACKET then
      some ({ p with es := { p.es with pfx := c, pfx2 := 0 }, state := 3 }, flags, [])
    else if c = RBRACKET then
      some ({ p with es := { p.es with pfx := c, pfx2 := 0, argc := 0,
                                       argv := Function.update p.es.argv 0 0 },
                     state := 5 }, flags, [])
    else some ({ p with state := 1 }, flags, [])
  else if p.state = 3 then
    if iswdigit c then
      some ({ p with es := { p.es with argc := 0,
                                       argv := Function.update p.es.argv 0 ((c : Int) - ZERO) },
                     state := 4 }, flags, [])
    else if c = SEMICOLON then
      some ({ p with es := { p.es with argc := 1,
                                       argv := Function.update (Function.update p.es.argv 0 0) 1 0 },
                     state := 4 }, flags, [])
    else if c = QUESTION then
      some ({ p with es := { p.es with pfx2 := c } }, flags, [])
    else
      parser_dispatch { p with es := { p.es with argc := 0, suffix := c } } flags
  else if p.state = 4 then
    if iswdigit c then
      match argv_store p.es p.es.argc
          (iadd (imul 10 (p.es.argv p.es.argc.toNat)) ((c : Int) - ZERO)) with
      | none => none
      | some es1 => some ({ p with es := es1 }, flags, [])
    else if c = SEMICOLON then
      let argc1 := if p.es.argc < MAX_ARG - 1 then p.es.argc + 1 else p.es.argc
      match argv_store { p.es with argc := argc1 } argc1 0 with
      | none => none
      | some es1 => some ({ p with es := es1 }, flags, [])
    else
      let argc1 := if p.es.argc < MAX_ARG - 1 then p.es.argc + 1 else p.es.argc
      parser_dispatch { p with es := { p.es with argc := argc1, suffix := c } } flags
  else if p.state = 5 then
    if iswdigit c then
      some ({ p with es := { p.es with argc := 1,
                                       argv := Function.update p.es.argv 0
                                         (iadd (imul 10 (p.es.argv 0)) ((c : Int) - ZERO)) } },
            flags, [])
    else if c = SEMICOLON then
      some ({ p with es := { p.es with argc := 2, argv := Function.update p.es.argv 1 0 },
                     state := 6 }, flags, [])
    else
      parser_dispatch { p with es := { p.es with suffix := c } } flags
  else if p.state = 6 then
    if c ≠ BEL ∧ p.es.argv 1 < MAX_STRARG - 1 then
      match args_store p.es (p.es.argv 1) c with
      | none => none
      | some es1 =>
        some ({ p with es := { es1 with argv := Function.update es1.argv 1 (iadd (es1.argv 1) 1) } },
              flags, [])
    else
      match args_store p.es (p.es.argv 1) 0 with
      | none => none
      | some es1 => parser_dispatch { p with es := { es1 with suffix := c } } flags
  else some (p, flags, [])

/-- A deterministic console: its answer to `GetConsoleScreenBufferInfo` and
its reaction to each native call. -/
structure Console (σ : Type) where
  info : σ → CONSOLE_SCREEN_BUFFER_INFO
  exec : σ → ConsoleOp → σ

/-- Everything `parser_print` reads and writes: the parser, the global
`flags`, the console, and the log of the native calls made so far. -/
structure World (σ : Type) where
  parser : PARSER
  flags : FLAGS
  console : σ
  trace : List ConsoleOp

/-- The loop body of `parser_print` against the console `C`. -/
def parser_char {σ : Type} (C : Console σ) (w : World σ) (c : Nat) : Option (World σ) :=
  match parser_step w.parser w.flags (C.info w.console) c with
  | none => none
  | some (p1, flags1, ops) =>
    some { parser := p1, flags := flags1,
           console := ops.foldl C.exec w.console,
           trace := w.trace ++ ops }

/-- `parser_print` (lines 789-894): `for (; buflen && *s; --buflen, ++s)`.
The string `s` is given by the characters of its buffer, which is NUL
terminated at its end. -/
def parser_print {σ : Type} (C : Console σ) (w : World σ) : List Nat → Int → Option (World σ)
  | [], _ => some w
  | c :: s, buflen =>
    if buflen = 0 ∨ c = 0 then some w
    else
      match parser_char C w c with
      | none => none
      | some w1 => parser_print C w1 s (buflen - 1)

/-- The zero-initialised `static PARSER global_parser = { 0 }` (line 902). -/
def global_parser_zeroed : PARSER :=
  { es := { pfx := 0, pfx2 := 0, suffix := 0, argc := 0, argv := fun _ => 0, args := fun _ => 0 },
    term := { foreground := 0, background := 0, concealed := false, bold := false,
              underline := false, rvideo := false,
              scroll_region := { Left := 0, Top := 0, Right := 0, Bottom := 0 },
              save_pos := { X := 0, Y := 0 },
              col := 0, row := 0, width := 0, height := 0, attr := 0, end_ := 0 },
    state := 0 }

/-- `parser_init` (lines 764-783). -/
def parser_init (p : PARSER) (info : CONSOLE_SCREEN_BUFFER_INFO) : PARSER :=
  { p with
    state := 1,
    term := { p.term with
              foreground := foreground_default,
              background := background_default,
              scroll_region := { Left := 0, Right := toSHORT (isub info.dwSize.X 1),
                                 Top := 0, Bottom := toSHORT (isub info.dwSize.Y 1) } },
    es := { p.es with pfx := 0, pfx2 := 0, suffix := 0, argc := 0,
                      args := Function.update p.es.args 0 0 } }

/-- A console whose screen-buffer answer never changes; it ignores every
call.  Used to evaluate the code on concrete inputs. -/
def static_console : Console CONSOLE_SCREEN_BUFFER_INFO :=
  { info := fun s => s, exec := fun s _ => s }

/-- The world after `winsi_init` on the console state `s`. -/
def initial_world {σ : Type} (C : Console σ) (s : σ) : World σ :=
  { parser := parser_init global_parser_zeroed (C.info s), flags := flags_initial,
    console := s, trace := [] }

/-! ## Devices for stating and proving properties of the scanner -/

/-- The loop of `parser_print` over characters known to be non-NUL, with a
count that does not run out. -/
def feed {σ : Type} (C : Console σ) (w : World σ) : List Nat → Option (World σ)
  | [] => some w
  | c :: s =>
    match parser_char C w c with
    | none => none
    | some w1 => feed C w1 s

/-- The world after the scanner, in world `w`, completes the sequence `es`
and dispatches it: `ansi_output` runs on the refreshed terminal state and its
native calls are executed by the console. -/
def world_dispatch {σ : Type} (C : Console σ) (w : World σ) (es : SEQUENCE) : Option (World σ) :=
  match ansi_output (term_refresh w.parser.term (C.info w.console)) w.flags es with
  | none => none
  | some (term1, flags1, ops) =>
    some { parser := { es := es, term := term1, state := 1 }, flags := flags1,
           console := ops.foldl C.exec w.console, trace := w.trace ++ ops }

/-- A parameter character of a CSI sequence: a digit or `;`. -/
def is_param (c : Nat) : Bool := iswdigit c || decide (c = SEMICOLON)

/-- The suffixes `ansi_output` has a case for: those of its `switch`, and
`h` and `l` of the cursor-visibility sequences. -/
def csi_suffixes : List Nat :=
  [109, 74, 75, 76, 77, 80, 64, 65, 66, 67, 68, 69, 70, 71, 102, 72, 115, 117, 114, 83, 84, 116,
   104, 108]

/-- `w1` differs from `w` in nothing but the pending sequence, the scanner
state and the transient snapshot fields of the terminal state: no native call
was made, and the flags and the style, scroll-region and saved-cursor fields
are the same. -/
def Silent {σ : Type} (w w1 : World σ) : Prop :=
  w1.trace = w.trace ∧ w1.console = w.console ∧ w1.flags = w.flags ∧
  ∀ i, term_refresh w1.parser.term i = term_refresh w.parser.term i

/-- A sample screen-buffer answer: 80 x 25, cursor at column 1 of row 0. -/
def sample_info : CONSOLE_SCREEN_BUFFER_INFO :=
  { dwSize := { X := 80, Y := 25 }, dwCursorPosition := { X := 1, Y := 0 },
    wAttributes := 7, srWindow := { Left := 0, Top := 0, Right := 79, Bottom := 24 } }

/-- The world after `winsi_init` on the static sample console. -/
def sample_world : World CONSOLE_SCREEN_BUFFER_INFO := initial_world static_console sample_info

/-- The characters of a CSI sequence: `ESC [`, `k` times `?`, the parameter
characters, and the suffix. -/
def csi_sequence (k : Nat) (params : List Nat) (sfx : Nat) : List Nat :=
  [27, 91] ++ List.replicate k 63 ++ params ++ [sfx]

/-! ## The spec's reading of the cursor-motion sequences -/

/-- The suffixes of the cursor-motion sequences: `A B C D E F G H f`. -/
def motion_suffixes : List Nat := [65, 66, 67, 68, 69, 70, 71, 72, 102]

/-- The arguments of a completed sequence: `argv[0 .. argc-1]`. -/
def seq_args (es : SEQUENCE) : List Int := (List.range es.argc.toNat).map es.argv

/-- The position (column, row) a cursor-motion sequence requests, as the
spec's dispatch table gives it, in unbounded integers: `A`/`B`/`C`/`D` move
up/down/forward/back by N; `E`/`F` move down/up by N to the first column; `G`
goes to the 1-based column N; `H`/`f` go to the 1-based row;column.  An
omitted argument is 1. -/
def motion_target (sfx : Nat) (col row : Int) (args : List Int) : Option (Int × Int) :=
  let n := args.headD 1
  if sfx = 65 then some (col, row - n)
  else if sfx = 66 then some (col, row + n)
  else if sfx = 67 then some (col + n, row)
  else if sfx = 68 then some (col - n, row)
  else if sfx = 69 then some (0, row + n)
  else if sfx = 70 then some (0, row - n)
  else if sfx = 71 then some (n - 1, row)
  else if sfx = 72 ∨ sfx = 102 then some (args.getD 1 1 - 1, n - 1)
  else none

/-- The value `x` clamped to `[lo, hi]`. -/
def clamp (lo hi x : Int) : Int := if x < lo then lo else if x > hi then hi else x

/-- The integer `x` is the value of a C `int`. -/
def fits_int (x : Int) : Prop := -2147483648 ≤ x ∧ x ≤ 2147483647

/-! ## The spec's reading of Select Graphic Rendition (its section 4.2.1) -/

/-- The spec's rule for one SGR argument `n`: `0` resets all style and colour
to the defaults; `1`/`21` bold on/off; `4`/`24` underline on/off; `7`/`27`
reverse video on/off; `8`/`28` concealed on/off; `30-37`/`90-97` set the
foreground (normal/bright); `40-47`/`100-107` set the background
(normal/bright); any other value changes nothing. -/
def spec_sgr_rule (t : TERM) (n : Int) : TERM :=
  if n = 0 then
    { t with foreground := foreground_default, background := background_default,
             bold := false, underline := false, rvideo := false, concealed := false }
  else if n = 1 then { t with bold := true }
  else if n = 21 then { t with bold := false }
  else if n = 4 then { t with underline := true }
  else if n = 24 then { t with underline := false }
  else if n = 7 then { t with rvideo := true }
  else if n = 27 then { t with rvideo := false }
  else if n = 8 then { t with concealed := true }
  else if n = 28 then { t with concealed := false }
  else if 30 ≤ n ∧ n ≤ 37 then { t with foreground := n - 30 }
  else if 90 ≤ n ∧ n ≤ 97 then { t with foreground := 8 + (n - 90) }
  else if 40 ≤ n ∧ n ≤ 47 then { t with background := n - 40 }
  else if 100 ≤ n ∧ n ≤ 107 then { t with background := 8 + (n - 100) }
  else t

/-- The spec's table-driven composition of the native attribute from a style
state: the two colour lookups, with the roles swapped under reverse video,
OR-ed with the foreground-intensity bit when bold and the
background-intensity bit when underline. -/
def spec_attr (t : TERM) : Nat :=
  let colours :=
    if t.rvideo then
      foregroundcolor.getD t.background.toNat 0 ||| backgroundcolor.getD t.foreground.toNat 0
    else
      foregroundcolor.getD t.foreground.toNat 0 ||| backgroundcolor.getD t.background.toNat 0
  (colours ||| (if t.bold then FOREGROUND_INTENSITY else 0))
    ||| (if t.underline then BACKGROUND_INTENSITY else 0)

/-- The arguments an `m` sequence applies: those given, or `[0]` when none is. -/
def sgr_args (es : SEQUENCE) : List Int := if es.argc = 0 then [0] else seq_args es

/-! ## Text between a cursor save and a cursor restore -/

/-- One item of output text: a literal character, or a cursor-motion
sequence `ESC [ params suffix`. -/
inductive Piece where
  | literal (c : Nat)
  | motion (params : List Nat) (sfx : Nat)

/-- The characters of a piece. -/
def Piece.chars : Piece → List Nat
  | Piece.literal c => [c]
  | Piece.motion params sfx => csi_sequence 0 params sfx

/-- A literal character is neither NUL (the end of the string) nor ESC; a
cursor-motion sequence has digits and `;` as parameters and one of the
suffixes `A B C D E F G H f`. -/
def Piece.wf : Piece → Prop
  | Piece.literal c => c ≠ 0 ∧ c ≠ 27
  | Piece.motion params sfx => (∀ c ∈ params, is_param c = true) ∧ sfx ∈ motion_suffixes

/-- The characters of a list of pieces, in order. -/
def pieces_chars : List Piece → List Nat
  | [] => []
  | p :: ps => p.chars ++ pieces_chars ps

/-! ## OSC sequences as character strings -/

/-- The characters of an OSC sequence `ESC ] digits ; text BEL`. -/
def osc_sequence (digits text : List Nat) : List Nat :=
  [27, 93] ++ digits ++ [59] ++ text ++ [7]

/-- The number the scanner accumulates in `argv[0]` from the digits of an OSC
sequence, starting from `v`: `10*v + digit` in `int` arithmetic at each
digit (line 868). -/
def osc_number (v : Int) (digits : List Nat) : Int :=
  digits.foldl (fun a d => iadd (imul 10 a) ((d : Int) - ZERO)) v

/-- The first `m` characters of the buffer `es.args`. -/
def args_first (es : SEQUENCE) (m : Nat) : List Nat := (List.range m).map es.args

/-- The string `s` is the name `name` (given in upper case) in some mix of
upper and lower case. -/
def is_case_variant (s name : List Nat) : Prop :=
  List.Forall₂ (fun c u => c = u ∨ c = u + 32) s name

/-! ## The invariant behind the array bounds -/

/-- The facts about the parser that keep every array access of
`parser_print` and `ansi_output` inside its array: the argument count is an
index of `argv[MAX_ARG]`, while the string argument is read its length
`argv[1]` is an index of `args[MAX_STRARG]`, and the two colours are indices
of the 16-entry colour tables. -/
def parser_inv (p : PARSER) : Prop :=
  (0 ≤ p.es.argc ∧ p.es.argc ≤ MAX_ARG - 1) ∧
  (p.state = 6 → 0 ≤ p.es.argv 1 ∧ p.es.argv 1 ≤ MAX_STRARG - 1) ∧
  (0 ≤ p.term.foreground ∧ p.term.foreground ≤ 15) ∧
  (0 ≤ p.term.background ∧ p.term.background ≤ 15)

/-! ## Sample sequences for the scroll region -/

/-- The sequence record of `ESC [ top ; bottom r` as the scanner hands it to
`ansi_output`. -/
def region_sequence (top bottom : Int) : SEQUENCE :=
  { global_parser_zeroed.es with
    pfx := LBRACKET, suffix := 114, argc := 2,
    argv := Function.update (Function.update global_parser_zeroed.es.argv 0 top) 1 bottom }

/-- The terminal state of the sample world at a dispatch, after the reload
from the console. -/
def sample_term : TERM := term_refresh sample_world.parser.term sample_info

/-! ## A simulated screen buffer

The native console is outside the module.  To state what the erase sequences
do to the cells of the screen, the calls they make are given the behaviour
the console API documents for them. -/

/-- A screen buffer of `width` x `height` cells with a cursor and the current
attribute (a `WORD`); the character and the attribute of a cell are found at
its row-major offset `row * width + col`. -/
structure Screen where
  width : Int
  height : Int
  cursor : COORD
  attr : Nat
  chars : Int → Nat
  attrs : Int → Nat

/-- The position lies inside the screen buffer. -/
def Screen.inside (sc : Screen) (pos : COORD) : Bool :=
  decide (0 ≤ pos.X ∧ pos.X < sc.width ∧ 0 ≤ pos.Y ∧ pos.Y < sc.height)

/-- The row-major offset of a position. -/
def Screen.offset (sc : Screen) (pos : COORD) : Int := pos.Y * sc.width + pos.X

/-- The cells a fill of `len` cells from `pos` writes: `len` consecutive
cells in row-major order, as far as the buffer reaches. -/
def Screen.filled (sc : Screen) (len : Int) (pos : COORD) (o : Int) : Bool :=
  decide (sc.offset pos ≤ o ∧ o < sc.offset pos + len ∧ o < sc.width * sc.height)

/-- The effect of a native call on the simulated screen.  The two fills
write consecutive cells from a position inside the buffer; the cursor is
set to a position inside the buffer; a call with a position outside fails
and changes nothing.  The calls that write text at the cursor, scroll,
resize, set the title or the cursor visibility are not simulated and leave
the screen as it is. -/
def screen_exec (sc : Screen) : ConsoleOp → Screen
  | ConsoleOp.FillConsoleOutputCharacter ch len pos =>
    if sc.inside pos then
      { sc with chars := fun o => if sc.filled len pos o then ch else sc.chars o }
    else sc
  | ConsoleOp.FillConsoleOutputAttribute a len pos =>
    if sc.inside pos then
      { sc with attrs := fun o => if sc.filled len pos o then a else sc.attrs o }
    else sc
  | ConsoleOp.SetConsoleCursorPosition pos =>
    if sc.inside pos then { sc with cursor := pos } else sc
  | ConsoleOp.SetConsoleTextAttribute a => { sc with attr := a }
  | ConsoleOp.WriteConsoleOutput ch a dest =>
    if sc.inside { X := dest.Left, Y := dest.Top } then
      { sc with
        chars := fun o => if o = sc.offset { X := dest.Left, Y := dest.Top } then ch
                          else sc.chars o,
        attrs := fun o => if o = sc.offset { X := dest.Left, Y := dest.Top } then a
                          else sc.attrs o }
    else sc
  | _ => sc

/-- The answer of the simulated screen to `GetConsoleScreenBufferInfo`; the
window shows the whole buffer. -/
def screen_info (sc : Screen) : CONSOLE_SCREEN_BUFFER_INFO :=
  { dwSize := { X := sc.width, Y := sc.height }, dwCursorPosition := sc.cursor,
    wAttributes := sc.attr,
    srWindow := { Left := 0, Top := 0, Right := sc.width - 1, Bottom := sc.height - 1 } }

/-- The simulated screen as a console. -/
def screen_console : Console Screen := { info := screen_info, exec := screen_exec }

/-- A sample screen: 80 x 25, cursor at column 1 of row 0, attribute 7, every
cell holding the letter `x` with attribute 112. -/
def sample_screen : Screen :=
  { width := 80, height := 25, cursor := { X := 1, Y := 0 }, attr := 7,
    chars := fun _ => 120, attrs := fun _ => 112 }

/-- The world after `winsi_init` on the sample screen. -/
def sample_screen_world : World Screen := initial_world screen_console sample_screen

/-! ## The characters written to the screen -/

/-- The character a native call puts on the screen, for the two calls of
`console_put_char`. -/
def written_char : ConsoleOp → Option Nat
  | ConsoleOp.WriteConsoleOutput ch _ _ => some ch
  | ConsoleOp.WriteConsole ch => some ch
  | _ => none

/-- The characters a list of native calls puts on the screen, in order. -/
def written_chars (ops : List ConsoleOp) : List Nat := ops.filterMap written_char

/-- What the Ground state outputs for the literal character `c`: the
character, or a space when the style is concealed, and after a carriage
return a line feed when ONLCR is on. -/
def ground_output (flags : FLAGS) (concealed : Bool) (c : Nat) : List Nat :=
  (if concealed then 32 else c) :: (if flags.onlcr ∧ c = 13 then [10] else [])

/-- The sample world with the ONLCR flag turned on. -/
def sample_world_onlcr : World CONSOLE_SCREEN_BUFFER_INFO :=
  { sample_world with flags := { sample_world.flags with onlcr := true } }

/-! ## String buffer (lines 126-168) -/

/-- The struct `WSTR` (lines 126-130).  `buffer` is the caller's array, of
`size` cells; `size` and `count` are `long`, 32 bits wide on Windows. -/
structure WSTR where
  buffer : Nat → Nat
  size : Int
  count : Int

/-- `wstr_create_empty` (lines 132-140). -/
def wstr_create_empty (buffer : Nat → Nat) (size : Int) : WSTR :=
  { buffer := if size > 0 then Function.update buffer 0 0 else buffer, size := size, count := 0 }

/-- The store `wstr->buffer[i] = c`; `none` when `i` is outside the `size`
cells of the buffer. -/
def wstr_store (wstr : WSTR) (i : Int) (c : Nat) : Option WSTR :=
  if 0 ≤ i ∧ i < wstr.size then
    some { wstr with buffer := Function.update wstr.buffer i.toNat c }
  else none

/-- The call `wcsncpy(wstr->buffer, instr, n)` of the C library: exactly `n`
cells are written from the start of the buffer, the characters of `instr` and
then NULs.  The count is converted to `size_t`, so a negative `n` is a count
beyond every array; `none` when the `n` cells are not inside the buffer. -/
def wcsncpy (wstr : WSTR) (instr : List Nat) (n : Int) : Option WSTR :=
  if 0 ≤ n ∧ n ≤ wstr.size then
    some { wstr with
           buffer := fun i => if (i : Int) < n then (cstring instr).getD i 0 else wstr.buffer i }
  else none

/-- The call `wcscpy(wstr->buffer + wstr->count, instr)` of the C library:
the characters of `instr` and the terminating NUL are written from the index
`count`; `none` when they are not inside the buffer. -/
def wcscpy (wstr : WSTR) (instr : List Nat) : Option WSTR :=
  if 0 ≤ wstr.count ∧ wstr.count + (cstring instr).length + 1 ≤ wstr.size then
    some { wstr with
           buffer := fun i =>
             if wstr.count ≤ (i : Int) ∧ (i : Int) ≤ wstr.count + (cstring instr).length then
               (cstring instr).getD (i - wstr.count.toNat) 0
             else wstr.buffer i }
  else none

/-- `wstr_write` (lines 143-154).  The result is the string and whether the
pointer returned is not NULL. -/
def wstr_write (wstr : WSTR) (instr : List Nat) (length : Int) : Option (WSTR × Bool) :=
  if iadd (iadd wstr.count length) 1 > wstr.size then
    match wcsncpy wstr instr (isub (isub wstr.size wstr.count) 1) with
    | none => none
    | some w1 =>
      match wstr_store w1 (isub w1.count 1) 0 with
      | none => none
      | some w2 => some ({ w2 with count := w2.size }, false)
  else
    match wcscpy wstr instr with
    | none => none
    | some w1 => some ({ w1 with count := iadd w1.count length }, true)

/-- `wstr_write_char` (lines 156-165). -/
def wstr_write_char (wstr : WSTR) (c : Nat) : Option (WSTR × Bool) :=
  if iadd wstr.count 2 > wstr.size then some ({ wstr with count := wstr.size }, false)
  else
    match wstr_store wstr wstr.count c with
    | none => none
    | some w1 =>
      match wstr_store { w1 with count := iadd w1.count 1 } (iadd w1.count 1) 0 with
      | none => none
      | some w2 => some (w2, true)

/-- The text a string buffer holds: its first `count` characters. -/
def wstr_text (wstr : WSTR) : List Nat := (List.range wstr.count.toNat).map wstr.buffer

/-! ## Input (lines 609-750) -/

/-- `emit_char` (lines 611-619).  `echoed` is what has been printed on the
standard output so far. -/
def emit_char (flags : FLAGS) (wstr : WSTR) (echoed : List Nat) (c : Nat) :
    Option (WSTR × List Nat) :=
  match wstr_write_char wstr c with
  | none => none
  | some (w1, _) =>
    some (w1, if flags.echo then echoed ++ [if c = 13 then 10 else c] else echoed)

/-- The fields of `KEY_EVENT_RECORD` the module reads. -/
structure KEY_EVENT_RECORD where
  bKeyDown : Bool
  wVirtualKeyCode : Nat
  UnicodeChar : Nat
  dwControlKeyState : Nat
deriving DecidableEq, Repr

/-- The fields of `INPUT_RECORD` the module reads. -/
structure INPUT_RECORD where
  EventType : Nat
  KeyEvent : KEY_EVENT_RECORD
deriving DecidableEq, Repr

/-- `KEY_EVENT` of the console API. -/
def KEY_EVENT : Nat := 1
/-- Virtual key codes of the Windows headers: the Alt key, and the keys the
`switch` of `ansi_input` has a case for. -/
def VK_MENU : Nat := 18
def VK_PRIOR : Nat := 33
def VK_NEXT : Nat := 34
def VK_END : Nat := 35
def VK_HOME : Nat := 36
def VK_LEFT : Nat := 37
def VK_UP : Nat := 38
def VK_RIGHT : Nat := 39
def VK_DOWN : Nat := 40
def VK_INSERT : Nat := 45
def VK_DELETE : Nat := 46
def VK_F1 : Nat := 112
def VK_F2 : Nat := 113
def VK_F3 : Nat := 114
def VK_F4 : Nat := 115
def VK_F5 : Nat := 116
def VK_F6 : Nat := 117
def VK_F7 : Nat := 118
def VK_F8 : Nat := 119
def VK_F9 : Nat := 120
def VK_F10 : Nat := 121
def VK_F11 : Nat := 122
def VK_F12 : Nat := 123

/-- The cases of the `switch` on the virtual key code (lines 664-728): the
string and the length handed to `wstr_write`; `none` for the `default`
case. -/
def key_sequence (vk : Nat) : Option (List Nat × Int) :=
  if vk = VK_PRIOR then some ([27, 91, 53, 126], 4)
  else if vk = VK_NEXT then some ([27, 91, 54, 126], 4)
  else if vk = VK_END then some ([27, 79, 70], 3)
  else if vk = VK_HOME then some ([27, 79, 72], 3)
  else if vk = VK_LEFT then some ([27, 91, 68], 3)
  else if vk = VK_UP then some ([27, 91, 65], 3)
  else if vk = VK_RIGHT then some ([27, 91, 67], 3)
  else if vk = VK_DOWN then some ([27, 91, 66], 3)
  else if vk = VK_INSERT then some ([27, 91, 50, 126], 4)
  else if vk = VK_DELETE then some ([27, 91, 51, 126], 4)
  else if vk = VK_F1 then some ([27, 79, 80], 3)
  else if vk = VK_F2 then some ([27, 79, 81], 3)
  else if vk = VK_F3 then some ([27, 79, 82], 3)
  else if vk = VK_F4 then some ([27, 79, 83], 3)
  else if vk = VK_F5 then some ([27, 91, 49, 53, 126], 5)
  else if vk = VK_F6 then some ([27, 91, 49, 55, 126], 5)
  else if vk = VK_F7 then some ([27, 91, 49, 56, 126], 5)
  else if vk = VK_F8 then some ([27, 91, 49, 57, 126], 5)
  else if vk = VK_F9 then some ([27, 91, 50, 48, 126], 5)
  else if vk = VK_F10 then some ([27, 91, 50, 49, 126], 5)
  else if vk = VK_F11 then some ([27, 91, 50, 51, 126], 5)
  else if vk = VK_F12 then some ([27, 91, 50, 52, 126], 5)
  else none

/-- How the body of the event loop of `ansi_input` ends: the loop goes on, or
the function returns 1 after the overflow check. -/
inductive EventResult where
  | next (wstr : WSTR) (echoed : List Nat)
  | overflow (wstr : WSTR) (echoed : List Nat)

/-- The key-down branch of the event loop up to the overflow check
(lines 652-732): with Ctrl or Alt held the Unicode character is emitted,
otherwise the `switch` on the virtual key code runs. -/
def key_down_write (flags : FLAGS) (wstr : WSTR) (echoed : List Nat) (ke : KEY_EVENT_RECORD) :
    Option (WSTR × List Nat) :=
  if ke.dwControlKeyState &&& 15 ≠ 0 then
    emit_char flags wstr echoed ke.UnicodeChar
  else
    match key_sequence ke.wVirtualKeyCode with
    | some (s, n) =>
      match wstr_write wstr s n with
      | none => none
      | some (w1, _) => some (w1, echoed)
    | none => emit_char flags wstr echoed ke.UnicodeChar

/-- The end of the key-down branch (lines 733-742): the overflow check, then
the replacement of a last character CR by LF under `flags.icrnl`; `none`
when `buffer[count-1]` is outside the buffer. -/
def key_down_check (flags : FLAGS) (wstr : WSTR) (echoed : List Nat) : Option EventResult :=
  match wstr_write wstr [] 0 with
  | none => none
  | some (w2, ok) =>
    if ok = false then some (EventResult.overflow w2 echoed)
    else if flags.icrnl then
      if 0 ≤ isub w2.count 1 ∧ isub w2.count 1 < w2.size then
        if w2.buffer (isub w2.count 1).toNat = 13 then
          match wstr_store w2 (isub w2.count 1) 10 with
          | none => none
          | some w3 => some (EventResult.next w3 echoed)
        else some (EventResult.next w2 echoed)
      else none
    else some (EventResult.next w2 echoed)

/-- The body of the event loop of `ansi_input` (lines 644-743) for one
event; `none` when a library call or a store leaves the buffer. -/
def ansi_input_event (flags : FLAGS) (wstr : WSTR) (echoed : List Nat) (ev : INPUT_RECORD) :
    Option EventResult :=
  if ev.EventType = KEY_EVENT then
    if ev.KeyEvent.bKeyDown = false then
      if ev.KeyEvent.wVirtualKeyCode = VK_MENU then
        -- key-up event for unicode Alt+HEX input
        match emit_char flags wstr echoed ev.KeyEvent.UnicodeChar with
        | none => none
        | some (w1, e1) => some (EventResult.next w1 e1)
      else some (EventResult.next wstr echoed)
    else
      match key_down_write flags wstr echoed ev.KeyEvent with
      | none => none
      | some (w1, e1) => key_down_check flags w1 e1
  else some (EventResult.next wstr echoed)

/-- The event loop `for (i = 0; i < ecount; ++i)` of `ansi_input`. -/
def ansi_input_loop (flags : FLAGS) : WSTR → List Nat → List INPUT_RECORD → Option EventResult
  | wstr, echoed, [] => some (EventResult.next wstr echoed)
  | wstr, echoed, ev :: evs =>
    match ansi_input_event flags wstr echoed ev with
    | none => none
    | some (EventResult.overflow w1 e1) => some (EventResult.overflow w1 e1)
    | some (EventResult.next w1 e1) => ansi_input_loop flags w1 e1 evs

/-- What a call of `ansi_input` leaves: its return value, the caller's
buffer, `*count`, the standard output, and the events still queued. -/
structure InputResult where
  ret : Int
  wide_buffer : Nat → Nat
  count : Int
  echoed : List Nat
  queue : List INPUT_RECORD

/-- `ansi_input` (lines 623-750) on the queue of input events of the
console, with `GetNumberOfConsoleInputEvents` and `ReadConsoleInput` taken
to succeed; `count` is `*count` before the call. -/
def ansi_input (flags : FLAGS) (queue : List INPUT_RECORD) (wide_buffer : Nat → Nat)
    (count : Int) (echoed : List Nat) : Option InputResult :=
  let wstr := wstr_create_empty wide_buffer IO_BUFLEN
  if queue.length = 0 then
    some { ret := 0, wide_buffer := wstr.buffer, count := 0, echoed := echoed, queue := queue }
  else
    let events := queue.take ((IO_BUFLEN - 1) / 5)
    let rest := queue.drop ((IO_BUFLEN - 1) / 5)
    match ansi_input_loop flags wstr echoed events with
    | none => none
    | some (EventResult.overflow w1 e1) =>
      some { ret := 1, wide_buffer := w1.buffer, count := count, echoed := e1, queue := rest }
    | some (EventResult.next w1 e1) =>
      some { ret := 0, wide_buffer := w1.buffer, count := toDWORD w1.count, echoed := e1,
             queue := rest }

/-- The characters a call of `ansi_input` reports: the first `count` cells of
the caller's buffer. -/
def InputResult.text (r : InputResult) : List Nat :=
  (List.range r.count.toNat).map r.wide_buffer

/-- The virtual key code of the Enter key, a key the `switch` has no case
for. -/
def VK_RETURN : Nat := 13

/-- A key-down event without modifier keys. -/
def key_down (vk : Nat) (c : Nat) : INPUT_RECORD :=
  { EventType := KEY_EVENT,
    KeyEvent := { bKeyDown := true, wVirtualKeyCode := vk, UnicodeChar := c,
                  dwControlKeyState := 0 } }

/-- The key-up event of the Alt key that delivers the character `c`. -/
def alt_key_up (c : Nat) : INPUT_RECORD :=
  { EventType := KEY_EVENT,
    KeyEvent := { bKeyDown := false, wVirtualKeyCode := VK_MENU, UnicodeChar := c,
                  dwControlKeyState := 0 } }

/-! ## Argument counts the interpreter does not accept -/

/-- The argument counts the spec lists as wrong for a suffix: `s` or `u` with
one or more arguments, `S` or `T` with none or with two or more, `r` with one
or with three or more, `J K L M P @ A B C D E F G` with two or more, `H` or
`f` with three or more, and `t` with fewer than three or with a first
argument other than 8. -/
def wrong_count (es : SEQUENCE) : Prop :=
  ((es.suffix = 115 ∨ es.suffix = 117) ∧ 1 ≤ es.argc) ∨
  ((es.suffix = 83 ∨ es.suffix = 84) ∧ (es.argc = 0 ∨ 2 ≤ es.argc)) ∨
  (es.suffix = 114 ∧ (es.argc = 1 ∨ 3 ≤ es.argc)) ∨
  (es.suffix ∈ [74, 75, 76, 77, 80, 64, 65, 66, 67, 68, 69, 70, 71] ∧ 2 ≤ es.argc) ∨
  ((es.suffix = 72 ∨ es.suffix = 102) ∧ 3 ≤ es.argc) ∨
  (es.suffix = 116 ∧ (es.argc < 3 ∨ es.argv 0 ≠ 8))

/-! ## Sample consoles with the cursor in the last column -/

/-- A screen-buffer answer of 80 x 25 with the cursor in the last column of
the first row. -/
def edge_info : CONSOLE_SCREEN_BUFFER_INFO :=
  { dwSize := { X := 80, Y := 25 }, dwCursorPosition := { X := 79, Y := 0 },
    wAttributes := 7, srWindow := { Left := 0, Top := 0, Right := 79, Bottom := 24 } }

/-- A screen-buffer answer of 80 x 25 with the cursor in the last column of
the last row. -/
def corner_info : CONSOLE_SCREEN_BUFFER_INFO :=
  { dwSize := { X := 80, Y := 25 }, dwCursorPosition := { X := 79, Y := 24 },
    wAttributes := 7, srWindow := { Left := 0, Top := 0, Right := 79, Bottom := 24 } }

/-! ## The base-10 value of a digit string -/

/-- The base-10 value of the digit characters `ds` continued from the value
`v`, in unbounded arithmetic. -/
def digits_value_from (v : Nat) (ds : List Nat) : Nat :=
  ds.foldl (fun a d => 10 * a + (d - 48)) v

/-- The base-10 value of a string of digit characters. -/
def digits_value (ds : List Nat) : Nat := digits_value_from 0 ds

/-! ## The read buffer (lines 906-909 and 940-970) -/

/-- The globals `available` and `offset` of the read buffer, both
`unsigned int`; they start at 0. -/
structure READ_BUFFER where
  available : Nat
  offset : Nat
deriving DecidableEq, Repr

/-- The index `offset + available` of `global_buffer` that `winsi_read` hands
to `ansi_input` (or to `fgetws`) as the start of its buffer, after the reset
of `offset` for an empty buffer (lines 946-952). -/
def winsi_read_start (rb : READ_BUFFER) : Nat :=
  ((if rb.available = 0 then 0 else rb.offset) + rb.available) % 4294967296

/-- `winsi_read` (lines 940-970) on the two globals.  `received` is the
count the input call reports, 0 when it fails.  The result is the globals
after the call and the index of the character returned, if one is. -/
def winsi_read (rb : READ_BUFFER) (received : Nat) : READ_BUFFER × Option Nat :=
  let offset1 := if rb.available = 0 then 0 else rb.offset
  let available1 := (rb.available + received) % 4294967296
  if available1 ≥ 1 then
    ({ available := available1 - 1, offset := (offset1 + 1) % 4294967296 }, some offset1)
  else ({ available := available1, offset := offset1 }, none)

/-- A series of calls of `winsi_read`, one for each reported count. -/
def winsi_reads (rb : READ_BUFFER) (received : List Nat) : READ_BUFFER :=
  received.foldl (fun b r => (winsi_read b r).1) rb

/-- The `IO_BUFLEN` cells from the start index that the input call may write
lie inside `global_buffer[2*IO_BUFLEN]`. -/
def refill_region_inside (rb : READ_BUFFER) : Prop :=
  winsi_read_start rb + IO_BUFLEN ≤ 2 * IO_BUFLEN

/-- The sequence record of `ESC [ n suffix`, one argument, as the scanner
hands it to `ansi_output`. -/
def count_sequence (sfx : Nat) (n : Int) : SEQUENCE :=
  { global_parser_zeroed.es with
    pfx := LBRACKET, suffix := sfx, argc := 1,
    argv := Function.update global_parser_zeroed.es.argv 0 n }

/-! ## The fill character of the scroll calls -/

theorem wrap32_of_range {x : Int} (h1 : -2147483648 ≤ x) (h2 : x ≤ 2147483647) : wrap32 x = x := by
  unfold wrap32; omega

theorem wrap32_bounds (x : Int) : -2147483648 ≤ wrap32 x ∧ wrap32 x ≤ 2147483647 := by
  unfold wrap32; omega

theorem toSHORT_of_range {x : Int} (h1 : -32768 ≤ x) (h2 : x ≤ 32767) : toSHORT x = x := by
  unfold toSHORT; omega

/-! ## The scanner: one character at a time -/

@[simp] theorem term_refresh_refresh (t : TERM) (i j : CONSOLE_SCREEN_BUFFER_INFO) :
    term_refresh (term_refresh t i) j = term_refresh t j := rfl

@[simp] theorem term_refresh_save_pos (t : TERM) (i : CONSOLE_SCREEN_BUFFER_INFO) :
    (term_refresh t i).save_pos = t.save_pos := rfl

@[simp] theorem term_refresh_concealed (t : TERM) (i : CONSOLE_SCREEN_BUFFER_INFO) :
    (term_refresh t i).concealed = t.concealed := rfl

theorem Silent.refl {σ : Type} (w : World σ) : Silent w w := ⟨rfl, rfl, rfl, fun _ => rfl⟩

theorem Silent.trans {σ : Type} {w w1 w2 : World σ} (h1 : Silent w w1) (h2 : Silent w1 w2) :
    Silent w w2 :=
  ⟨h2.1.trans h1.1, h2.2.1.trans h1.2.1, h2.2.2.1.trans h1.2.2.1,
   fun i => (h2.2.2.2 i).trans (h1.2.2.2 i)⟩

theorem parser_print_eq_feed {σ : Type} (C : Console σ) (s : List Nat) (h : ∀ c ∈ s, c ≠ 0)
    (w : World σ) : parser_print C w s s.length = feed C w s := by
  induction s generalizing w with
  | nil => rfl
  | cons c s ih =>
    have hc : c ≠ 0 := h c (List.mem_cons_self _ _)
    have hs : ∀ d ∈ s, d ≠ 0 := fun d hd => h d (List.mem_cons_of_mem _ hd)
    have hlen : ((c :: s).length : Int) ≠ 0 := by simp; omega
    have hsub : ((c :: s).length : Int) - 1 = (s.length : Int) := by simp
    simp only [parser_print, feed, hlen, hc, or_self, if_false, hsub]
    cases parser_char C w c with
    | none => rfl
    | some w1 => exact ih hs w1

theorem feed_append {σ : Type} (C : Console σ) (s1 s2 : List Nat) (w : World σ) :
    feed C w (s1 ++ s2) = (feed C w s1).bind (fun w1 => feed C w1 s2) := by
  induction s1 generalizing w with
  | nil => rfl
  | cons c s ih =>
    simp only [List.cons_append, feed]
    cases parser_char C w c with
    | none => rfl
    | some w1 => exact ih w1

theorem feed_cons {σ : Type} (C : Console σ) (c : Nat) (s : List Nat) (w : World σ) :
    feed C w (c :: s) = (parser_char C w c).bind (fun w1 => feed C w1 s) := by
  simp only [feed]
  cases parser_char C w c <;> rfl

theorem is_param_cases {c : Nat} (h : is_param c = true) : iswdigit c = true ∨ c = 59 := by
  simpa [is_param, SEMICOLON] using h

theorem not_param {c : Nat} (h : is_param c = false) : iswdigit c = false ∧ c ≠ 59 := by
  simpa [is_param, SEMICOLON] using h

/-- ESC in Ground: the scanner enters the Escape state. -/
theorem char_ground_esc {σ : Type} (C : Console σ) (w : World σ) (hg : w.parser.state = 1) :
    ∃ w1, parser_char C w 27 = some w1 ∧ w1.parser.state = 2 ∧ Silent w w1 := by
  simp [parser_char, parser_step, hg, ESC, Silent]

/-- `[` in the Escape state: a CSI sequence starts. -/
theorem char_escape_csi {σ : Type} (C : Console σ) (w : World σ) (hg : w.parser.state = 2) :
    ∃ w1, parser_char C w 91 = some w1 ∧ w1.parser.state = 3 ∧ w1.parser.es.pfx = 91 ∧
      w1.parser.es.pfx2 = 0 ∧ Silent w w1 := by
  simp [parser_char, parser_step, hg, ESC, LBRACKET, Silent]

/-- A run of `?` in CSI-Entry. -/
theorem feed_questions {σ : Type} (C : Console σ) (k : Nat) (w : World σ)
    (hg : w.parser.state = 3) :
    ∃ w1, feed C w (List.replicate k 63) = some w1 ∧ w1.parser.state = 3 ∧
      w1.parser.es.pfx = w.parser.es.pfx ∧
      w1.parser.es.pfx2 = (if k = 0 then w.parser.es.pfx2 else 63) ∧ Silent w w1 := by
  induction k generalizing w with
  | zero => exact ⟨w, rfl, hg, rfl, rfl, Silent.refl w⟩
  | succ k ih =>
    have hstep : ∃ w1, parser_char C w 63 = some w1 ∧ w1.parser.state = 3 ∧
        w1.parser.es.pfx = w.parser.es.pfx ∧ w1.parser.es.pfx2 = 63 ∧ Silent w w1 := by
      simp [parser_char, parser_step, hg, iswdigit, SEMICOLON, QUESTION, Silent]
    obtain ⟨w1, h1, hs1, hp1, hq1, hsil1⟩ := hstep
    obtain ⟨w2, h2, hs2, hp2, hq2, hsil2⟩ := ih w1 hs1
    refine ⟨w2, ?_, hs2, hp2.trans hp1, ?_, hsil1.trans hsil2⟩
    · simp only [List.replicate_succ, feed_cons, h1, Option.some_bind, h2]
    · rw [hq2, hq1]; simp

/-- A parameter character in CSI-Param, with the argument index inside the
array. -/
theorem char_param4 {σ : Type} (C : Console σ) (w : World σ) (c : Nat)
    (hg : w.parser.state = 4) (hc : is_param c = true)
    (h0 : 0 ≤ w.parser.es.argc) (h15 : w.parser.es.argc ≤ 15) :
    ∃ w1, parser_char C w c = some w1 ∧ w1.parser.state = 4 ∧
      0 ≤ w1.parser.es.argc ∧ w1.parser.es.argc ≤ 15 ∧
      w1.parser.es.pfx = w.parser.es.pfx ∧ w1.parser.es.pfx2 = w.parser.es.pfx2 ∧
      Silent w w1 := by
  rcases is_param_cases hc with hd | hsc
  · have hlt : w.parser.es.argc < 16 := by omega
    simp [parser_char, parser_step, hg, hd, argv_store, MAX_ARG, h0, h15, hlt, Silent]
  · subst hsc
    by_cases hlt : w.parser.es.argc < 15
    · have h1 : w.parser.es.argc + 1 < 16 := by omega
      have h2 : 0 ≤ w.parser.es.argc + 1 := by omega
      have h3 : w.parser.es.argc + 1 ≤ 15 := by omega
      simp [parser_char, parser_step, hg, iswdigit, SEMICOLON, argv_store, MAX_ARG, hlt, h1, h2, h3,
        Silent]
    · have h1 : w.parser.es.argc < 16 := by omega
      simp [parser_char, parser_step, hg, iswdigit, SEMICOLON, argv_store, MAX_ARG, hlt, h0, h15, h1,
        Silent]

/-- A run of parameter characters in CSI-Param. -/
theorem feed_params4 {σ : Type} (C : Console σ) (params : List Nat)
    (hp : ∀ c ∈ params, is_param c = true) (w : World σ)
    (hg : w.parser.state = 4) (h0 : 0 ≤ w.parser.es.argc) (h15 : w.parser.es.argc ≤ 15) :
    ∃ w1, feed C w params = some w1 ∧ w1.parser.state = 4 ∧
      0 ≤ w1.parser.es.argc ∧ w1.parser.es.argc ≤ 15 ∧
      w1.parser.es.pfx = w.parser.es.pfx ∧ w1.parser.es.pfx2 = w.parser.es.pfx2 ∧
      Silent w w1 := by
  induction params generalizing w with
  | nil => exact ⟨w, rfl, hg, h0, h15, rfl, rfl, Silent.refl w⟩
  | cons c ps ih =>
    obtain ⟨w1, e1, s1, a1, b1, p1, q1, sil1⟩ :=
      char_param4 C w c hg (hp c (List.mem_cons_self _ _)) h0 h15
    obtain ⟨w2, e2, s2, a2, b2, p2, q2, sil2⟩ :=
      ih (fun d hd => hp d (List.mem_cons_of_mem _ hd)) w1 s1 a1 b1
    exact ⟨w2, by simp only [feed_cons, e1, Option.some_bind, e2], s2, a2, b2,
      p2.trans p1, q2.trans q1, sil1.trans sil2⟩

theorem world_dispatch_silent {σ : Type} (C : Console σ) {w w1 : World σ} (h : Silent w w1)
    (es : SEQUENCE) : world_dispatch C w1 es = world_dispatch C w es := by
  obtain ⟨ht, hc, hf, hr⟩ := h
  simp only [world_dispatch, ht, hc, hf, hr]

/-- The first parameter character, in CSI-Entry. -/
theorem char_param3 {σ : Type} (C : Console σ) (w : World σ) (c : Nat)
    (hg : w.parser.state = 3) (hc : is_param c = true) :
    ∃ w1, parser_char C w c = some w1 ∧ w1.parser.state = 4 ∧
      0 ≤ w1.parser.es.argc ∧ w1.parser.es.argc ≤ 15 ∧
      w1.parser.es.pfx = w.parser.es.pfx ∧ w1.parser.es.pfx2 = w.parser.es.pfx2 ∧
      Silent w w1 := by
  rcases is_param_cases hc with hd | hsc
  · simp [parser_char, parser_step, hg, hd, Silent]
  · subst hsc
    simp [parser_char, parser_step, hg, iswdigit, SEMICOLON, Silent]

/-- The suffix character in CSI-Entry: dispatch with no argument. -/
theorem char_suffix3 {σ : Type} (C : Console σ) (w : World σ) (sfx : Nat)
    (hg : w.parser.state = 3) (hsp : is_param sfx = false) (hsq : sfx ≠ 63) :
    parser_char C w sfx = world_dispatch C w { w.parser.es with argc := 0, suffix := sfx } := by
  obtain ⟨hd, hsc⟩ := not_param hsp
  simp only [parser_char, parser_step, hg, hd, SEMICOLON, QUESTION, hsc, hsq, parser_dispatch,
    world_dispatch]
  simp
  cases ansi_output (term_refresh w.parser.term (C.info w.console)) w.flags
    { w.parser.es with argc := 0, suffix := sfx } <;> rfl

/-- The suffix character in CSI-Param: the argument count is closed and the
sequence dispatched. -/
theorem char_suffix4 {σ : Type} (C : Console σ) (w : World σ) (sfx : Nat)
    (hg : w.parser.state = 4) (hsp : is_param sfx = false) :
    parser_char C w sfx = world_dispatch C w
      { w.parser.es with
        argc := if w.parser.es.argc < MAX_ARG - 1 then w.parser.es.argc + 1 else w.parser.es.argc,
        suffix := sfx } := by
  obtain ⟨hd, hsc⟩ := not_param hsp
  simp only [parser_char, parser_step, hg, hd, SEMICOLON, hsc, parser_dispatch, world_dispatch]
  simp
  cases ansi_output (term_refresh w.parser.term (C.info w.console)) w.flags
    { w.parser.es with
      argc := if w.parser.es.argc < MAX_ARG - 1 then w.parser.es.argc + 1 else w.parser.es.argc,
      suffix := sfx } <;> rfl

/-- A whole CSI sequence fed in Ground: `ESC [`, any number of `?`, parameter
characters, and a suffix.  Nothing happens before the suffix; at the suffix
one sequence is dispatched. -/
theorem csi_run {σ : Type} (C : Console σ) (w : World σ) (hg : w.parser.state = 1)
    (k : Nat) (params : List Nat) (hp : ∀ c ∈ params, is_param c = true)
    (sfx : Nat) (hsp : is_param sfx = false) (hsq : sfx ≠ 63) :
    ∃ es : SEQUENCE, es.pfx = 91 ∧ es.pfx2 = (if k = 0 then 0 else 63) ∧ es.suffix = sfx ∧
      0 ≤ es.argc ∧ es.argc ≤ 15 ∧ (params = [] → es.argc = 0) ∧
      feed C w ([27, 91] ++ List.replicate k 63 ++ params ++ [sfx]) = world_dispatch C w es := by
  obtain ⟨w1, e1, s1, sil1⟩ := char_ground_esc C w hg
  obtain ⟨w2, e2, s2, p2, q2, sil2⟩ := char_escape_csi C w1 s1
  obtain ⟨w3, e3, s3, p3, q3, sil3⟩ := feed_questions C k w2 s2
  have sil : Silent w w3 := (sil1.trans sil2).trans sil3
  have hfeed : ∀ rest, feed C w ([27, 91] ++ List.replicate k 63 ++ rest) = feed C w3 rest := by
    intro rest
    simp only [List.cons_append, List.nil_append, feed_cons, e1, Option.some_bind, e2, feed_append,
      e3]
  have hq3 : w3.parser.es.pfx2 = if k = 0 then 0 else 63 := by rw [q3, q2]
  cases params with
  | nil =>
    refine ⟨{ w3.parser.es with argc := 0, suffix := sfx }, p3.trans p2, hq3, rfl, le_refl _,
      by norm_num, fun _ => rfl, ?_⟩
    have := hfeed [sfx]
    simp only [List.append_nil] at this ⊢
    rw [this, feed_cons, char_suffix3 C w3 sfx s3 hsp hsq, world_dispatch_silent C sil]
    cases world_dispatch C w { w3.parser.es with argc := 0, suffix := sfx } <;> rfl
  | cons c ps =>
    obtain ⟨w4, e4, s4, a4, b4, p4, q4, sil4⟩ :=
      char_param3 C w3 c s3 (hp c (List.mem_cons_self _ _))
    obtain ⟨w5, e5, s5, a5, b5, p5, q5, sil5⟩ :=
      feed_params4 C ps (fun d hd => hp d (List.mem_cons_of_mem _ hd)) w4 s4 a4 b4
    have sil' : Silent w w5 := (sil.trans sil4).trans sil5
    refine ⟨{ w5.parser.es with
        argc := if w5.parser.es.argc < MAX_ARG - 1 then w5.parser.es.argc + 1
                else w5.parser.es.argc,
        suffix := sfx }, ?_, ?_, rfl, ?_, ?_, fun h => by simp at h, ?_⟩
    · exact (p5.trans p4).trans (p3.trans p2)
    · exact (q5.trans q4).trans hq3
    · show 0 ≤ (if w5.parser.es.argc < MAX_ARG - 1 then w5.parser.es.argc + 1
                else w5.parser.es.argc)
      split <;> omega
    · show (if w5.parser.es.argc < MAX_ARG - 1 then w5.parser.es.argc + 1
                else w5.parser.es.argc) ≤ 15
      simp only [MAX_ARG]
      split <;> omega
    · have := hfeed ((c :: ps) ++ [sfx])
      rw [← List.append_assoc] at this
      rw [this, List.cons_append, feed_cons, e4, Option.some_bind, feed_append, e5,
        Option.some_bind, feed_cons, char_suffix4 C w5 sfx s5 hsp, world_dispatch_silent C sil']
      cases world_dispatch C w _ <;> rfl

theorem is_param_ne_zero {c : Nat} (h : is_param c = true) : c ≠ 0 := by
  rcases is_param_cases h with hd | hs
  · intro h0; subst h0; simp [iswdigit] at hd
  · omega

theorem csi_sequence_ne_zero (k : Nat) (params : List Nat) (sfx : Nat)
    (hp : ∀ c ∈ params, is_param c = true) (hs0 : sfx ≠ 0) :
    ∀ c ∈ csi_sequence k params sfx, c ≠ 0 := by
  intro c hc
  simp only [csi_sequence, List.mem_append, List.mem_cons, List.mem_singleton, List.not_mem_nil,
    or_false, List.mem_replicate] at hc
  rcases hc with (((h | h) | h) | h) | h
  · omega
  · omega
  · omega
  · exact is_param_ne_zero (hp c h)
  · omega

/-- A sequence with the CSI prefix whose suffix has no case in `ansi_output`
does nothing. -/
theorem ansi_output_unrecognised (term : TERM) (flags : FLAGS) (es : SEQUENCE)
    (hp : es.pfx = 91) (hs : es.suffix ∉ csi_suffixes) :
    ansi_output term flags es = some (term, flags, []) := by
  simp only [csi_suffixes, List.mem_cons, List.mem_singleton, List.not_mem_nil, or_false,
    not_or] at hs
  obtain ⟨h1, h2, h3, h4, h5, h6, h7, h8, h9, h10, h11, h12, h13, h14, h15, h16, h17, h18, h19,
    h20, h21, h22, h23, h24⟩ := hs
  by_cases hq : es.pfx2 = 0
  · simp [ansi_output, ansi_output_csi, hp, hq, LBRACKET, QUESTION, h1, h2, h3, h4, h5, h6, h7, h8,
      h9, h10, h11, h12, h13, h14, h15, h16, h17, h18, h19, h20, h21, h22, h23, h24]
  · simp [ansi_output, hp, hq, LBRACKET, h23, h24]


/-- `console_set_pos` on a screen of at least one cell, of `SHORT` size: the
cursor is set to the clamped position. -/
theorem console_set_pos_clamp (term : TERM) (x y : Int)
    (hw : 1 ≤ term.width) (hw2 : term.width ≤ 32767)
    (hh : 1 ≤ term.height) (hh2 : term.height ≤ 32767) :
    console_set_pos term x y =
      [ConsoleOp.SetConsoleCursorPosition
        { X := clamp 0 (term.width - 1) x, Y := clamp 0 (term.height - 1) y }] := by
  simp only [console_set_pos, clamp, isub, wrap32, toSHORT]
  congr 2
  congr 1
  · split_ifs <;> omega
  · split_ifs <;> omega

theorem clamp_bounds (lo hi x : Int) (h : lo ≤ hi) : lo ≤ clamp lo hi x ∧ clamp lo hi x ≤ hi := by
  unfold clamp; split_ifs <;> omega


theorem motion_suffix_facts {sfx : Nat} (hs : sfx ∈ motion_suffixes) :
    sfx ≠ 0 ∧ is_param sfx = false ∧ sfx ≠ 63 := by
  simp only [motion_suffixes, List.mem_cons, List.mem_singleton, List.not_mem_nil, or_false] at hs
  rcases hs with h | h | h | h | h | h | h | h | h <;> subst h <;> decide

/-- A cursor-motion sequence makes one `SetConsoleCursorPosition` call, inside
the screen; without 32-bit overflow the position is the clamped target. -/
theorem motion_sets_cursor (term : TERM) (flags : FLAGS) (es : SEQUENCE)
    (hw : 1 ≤ term.width ∧ term.width ≤ 32767) (hh : 1 ≤ term.height ∧ term.height ≤ 32767)
    (hp : es.pfx = 91) (hq : es.pfx2 = 0) (hs : es.suffix ∈ motion_suffixes)
    (hargc : 0 ≤ es.argc ∧ es.argc ≤ (if es.suffix = 72 ∨ es.suffix = 102 then 2 else 1)) :
    ∃ x y,
      ansi_output term flags es =
        some (term, flags, [ConsoleOp.SetConsoleCursorPosition { X := x, Y := y }]) ∧
      (0 ≤ x ∧ x ≤ term.width - 1 ∧ 0 ≤ y ∧ y ≤ term.height - 1) ∧
      ∀ tx ty, motion_target es.suffix term.col term.row (seq_args es) = some (tx, ty) →
        fits_int tx → fits_int ty →
        x = clamp 0 (term.width - 1) tx ∧ y = clamp 0 (term.height - 1) ty := by
  obtain ⟨hw1, hw2⟩ := hw
  obtain ⟨hh1, hh2⟩ := hh
  have hb : ∀ a b : Int, (0 ≤ clamp 0 (term.width - 1) a ∧ clamp 0 (term.width - 1) a ≤ term.width - 1
      ∧ 0 ≤ clamp 0 (term.height - 1) b ∧ clamp 0 (term.height - 1) b ≤ term.height - 1) := by
    intro a b
    have h1 := clamp_bounds 0 (term.width - 1) a (by omega)
    have h2 := clamp_bounds 0 (term.height - 1) b (by omega)
    exact ⟨h1.1, h1.2, h2.1, h2.2⟩
  simp only [motion_suffixes, List.mem_cons, List.mem_singleton, List.not_mem_nil, or_false] at hs
  rcases hs with h | h | h | h | h | h | h | h | h
  all_goals
    simp only [h] at hargc ⊢
    norm_num at hargc
    obtain ⟨ha0, ha1⟩ := hargc
  all_goals
    have hargc3 : es.argc = 0 ∨ es.argc = 1 ∨ es.argc = 2 := by omega
    rcases hargc3 with ha | ha | ha
  all_goals (try omega)
  all_goals
    simp [ansi_output, ansi_output_csi, default_arg, hp, hq, h, ha, LBRACKET, QUESTION,
      console_set_pos_clamp term _ _ hw1 hw2 hh1 hh2]
    refine ⟨_, _, ⟨rfl, rfl⟩, hb _ _, ?_⟩
    intro tx ty ht h1 h2
    simp [motion_target, seq_args, ha, h, List.range_succ] at ht
    obtain ⟨rfl, rfl⟩ := ht
    unfold fits_int at h1 h2
    simp only [iadd, isub, wrap32]
    refine ⟨?_, ?_⟩ <;> first | trivial | rfl | (congr 1; omega)

/-- `ESC [ 9 9 9 C` fed in Ground with the cursor in column 0 of an 80-column
screen: the cursor is set to column 79 of its row. -/
theorem csi_999_C {σ : Type} (C : Console σ) (w : World σ) (hg : w.parser.state = 1)
    (hw : (C.info w.console).dwSize.X = 80) (hx : (C.info w.console).dwCursorPosition.X = 0)
    (hh : 1 ≤ (C.info w.console).dwSize.Y ∧ (C.info w.console).dwSize.Y ≤ 32767)
    (hy : 0 ≤ (C.info w.console).dwCursorPosition.Y ∧
      (C.info w.console).dwCursorPosition.Y < (C.info w.console).dwSize.Y) :
    ∃ w1, parser_print C w [27, 91, 57, 57, 57, 67] 6 = some w1 ∧
      w1.trace = w.trace ++
        [ConsoleOp.SetConsoleCursorPosition
          { X := 79, Y := (C.info w.console).dwCursorPosition.Y }] := by
  have hclamp := console_set_pos_clamp (term_refresh w.parser.term (C.info w.console))
    (iadd (C.info w.console).dwCursorPosition.X 999) (C.info w.console).dwCursorPosition.Y
    (by show 1 ≤ (C.info w.console).dwSize.X; omega)
    (by show (C.info w.console).dwSize.X ≤ 32767; omega) hh.1 hh.2
  have hcx : clamp 0 ((term_refresh w.parser.term (C.info w.console)).width - 1)
      (iadd (C.info w.console).dwCursorPosition.X 999) = 79 := by
    show clamp 0 ((C.info w.console).dwSize.X - 1) _ = 79
    rw [hw, hx]; decide
  have hcy : clamp 0 ((term_refresh w.parser.term (C.info w.console)).height - 1)
      (C.info w.console).dwCursorPosition.Y = (C.info w.console).dwCursorPosition.Y := by
    show clamp 0 ((C.info w.console).dwSize.Y - 1) _ = _
    unfold clamp; split_ifs <;> omega
  rw [hcx, hcy] at hclamp
  have harg : iadd (imul 10 (iadd (imul 10 9) 9)) 9 = 999 := by decide
  have hcol : (term_refresh w.parser.term (C.info w.console)).col =
      (C.info w.console).dwCursorPosition.X := rfl
  have hrow : (term_refresh w.parser.term (C.info w.console)).row =
      (C.info w.console).dwCursorPosition.Y := rfl
  simp [parser_print, parser_char, parser_step, parser_dispatch, ansi_output, ansi_output_csi,
    default_arg, hg, ESC, LBRACKET, RBRACKET, SEMICOLON, QUESTION, ZERO, iswdigit, MAX_ARG,
    argv_store, harg, hcol, hrow, hclamp]

/-- A cursor-motion sequence with any argument count: either nothing is done
(wrong count) or the cursor is set inside the screen. -/
theorem motion_ops_inside (term : TERM) (flags : FLAGS) (es : SEQUENCE)
    (hw : 1 ≤ term.width ∧ term.width ≤ 32767) (hh : 1 ≤ term.height ∧ term.height ≤ 32767)
    (hp : es.pfx = 91) (hq : es.pfx2 = 0) (hs : es.suffix ∈ motion_suffixes)
    (ha : 0 ≤ es.argc) :
    ansi_output term flags es = some (term, flags, []) ∨
    ∃ x y, ansi_output term flags es =
        some (term, flags, [ConsoleOp.SetConsoleCursorPosition { X := x, Y := y }]) ∧
      0 ≤ x ∧ x ≤ term.width - 1 ∧ 0 ≤ y ∧ y ≤ term.height - 1 := by
  by_cases hle : es.argc ≤ (if es.suffix = 72 ∨ es.suffix = 102 then 2 else 1)
  · obtain ⟨x, y, h1, h2, -⟩ := motion_sets_cursor term flags es hw hh hp hq hs ⟨ha, hle⟩
    exact Or.inr ⟨x, y, h1, h2⟩
  · left
    simp only [motion_suffixes, List.mem_cons, List.mem_singleton, List.not_mem_nil,
      or_false] at hs
    rcases hs with h | h | h | h | h | h | h | h | h
    all_goals
      simp only [h] at hle
      norm_num at hle
      have h0 : es.argc ≠ 0 := by omega
      have h1 : es.argc ≠ 1 := by omega
      simp [ansi_output, ansi_output_csi, default_arg, hp, hq, h, h0, h1, hle, LBRACKET, QUESTION]

/-- A cursor-motion sequence with any parameter string, fed in Ground: the
scanner completes it, and the only native call it can make sets the cursor
inside the screen. -/
theorem csi_motion_inside {σ : Type} (C : Console σ) (w : World σ) (hg : w.parser.state = 1)
    (params : List Nat) (hpar : ∀ c ∈ params, is_param c = true)
    (sfx : Nat) (hs : sfx ∈ motion_suffixes)
    (hw : 1 ≤ (C.info w.console).dwSize.X ∧ (C.info w.console).dwSize.X ≤ 32767)
    (hh : 1 ≤ (C.info w.console).dwSize.Y ∧ (C.info w.console).dwSize.Y ≤ 32767) :
    ∃ w1, parser_print C w (csi_sequence 0 params sfx) (csi_sequence 0 params sfx).length
        = some w1 ∧
      (w1.trace = w.trace ∨
       ∃ x y, w1.trace = w.trace ++ [ConsoleOp.SetConsoleCursorPosition { X := x, Y := y }] ∧
         0 ≤ x ∧ x ≤ (C.info w.console).dwSize.X - 1 ∧
         0 ≤ y ∧ y ≤ (C.info w.console).dwSize.Y - 1) := by
  obtain ⟨hs0, hsp, hsq⟩ := motion_suffix_facts hs
  obtain ⟨es, hpfx, hpfx2, hsfx, ha0, -, -, hrun⟩ := csi_run C w hg 0 params hpar sfx hsp hsq
  rw [parser_print_eq_feed C _ (csi_sequence_ne_zero 0 params sfx hpar hs0) w, csi_sequence, hrun]
  rcases motion_ops_inside (term_refresh w.parser.term (C.info w.console)) w.flags es hw hh hpfx
    (by simpa using hpfx2) (hsfx ▸ hs) ha0 with hout | ⟨x, y, hout, hb⟩
  · simp [world_dispatch, hout]
  · simp only [world_dispatch, hout]
    exact ⟨_, rfl, Or.inr ⟨x, y, rfl, hb⟩⟩

/-- C1 (amended).  On a screen of at least one cell whose width and height
are in the `SHORT` range of the console, each cursor-motion sequence (CSI
`A B C D E F G H f` with at most one argument, two for `H` and `f`) makes
exactly one native call, `SetConsoleCursorPosition`, at a position inside
`[0,width-1] x [0,height-1]`, for every cursor position and every argument
value.  Whenever the requested target is representable as a C `int` (its
computation does not overflow 32 bits), that position is the requested target
clamped to the screen.  In particular `ESC[999C` from column 0 on an
80-column screen sets column 79.  And whatever parameter characters a
cursor-motion sequence is written with, the scanner completes it and the
cursor position it sets, if any, is inside the screen. -/
theorem c1_cursor_motion_clamped :
    (∀ (term : TERM) (flags : FLAGS) (es : SEQUENCE),
      (1 ≤ term.width ∧ term.width ≤ 32767) → (1 ≤ term.height ∧ term.height ≤ 32767) →
      es.pfx = 91 → es.pfx2 = 0 → es.suffix ∈ motion_suffixes →
      (0 ≤ es.argc ∧ es.argc ≤ (if es.suffix = 72 ∨ es.suffix = 102 then 2 else 1)) →
      ∃ x y,
        ansi_output term flags es =
          some (term, flags, [ConsoleOp.SetConsoleCursorPosition { X := x, Y := y }]) ∧
        (0 ≤ x ∧ x ≤ term.width - 1 ∧ 0 ≤ y ∧ y ≤ term.height - 1) ∧
        ∀ tx ty, motion_target es.suffix term.col term.row (seq_args es) = some (tx, ty) →
          fits_int tx → fits_int ty →
          x = clamp 0 (term.width - 1) tx ∧ y = clamp 0 (term.height - 1) ty) ∧
    (∀ (σ : Type) (C : Console σ) (w : World σ), w.parser.state = 1 →
      (C.info w.console).dwSize.X = 80 → (C.info w.console).dwCursorPosition.X = 0 →
      (1 ≤ (C.info w.console).dwSize.Y ∧ (C.info w.console).dwSize.Y ≤ 32767) →
      (0 ≤ (C.info w.console).dwCursorPosition.Y ∧
        (C.info w.console).dwCursorPosition.Y < (C.info w.console).dwSize.Y) →
      ∃ w1, parser_print C w [27, 91, 57, 57, 57, 67] 6 = some w1 ∧
        w1.trace = w.trace ++
          [ConsoleOp.SetConsoleCursorPosition
            { X := 79, Y := (C.info w.console).dwCursorPosition.Y }]) ∧
    (∀ (σ : Type) (C : Console σ) (w : World σ) (params : List Nat) (sfx : Nat),
      w.parser.state = 1 → (∀ c ∈ params, is_param c = true) → sfx ∈ motion_suffixes →
      (1 ≤ (C.info w.console).dwSize.X ∧ (C.info w.console).dwSize.X ≤ 32767) →
      (1 ≤ (C.info w.console).dwSize.Y ∧ (C.info w.console).dwSize.Y ≤ 32767) →
      ∃ w1, parser_print C w (csi_sequence 0 params sfx) (csi_sequence 0 params sfx).length
          = some w1 ∧
        (w1.trace = w.trace ∨
         ∃ x y, w1.trace = w.trace ++ [ConsoleOp.SetConsoleCursorPosition { X := x, Y := y }] ∧
           0 ≤ x ∧ x ≤ (C.info w.console).dwSize.X - 1 ∧
           0 ≤ y ∧ y ≤ (C.info w.console).dwSize.Y - 1)) :=
  ⟨fun term flags es hw hh hp hq hs hargc => motion_sets_cursor term flags es hw hh hp hq hs hargc,
   fun _ C w hg hw hx hh hy => csi_999_C C w hg hw hx hh hy,
   fun _ C w params sfx hg hpar hs hw hh => csi_motion_inside C w hg params hpar sfx hs hw hh⟩

/-- C1, witness: `ESC[999C` with the cursor in column 0 of an 80 x 25 screen,
as a completed sequence given to `ansi_output` and as a string fed to the
scanner; and `ESC[2147483647C` with the cursor in column 1, which sets the
cursor inside the screen. -/
theorem c1_cursor_motion_clamped_witness :
    ansi_output { sample_world.parser.term with col := 0, row := 3, width := 80, height := 25 }
        flags_initial
        { pfx := 91, pfx2 := 0, suffix := 67, argc := 1, argv := fun _ => 999,
          args := fun _ => 0 } =
      some ({ sample_world.parser.term with col := 0, row := 3, width := 80, height := 25 },
            flags_initial, [ConsoleOp.SetConsoleCursorPosition { X := 79, Y := 3 }]) ∧
    (∃ w1, parser_print static_console
        { sample_world with console := { sample_info with dwCursorPosition := { X := 0, Y := 3 } } }
        [27, 91, 57, 57, 57, 67] 6 = some w1 ∧
      w1.trace = [ConsoleOp.SetConsoleCursorPosition { X := 79, Y := 3 }]) ∧
    (∃ w1, parser_print static_console sample_world
        [27, 91, 50, 49, 52, 55, 52, 56, 51, 54, 52, 55, 67] 13 = some w1 ∧
      (w1.trace = [] ∨
       ∃ x y, w1.trace = [ConsoleOp.SetConsoleCursorPosition { X := x, Y := y }] ∧
         0 ≤ x ∧ x ≤ 79 ∧ 0 ≤ y ∧ y ≤ 24)) := by
  refine ⟨?_, ?_, ?_⟩
  · obtain ⟨x, y, h, -, ht⟩ := c1_cursor_motion_clamped.1
      { sample_world.parser.term with col := 0, row := 3, width := 80, height := 25 }
      flags_initial
      { pfx := 91, pfx2 := 0, suffix := 67, argc := 1, argv := fun _ => 999, args := fun _ => 0 }
      (by decide) (by decide) rfl rfl (by decide) (by decide)
    obtain ⟨hx, hy⟩ := ht 999 3 rfl ⟨by decide, by decide⟩ ⟨by decide, by decide⟩
    rw [h, hx, hy]
    rfl
  · exact c1_cursor_motion_clamped.2.1 _ static_console
      { sample_world with console := { sample_info with dwCursorPosition := { X := 0, Y := 3 } } }
      rfl rfl rfl (by decide) (by decide)
  · exact c1_cursor_motion_clamped.2.2 _ static_console sample_world
      [50, 49, 52, 55, 52, 56, 51, 54, 52, 55] 67 rfl (by decide) (by decide) (by decide)
      (by decide)

set_option maxRecDepth 100000 in
/-- C1, counterexample: `ESC[2147483647C` with the cursor in column 1 of an
80-column screen.  The requested target column `1 + 2147483647`, clamped, is
79; the `int` addition overflows and the cursor is set to column 0. -/
theorem c1_counterexample_overflow :
    (parser_print static_console sample_world
        [27, 91, 50, 49, 52, 55, 52, 56, 51, 54, 52, 55, 67] 13).map World.trace =
      some [ConsoleOp.SetConsoleCursorPosition { X := 0, Y := 0 }] ∧
    (motion_target 67 1 0 [2147483647]).map (fun t => (clamp 0 79 t.1, clamp 0 24 t.2)) =
      some (79, 0) := by
  decide

/-- C2.  For every parser in Ground state and every console, feeding
`ESC [ X` with no argument gives the same native calls, the same resulting
terminal state, flags, console and scanner state as feeding `ESC [ 1 X`, for
each `X` of `A B C D E F G`; and `ESC [ J`, `ESC [ K` give the same as `ESC [ 0 J`,
`ESC [ 0 K`. -/
theorem c2_omitted_argument_is_default {σ : Type} (C : Console σ) (w : World σ)
    (hg : w.parser.state = 1) :
    (∀ X ∈ [65, 66, 67, 68, 69, 70, 71],
      ∃ w1 w2, parser_print C w [27, 91, X] 3 = some w1 ∧
        parser_print C w [27, 91, 49, X] 4 = some w2 ∧
        w1.trace = w2.trace ∧ w1.parser.term = w2.parser.term ∧
        w1.flags = w2.flags ∧ w1.console = w2.console ∧ w1.parser.state = w2.parser.state) ∧
    (∀ X ∈ [74, 75],
      ∃ w1 w2, parser_print C w [27, 91, X] 3 = some w1 ∧
        parser_print C w [27, 91, 48, X] 4 = some w2 ∧
        w1.trace = w2.trace ∧ w1.parser.term = w2.parser.term ∧
        w1.flags = w2.flags ∧ w1.console = w2.console ∧ w1.parser.state = w2.parser.state) := by
  constructor
  · intro X hX
    simp only [List.mem_cons, List.mem_singleton, List.not_mem_nil, or_false] at hX
    rcases hX with h | h | h | h | h | h | h <;> subst h <;>
      simp [parser_print, parser_char, parser_step, parser_dispatch, ansi_output, ansi_output_csi,
        default_arg, hg, ESC, LBRACKET, RBRACKET, SEMICOLON, QUESTION, ZERO, iswdigit, MAX_ARG]
  · intro X hX
    simp only [List.mem_cons, List.mem_singleton, List.not_mem_nil, or_false] at hX
    rcases hX with h | h <;> subst h <;>
      simp [parser_print, parser_char, parser_step, parser_dispatch, ansi_output, ansi_output_csi,
        default_arg, hg, ESC, LBRACKET, RBRACKET, SEMICOLON, QUESTION, ZERO, iswdigit, MAX_ARG]

/-- C2, witness: `ESC[A` and `ESC[1A`, and `ESC[K` and `ESC[0K`, on the sample
console. -/
theorem c2_omitted_argument_is_default_witness :
    sample_world.parser.state = 1 ∧
    (∃ w1 w2, parser_print static_console sample_world [27, 91, 65] 3 = some w1 ∧
      parser_print static_console sample_world [27, 91, 49, 65] 4 = some w2 ∧
      w1.trace = w2.trace ∧ w1.parser.term = w2.parser.term) ∧
    (∃ w1 w2, parser_print static_console sample_world [27, 91, 75] 3 = some w1 ∧
      parser_print static_console sample_world [27, 91, 48, 75] 4 = some w2 ∧
      w1.trace = w2.trace) := by
  refine ⟨rfl, ?_, ?_⟩
  · obtain ⟨w1, w2, h1, h2, h3, h4, -⟩ :=
      (c2_omitted_argument_is_default static_console sample_world rfl).1 65 (by decide)
    exact ⟨w1, w2, h1, h2, h3, h4⟩
  · obtain ⟨w1, w2, h1, h2, h3, -⟩ :=
      (c2_omitted_argument_is_default static_console sample_world rfl).2 75 (by decide)
    exact ⟨w1, w2, h1, h2, h3⟩

theorem sgr_apply_eq_spec (t : TERM) (n : Int) : sgr_apply t n = spec_sgr_rule t n := by
  by_cases h0 : n = 0
  · subst h0; rfl
  by_cases h1 : n = 1
  · subst h1; rfl
  by_cases h21 : n = 21
  · subst h21; rfl
  by_cases h4 : n = 4
  · subst h4; rfl
  by_cases h24 : n = 24
  · subst h24; rfl
  by_cases h7 : n = 7
  · subst h7; rfl
  by_cases h27 : n = 27
  · subst h27; rfl
  by_cases h8 : n = 8
  · subst h8; rfl
  by_cases h28 : n = 28
  · subst h28; rfl
  by_cases r30 : 30 ≤ n ∧ n ≤ 37
  · obtain ⟨a, b⟩ := r30
    interval_cases n <;> rfl
  by_cases r90 : 90 ≤ n ∧ n ≤ 97
  · obtain ⟨a, b⟩ := r90
    interval_cases n <;> rfl
  by_cases r40 : 40 ≤ n ∧ n ≤ 47
  · obtain ⟨a, b⟩ := r40
    interval_cases n <;> rfl
  by_cases r100 : 100 ≤ n ∧ n ≤ 107
  · obtain ⟨a, b⟩ := r100
    interval_cases n <;> rfl
  simp only [sgr_apply, spec_sgr_rule, if_neg h0, if_neg h1, if_neg h21, if_neg h4, if_neg h24,
    if_neg h7, if_neg h27, if_neg h8, if_neg h28, if_neg r30, if_neg r90, if_neg r40, if_neg r100]

theorem spec_sgr_rule_colours (t : TERM) (n : Int)
    (hf : 0 ≤ t.foreground ∧ t.foreground ≤ 15) (hb : 0 ≤ t.background ∧ t.background ≤ 15) :
    (0 ≤ (spec_sgr_rule t n).foreground ∧ (spec_sgr_rule t n).foreground ≤ 15) ∧
    (0 ≤ (spec_sgr_rule t n).background ∧ (spec_sgr_rule t n).background ≤ 15) := by
  unfold spec_sgr_rule
  by_cases h0 : n = 0
  · rw [if_pos h0]; constructor <;> (dsimp only; decide)
  rw [if_neg h0]
  by_cases h1 : n = 1
  · rw [if_pos h1]; exact ⟨hf, hb⟩
  rw [if_neg h1]
  by_cases h21 : n = 21
  · rw [if_pos h21]; exact ⟨hf, hb⟩
  rw [if_neg h21]
  by_cases h4 : n = 4
  · rw [if_pos h4]; exact ⟨hf, hb⟩
  rw [if_neg h4]
  by_cases h24 : n = 24
  · rw [if_pos h24]; exact ⟨hf, hb⟩
  rw [if_neg h24]
  by_cases h7 : n = 7
  · rw [if_pos h7]; exact ⟨hf, hb⟩
  rw [if_neg h7]
  by_cases h27 : n = 27
  · rw [if_pos h27]; exact ⟨hf, hb⟩
  rw [if_neg h27]
  by_cases h8 : n = 8
  · rw [if_pos h8]; exact ⟨hf, hb⟩
  rw [if_neg h8]
  by_cases h28 : n = 28
  · rw [if_pos h28]; exact ⟨hf, hb⟩
  rw [if_neg h28]
  by_cases r30 : 30 ≤ n ∧ n ≤ 37
  · rw [if_pos r30]; refine ⟨?_, hb⟩; dsimp only; omega
  rw [if_neg r30]
  by_cases r90 : 90 ≤ n ∧ n ≤ 97
  · rw [if_pos r90]; refine ⟨?_, hb⟩; dsimp only; omega
  rw [if_neg r90]
  by_cases r40 : 40 ≤ n ∧ n ≤ 47
  · rw [if_pos r40]; refine ⟨hf, ?_⟩; dsimp only; omega
  rw [if_neg r40]
  by_cases r100 : 100 ≤ n ∧ n ≤ 107
  · rw [if_pos r100]; refine ⟨hf, ?_⟩; dsimp only; omega
  rw [if_neg r100]
  exact ⟨hf, hb⟩

theorem sgr_apply_colours (t : TERM) (n : Int)
    (hf : 0 ≤ t.foreground ∧ t.foreground ≤ 15) (hb : 0 ≤ t.background ∧ t.background ≤ 15) :
    (0 ≤ (sgr_apply t n).foreground ∧ (sgr_apply t n).foreground ≤ 15) ∧
    (0 ≤ (sgr_apply t n).background ∧ (sgr_apply t n).background ≤ 15) := by
  rw [sgr_apply_eq_spec]
  exact spec_sgr_rule_colours t n hf hb

theorem foldl_sgr_colours (args : List Int) (t : TERM)
    (hf : 0 ≤ t.foreground ∧ t.foreground ≤ 15) (hb : 0 ≤ t.background ∧ t.background ≤ 15) :
    (0 ≤ (args.foldl sgr_apply t).foreground ∧ (args.foldl sgr_apply t).foreground ≤ 15) ∧
    (0 ≤ (args.foldl sgr_apply t).background ∧ (args.foldl sgr_apply t).background ≤ 15) := by
  induction args generalizing t with
  | nil => exact ⟨hf, hb⟩
  | cons a as ih =>
    have h := sgr_apply_colours t a hf hb
    exact ih (sgr_apply t a) h.1 h.2

theorem sgr_loop_eq (argv : Nat → Int) (n i : Nat) (t : TERM) (h : i + n ≤ 16) :
    sgr_loop argv n i t = some (((List.range' i n).map argv).foldl sgr_apply t) := by
  induction n generalizing i t with
  | zero => rfl
  | succ n ih =>
    have hi : (i : Int) < MAX_ARG := by simp only [MAX_ARG]; omega
    simp only [sgr_loop, hi, if_true, List.range'_succ, List.map_cons, List.foldl_cons]
    exact ih (i + 1) _ (by omega)

theorem table_get_fg (i : Int) (h : 0 ≤ i ∧ i ≤ 15) :
    table_get foregroundcolor i = some (foregroundcolor.getD i.toNat 0) := by
  obtain ⟨h0, h15⟩ := h
  have : i.toNat < 16 := by omega
  simp only [table_get, h0, if_true]
  interval_cases hn : i.toNat <;> rfl

theorem table_get_bg (i : Int) (h : 0 ≤ i ∧ i ≤ 15) :
    table_get backgroundcolor i = some (backgroundcolor.getD i.toNat 0) := by
  obtain ⟨h0, h15⟩ := h
  have : i.toNat < 16 := by omega
  simp only [table_get, h0, if_true]
  interval_cases hn : i.toNat <;> rfl

theorem sgr_attr_eq_spec (t : TERM)
    (hf : 0 ≤ t.foreground ∧ t.foreground ≤ 15) (hb : 0 ≤ t.background ∧ t.background ≤ 15) :
    sgr_attr t = some (spec_attr t) := by
  simp only [sgr_attr, spec_attr, table_get_fg _ hf, table_get_bg _ hb, table_get_fg _ hb,
    table_get_bg _ hf]
  cases t.rvideo <;> cases t.bold <;> cases t.underline <;> simp


/-- C3.  For every prior style state (colour indices in 0..15) and every
list of SGR arguments (`argv[0 .. argc-1]`, or `[0]` when none is given), the
`m` sequence makes one native call, `SetConsoleTextAttribute`, whose attribute
is the spec's table-driven composition `spec_attr` of the style state obtained
by applying the spec's rule `spec_sgr_rule` to the arguments in order; that
style state is the resulting terminal state. -/
theorem c3_sgr_attribute_is_table_driven (term : TERM) (flags : FLAGS) (es : SEQUENCE)
    (hf : 0 ≤ term.foreground ∧ term.foreground ≤ 15)
    (hb : 0 ≤ term.background ∧ term.background ≤ 15)
    (hp : es.pfx = 91) (hq : es.pfx2 = 0) (hs : es.suffix = 109)
    (hargc : 0 ≤ es.argc ∧ es.argc ≤ 16) :
    ansi_output term flags es =
      some ((sgr_args es).foldl spec_sgr_rule term, flags,
            [ConsoleOp.SetConsoleTextAttribute
              (spec_attr ((sgr_args es).foldl spec_sgr_rule term))]) := by
  have hrule : sgr_apply = spec_sgr_rule := by
    funext t n; exact sgr_apply_eq_spec t n
  have hloop : sgr_loop (default_arg es 0).argv (default_arg es 0).argc.toNat 0 term =
      some ((sgr_args es).foldl sgr_apply term) := by
    by_cases h0 : es.argc = 0
    · simp [default_arg, sgr_args, h0, sgr_loop, MAX_ARG]
    · have hle : 0 + es.argc.toNat ≤ 16 := by omega
      simp only [default_arg, sgr_args, h0, if_false, seq_args]
      rw [sgr_loop_eq _ _ _ _ hle, List.range_eq_range']
  have hcol := foldl_sgr_colours (sgr_args es) term hf hb
  rw [hrule] at hloop hcol
  simp only [ansi_output, ansi_output_csi, hp, hq, hs, LBRACKET, QUESTION, hloop,
    sgr_attr_eq_spec _ hcol.1 hcol.2]
  simp

/-- C3, witness: `ESC[31;1m` on the initial style state sets the attribute
`FOREGROUND_RED | FOREGROUND_INTENSITY`; with reverse video and underline,
`ESC[7;4;32;44m` sets `FOREGROUND_BLUE | BACKGROUND_GREEN | BACKGROUND_INTENSITY`. -/
theorem c3_sgr_attribute_is_table_driven_witness :
    (ansi_output sample_world.parser.term flags_initial
        { pfx := 91, pfx2 := 0, suffix := 109, argc := 2,
          argv := fun i => if i = 0 then 31 else 1, args := fun _ => 0 }).map (fun r => r.2.2) =
      some [ConsoleOp.SetConsoleTextAttribute (FOREGROUND_RED ||| FOREGROUND_INTENSITY)] ∧
    (ansi_output sample_world.parser.term flags_initial
        { pfx := 91, pfx2 := 0, suffix := 109, argc := 4,
          argv := fun i => if i = 0 then 7 else if i = 1 then 4 else if i = 2 then 32 else 44,
          args := fun _ => 0 }).map (fun r => r.2.2) =
      some [ConsoleOp.SetConsoleTextAttribute
        (FOREGROUND_BLUE ||| BACKGROUND_GREEN ||| BACKGROUND_INTENSITY)] := by
  constructor
  · rw [c3_sgr_attribute_is_table_driven sample_world.parser.term flags_initial _
      (by decide) (by decide) rfl rfl rfl (by decide)]
    rfl
  · rw [c3_sgr_attribute_is_table_driven sample_world.parser.term flags_initial _
      (by decide) (by decide) rfl rfl rfl (by decide)]
    rfl

/-- C4.  For every parser in Ground state and every console, a CSI sequence
(`ESC [`, any number of `?`, digits and `;`, suffix) whose suffix has no case
in the interpreter makes no native call, leaves the console, the flags and
every field of the terminal state other than the refreshed snapshot (colours,
style flags, scroll region, saved cursor) unchanged and returns the scanner to
Ground; a character fed next is handled exactly as it is without the
sequence. -/
theorem c4_unrecognised_csi_is_noop {σ : Type} (C : Console σ) (w : World σ)
    (k : Nat) (params : List Nat) (sfx : Nat)
    (hg : w.parser.state = 1)
    (hp : ∀ c ∈ params, is_param c = true)
    (hs : sfx ∉ csi_suffixes) (hs0 : sfx ≠ 0) (hsp : is_param sfx = false) (hsq : sfx ≠ 63) :
    ∃ w1, parser_print C w (csi_sequence k params sfx) (csi_sequence k params sfx).length = some w1 ∧
      w1.trace = w.trace ∧ w1.console = w.console ∧ w1.flags = w.flags ∧
      w1.parser.state = 1 ∧
      w1.parser.term = term_refresh w.parser.term (C.info w.console) ∧
      (w1.parser.term.foreground = w.parser.term.foreground ∧
       w1.parser.term.background = w.parser.term.background ∧
       w1.parser.term.concealed = w.parser.term.concealed ∧
       w1.parser.term.bold = w.parser.term.bold ∧
       w1.parser.term.underline = w.parser.term.underline ∧
       w1.parser.term.rvideo = w.parser.term.rvideo ∧
       w1.parser.term.scroll_region = w.parser.term.scroll_region ∧
       w1.parser.term.save_pos = w.parser.term.save_pos) ∧
      ∀ c, c ≠ 0 →
        ∃ w2 w3,
          parser_print C w (csi_sequence k params sfx ++ [c])
            (csi_sequence k params sfx ++ [c]).length = some w2 ∧
          parser_print C w [c] 1 = some w3 ∧
          w2.trace = w3.trace ∧ w2.console = w3.console ∧ w2.flags = w3.flags ∧
          w2.parser.term = w3.parser.term ∧ w2.parser.state = w3.parser.state := by
  have hnz := csi_sequence_ne_zero k params sfx hp hs0
  obtain ⟨es, hpfx, -, hsfx, -, -, -, hrun⟩ := csi_run C w hg k params hp sfx hsp hsq
  have hout := ansi_output_unrecognised (term_refresh w.parser.term (C.info w.console)) w.flags es
    hpfx (hsfx ▸ hs)
  have hw1 : feed C w (csi_sequence k params sfx) =
      some { parser := { es := es, term := term_refresh w.parser.term (C.info w.console),
                         state := 1 },
             flags := w.flags, console := w.console, trace := w.trace } := by
    rw [csi_sequence, hrun]
    simp [world_dispatch, hout]
  refine ⟨_, (parser_print_eq_feed C _ hnz w).trans hw1, rfl, rfl, rfl, rfl, rfl,
    ⟨rfl, rfl, rfl, rfl, rfl, rfl, rfl, rfl⟩, ?_⟩
  intro c hc
  have hnz2 : ∀ d ∈ csi_sequence k params sfx ++ [c], d ≠ 0 := by
    intro d hd
    rcases List.mem_append.1 hd with h | h
    · exact hnz d h
    · simp only [List.mem_singleton] at h; omega
  rw [parser_print_eq_feed C _ hnz2 w, feed_append, hw1]
  by_cases hesc : c = 27
  · subst hesc
    simp [parser_print, feed, parser_char, parser_step, hg, ESC]
  · simp [parser_print, feed, parser_char, parser_step, hg, ESC, hesc, hc]

/-- C4, witness: `ESC[99z` on the sample console, followed by the letter `A`. -/
theorem c4_unrecognised_csi_is_noop_witness :
    sample_world.parser.state = 1 ∧ (122 : Nat) ∉ csi_suffixes ∧
    ∃ w1, parser_print static_console sample_world [27, 91, 57, 57, 122] 5 = some w1 ∧
      w1.trace = [] ∧ w1.flags = flags_initial ∧ w1.parser.state = 1 ∧
      w1.parser.term.save_pos = sample_world.parser.term.save_pos ∧
      ∃ w2 w3, parser_print static_console sample_world [27, 91, 57, 57, 122, 65] 6 = some w2 ∧
        parser_print static_console sample_world [65] 1 = some w3 ∧ w2.trace = w3.trace := by
  refine ⟨rfl, by decide, ?_⟩
  obtain ⟨w1, h1, h2, -, h4, h5, -, ⟨-, -, -, -, -, -, -, h6⟩, h7⟩ :=
    c4_unrecognised_csi_is_noop static_console sample_world 0 [57, 57] 122 rfl (by decide)
      (by decide) (by decide) (by decide) (by decide)
  obtain ⟨w2, w3, k1, k2, k3, -⟩ := h7 65 (by decide)
  exact ⟨w1, h1, h2, h4, h5, h6, w2, w3, k1, k2, k3⟩

/-- A cursor-motion sequence leaves the terminal state and the flags as they
are, whatever its arguments. -/
theorem ansi_output_motion_frame (term : TERM) (flags : FLAGS) (es : SEQUENCE)
    (hp : es.pfx = 91) (hs : es.suffix ∈ motion_suffixes) :
    ∃ ops, ansi_output term flags es = some (term, flags, ops) := by
  simp only [motion_suffixes, List.mem_cons, List.mem_singleton, List.not_mem_nil, or_false] at hs
  by_cases hq : es.pfx2 = 0
  · rcases hs with h | h | h | h | h | h | h | h | h <;>
      simp only [ansi_output, ansi_output_csi, hp, hq, h, LBRACKET, QUESTION] <;>
      simp <;> split_ifs <;> simp
  · rcases hs with h | h | h | h | h | h | h | h | h <;>
      simp [ansi_output, hp, hq, h, LBRACKET, QUESTION]

/-- A literal character or a cursor-motion sequence, fed in Ground, ends in
Ground and keeps the saved cursor position. -/
theorem feed_piece {σ : Type} (C : Console σ) (p : Piece) (hp : p.wf) (w : World σ)
    (hg : w.parser.state = 1) :
    ∃ w1, feed C w p.chars = some w1 ∧ w1.parser.state = 1 ∧
      w1.parser.term.save_pos = w.parser.term.save_pos := by
  cases p with
  | literal c =>
    obtain ⟨h0, h27⟩ := hp
    simp [Piece.chars, feed, parser_char, parser_step, hg, ESC, h27]
  | motion params sfx =>
    obtain ⟨hpar, hs⟩ := hp
    obtain ⟨hs0, hsp, hsq⟩ := motion_suffix_facts hs
    obtain ⟨es, hpfx, -, hsfx, -, -, -, hrun⟩ := csi_run C w hg 0 params hpar sfx hsp hsq
    obtain ⟨ops, hout⟩ := ansi_output_motion_frame
      (term_refresh w.parser.term (C.info w.console)) w.flags es hpfx (hsfx ▸ hs)
    simp only [Piece.chars, csi_sequence, hrun, world_dispatch, hout]
    exact ⟨_, rfl, rfl, rfl⟩

theorem feed_pieces {σ : Type} (C : Console σ) (ps : List Piece) (hp : ∀ p ∈ ps, p.wf)
    (w : World σ) (hg : w.parser.state = 1) :
    ∃ w1, feed C w (pieces_chars ps) = some w1 ∧ w1.parser.state = 1 ∧
      w1.parser.term.save_pos = w.parser.term.save_pos := by
  induction ps generalizing w with
  | nil => exact ⟨w, rfl, hg, rfl⟩
  | cons p ps ih =>
    obtain ⟨w1, e1, s1, k1⟩ := feed_piece C p (hp p (List.mem_cons_self _ _)) w hg
    obtain ⟨w2, e2, s2, k2⟩ := ih (fun q hq => hp q (List.mem_cons_of_mem _ hq)) w1 s1
    exact ⟨w2, by simp only [pieces_chars, feed_append, e1, Option.some_bind, e2], s2,
      k2.trans k1⟩

theorem piece_chars_ne_zero (p : Piece) (hp : p.wf) : ∀ c ∈ p.chars, c ≠ 0 := by
  cases p with
  | literal c =>
    intro d hd
    simp only [Piece.chars, List.mem_singleton] at hd
    subst hd
    exact hp.1
  | motion params sfx =>
    exact csi_sequence_ne_zero 0 params sfx hp.1 (motion_suffix_facts hp.2).1

theorem pieces_chars_ne_zero (ps : List Piece) (hp : ∀ p ∈ ps, p.wf) :
    ∀ c ∈ pieces_chars ps, c ≠ 0 := by
  induction ps with
  | nil => intro c hc; simp [pieces_chars] at hc
  | cons p ps ih =>
    intro c hc
    simp only [pieces_chars, List.mem_append] at hc
    rcases hc with h | h
    · exact piece_chars_ne_zero p (hp p (List.mem_cons_self _ _)) c h
    · exact ih (fun q hq => hp q (List.mem_cons_of_mem _ hq)) c h


/-- C5.  For every parser in Ground state and every console whose cursor is
at a position (col,row) inside a screen of `SHORT` size: `ESC[s`, then any
sequence of cursor-motion sequences and literal characters, then `ESC[u`,
ends with the native call `SetConsoleCursorPosition` at exactly (col,row),
whatever the console did with the calls in between. -/
theorem c5_save_then_restore_cursor {σ : Type} (C : Console σ) (w : World σ) (ps : List Piece)
    (hg : w.parser.state = 1) (hp : ∀ p ∈ ps, p.wf)
    (hcol : 0 ≤ (C.info w.console).dwCursorPosition.X ∧
      (C.info w.console).dwCursorPosition.X < (C.info w.console).dwSize.X)
    (hrow : 0 ≤ (C.info w.console).dwCursorPosition.Y ∧
      (C.info w.console).dwCursorPosition.Y < (C.info w.console).dwSize.Y)
    (hsize : (C.info w.console).dwSize.X ≤ 32767 ∧ (C.info w.console).dwSize.Y ≤ 32767) :
    ∃ w1 w2,
      parser_print C w ([27, 91, 115] ++ pieces_chars ps)
        ([27, 91, 115] ++ pieces_chars ps).length = some w1 ∧
      parser_print C w ([27, 91, 115] ++ pieces_chars ps ++ [27, 91, 117])
        ([27, 91, 115] ++ pieces_chars ps ++ [27, 91, 117]).length = some w2 ∧
      w2.trace = w1.trace ++
        [ConsoleOp.SetConsoleCursorPosition (C.info w.console).dwCursorPosition] := by
  have hsave : ∃ w0, feed C w [27, 91, 115] = some w0 ∧ w0.parser.state = 1 ∧
      w0.parser.term.save_pos = (C.info w.console).dwCursorPosition := by
    have hx := toSHORT_of_range (x := (C.info w.console).dwCursorPosition.X) (by omega) (by omega)
    have hy := toSHORT_of_range (x := (C.info w.console).dwCursorPosition.Y) (by omega) (by omega)
    simp [feed, parser_char, parser_step, parser_dispatch, ansi_output, ansi_output_csi, hg, ESC,
      LBRACKET, QUESTION, SEMICOLON, iswdigit, term_refresh, hx, hy]
  obtain ⟨w0, e0, s0, k0⟩ := hsave
  obtain ⟨w1, e1, s1, k1⟩ := feed_pieces C ps hp w0 s0
  have hrest : ∃ w2, feed C w1 [27, 91, 117] = some w2 ∧
      w2.trace = w1.trace ++ [ConsoleOp.SetConsoleCursorPosition w1.parser.term.save_pos] := by
    simp [feed, parser_char, parser_step, parser_dispatch, ansi_output, ansi_output_csi, s1, ESC,
      LBRACKET, QUESTION, SEMICOLON, iswdigit, term_refresh]
  obtain ⟨w2, e2, t2⟩ := hrest
  have hnz := pieces_chars_ne_zero ps hp
  have hnz1 : ∀ c ∈ [27, 91, 115] ++ pieces_chars ps, c ≠ 0 := by
    intro c hc
    rcases List.mem_append.1 hc with h | h
    · simp only [List.mem_cons, List.mem_singleton, List.not_mem_nil, or_false] at h; omega
    · exact hnz c h
  have hnz2 : ∀ c ∈ [27, 91, 115] ++ pieces_chars ps ++ [27, 91, 117], c ≠ 0 := by
    intro c hc
    rcases List.mem_append.1 hc with h | h
    · exact hnz1 c h
    · simp only [List.mem_cons, List.mem_singleton, List.not_mem_nil, or_false] at h; omega
  have hf1 : feed C w ([27, 91, 115] ++ pieces_chars ps) = some w1 := by
    rw [feed_append, e0, Option.some_bind, e1]
  refine ⟨w1, w2, (parser_print_eq_feed C _ hnz1 w).trans hf1, ?_, ?_⟩
  · rw [parser_print_eq_feed C _ hnz2 w, feed_append, hf1, Option.some_bind, e2]
  · rw [t2, k1, k0]

/-- C5, witness: `ESC[s`, the text `H ESC[5C ESC[2;7H i`, `ESC[u`, on the sample
console with the cursor at column 1 of row 0. -/
theorem c5_save_then_restore_cursor_witness :
    ∃ w1 w2,
      parser_print static_console sample_world
        [27, 91, 115, 72, 27, 91, 53, 67, 27, 91, 50, 59, 55, 72, 105] 15 = some w1 ∧
      parser_print static_console sample_world
        [27, 91, 115, 72, 27, 91, 53, 67, 27, 91, 50, 59, 55, 72, 105, 27, 91, 117] 18
        = some w2 ∧
      w2.trace = w1.trace ++ [ConsoleOp.SetConsoleCursorPosition { X := 1, Y := 0 }] :=
  c5_save_then_restore_cursor static_console sample_world
    [Piece.literal 72, Piece.motion [53] 67, Piece.motion [50, 59, 55] 72, Piece.literal 105]
    rfl
    (by
      intro p hp
      simp only [List.mem_cons, List.mem_singleton, List.not_mem_nil, or_false] at hp
      rcases hp with h | h | h | h <;> subst h
      · exact ⟨by decide, by decide⟩
      · exact ⟨by decide, by decide⟩
      · exact ⟨by decide, by decide⟩
      · exact ⟨by decide, by decide⟩)
    (by decide) (by decide) (by decide)

/-- `]` in the Escape state: an OSC sequence starts. -/
theorem char_escape_osc {σ : Type} (C : Console σ) (w : World σ) (hg : w.parser.state = 2) :
    ∃ w1, parser_char C w 93 = some w1 ∧ w1.parser.state = 5 ∧ w1.parser.es.pfx = 93 ∧
      w1.parser.es.argv 0 = 0 ∧ Silent w w1 := by
  simp [parser_char, parser_step, hg, ESC, LBRACKET, RBRACKET, Silent]

/-- A run of digits in OSC-Number. -/
theorem feed_digits5 {σ : Type} (C : Console σ) (ds : List Nat)
    (hd : ∀ c ∈ ds, iswdigit c = true) (w : World σ) (hg : w.parser.state = 5) :
    ∃ w1, feed C w ds = some w1 ∧ w1.parser.state = 5 ∧
      w1.parser.es.pfx = w.parser.es.pfx ∧
      w1.parser.es.argv 0 = osc_number (w.parser.es.argv 0) ds ∧ Silent w w1 := by
  induction ds generalizing w with
  | nil => exact ⟨w, rfl, hg, rfl, rfl, Silent.refl w⟩
  | cons c ds ih =>
    have hc : iswdigit c = true := hd c (List.mem_cons_self _ _)
    have hstep : ∃ w1, parser_char C w c = some w1 ∧ w1.parser.state = 5 ∧
        w1.parser.es.pfx = w.parser.es.pfx ∧
        w1.parser.es.argv 0 = iadd (imul 10 (w.parser.es.argv 0)) ((c : Int) - ZERO) ∧
        Silent w w1 := by
      simp [parser_char, parser_step, hg, hc, Silent]
    obtain ⟨w1, e1, s1, p1, v1, sil1⟩ := hstep
    obtain ⟨w2, e2, s2, p2, v2, sil2⟩ := ih (fun d h => hd d (List.mem_cons_of_mem _ h)) w1 s1
    refine ⟨w2, by simp only [feed_cons, e1, Option.some_bind, e2], s2, p2.trans p1, ?_,
      sil1.trans sil2⟩
    rw [v2, v1]; rfl

/-- `;` in OSC-Number: the string argument starts, empty. -/
theorem char_semicolon5 {σ : Type} (C : Console σ) (w : World σ) (hg : w.parser.state = 5) :
    ∃ w1, parser_char C w 59 = some w1 ∧ w1.parser.state = 6 ∧
      w1.parser.es.pfx = w.parser.es.pfx ∧ w1.parser.es.argc = 2 ∧
      w1.parser.es.argv 0 = w.parser.es.argv 0 ∧ w1.parser.es.argv 1 = 0 ∧ Silent w w1 := by
  simp [parser_char, parser_step, hg, iswdigit, SEMICOLON, Silent]

theorem args_first_store (args : Nat → Nat) (n c : Nat) :
    (List.range (n + 1)).map (Function.update args n c) = (List.range n).map args ++ [c] := by
  rw [List.range_succ, List.map_append]
  congr 1
  · apply List.map_congr_left
    intro i hi
    have : i ≠ n := by
      have := List.mem_range.1 hi
      omega
    simp [Function.update, this]
  · simp

/-- One character of the string argument, below the capacity. -/
theorem char_text6 {σ : Type} (C : Console σ) (w : World σ) (c : Nat) (n : Nat)
    (hg : w.parser.state = 6) (hn : w.parser.es.argv 1 = n) (hlt : n < 1023) (hc : c ≠ 7) :
    ∃ w1, parser_char C w c = some w1 ∧ w1.parser.state = 6 ∧
      w1.parser.es.pfx = w.parser.es.pfx ∧ w1.parser.es.argc = w.parser.es.argc ∧
      w1.parser.es.argv 0 = w.parser.es.argv 0 ∧ w1.parser.es.argv 1 = (n + 1 : Nat) ∧
      args_first w1.parser.es (n + 1) = args_first w.parser.es n ++ [c] ∧ Silent w w1 := by
  have h1 : (n : Int) < 1023 := by omega
  have h2 : (n : Int) < 1024 := by omega
  have h3 : iadd (n : Int) 1 = (n : Int) + 1 := by
    unfold iadd; exact wrap32_of_range (by omega) (by omega)
  simp [parser_char, parser_step, hg, hn, hc, BEL, MAX_STRARG, args_store, h1, h2, h3, Silent,
    args_first, args_first_store]

/-- A run of characters of the string argument that fits the capacity. -/
theorem feed_text6 {σ : Type} (C : Console σ) (t : List Nat) (ht : ∀ c ∈ t, c ≠ 7)
    (w : World σ) (n : Nat) (hg : w.parser.state = 6) (hn : w.parser.es.argv 1 = n)
    (hfit : n + t.length ≤ 1023) :
    ∃ w1, feed C w t = some w1 ∧ w1.parser.state = 6 ∧
      w1.parser.es.pfx = w.parser.es.pfx ∧ w1.parser.es.argc = w.parser.es.argc ∧
      w1.parser.es.argv 0 = w.parser.es.argv 0 ∧ w1.parser.es.argv 1 = (n + t.length : Nat) ∧
      args_first w1.parser.es (n + t.length) = args_first w.parser.es n ++ t ∧ Silent w w1 := by
  induction t generalizing w n with
  | nil => exact ⟨w, rfl, hg, rfl, rfl, rfl, by simpa using hn, by simp, Silent.refl w⟩
  | cons c t ih =>
    simp only [List.length_cons] at hfit
    obtain ⟨w1, e1, s1, p1, a1, v1, n1, b1, sil1⟩ :=
      char_text6 C w c n hg hn (by omega) (ht c (List.mem_cons_self _ _))
    obtain ⟨w2, e2, s2, p2, a2, v2, n2, b2, sil2⟩ :=
      ih (fun d h => ht d (List.mem_cons_of_mem _ h)) w1 (n + 1) s1 n1 (by omega)
    have hlen : n + (c :: t).length = n + 1 + t.length := by simp only [List.length_cons]; omega
    refine ⟨w2, by simp only [feed_cons, e1, Option.some_bind, e2], s2, p2.trans p1,
      a2.trans a1, v2.trans v1, ?_, ?_, sil1.trans sil2⟩
    · rw [hlen]; exact n2
    · rw [hlen, b2, b1, List.append_assoc]; rfl

/-- The end of the string argument: BEL, or any character once the capacity
is reached.  The string is terminated and the sequence dispatched with that
character as its suffix. -/
theorem char_end6 {σ : Type} (C : Console σ) (w : World σ) (c : Nat) (m : Nat)
    (hg : w.parser.state = 6) (hm : w.parser.es.argv 1 = m) (hle : m ≤ 1023)
    (hc : c = 7 ∨ m = 1023) :
    parser_char C w c = world_dispatch C w
      { w.parser.es with args := Function.update w.parser.es.args m 0, suffix := c } := by
  have hcond : ¬ (c ≠ BEL ∧ (m : Int) < MAX_STRARG - 1) := by
    simp only [BEL, MAX_STRARG]
    rcases hc with h | h
    · simp [h]
    · subst h; simp
  have h2 : (0 : Int) ≤ (m : Int) ∧ (m : Int) < MAX_STRARG := by
    simp only [MAX_STRARG]; omega
  simp only [parser_char, parser_step, hg, hm, hcond, args_store, parser_dispatch,
    world_dispatch, h2, if_true, if_false, Int.toNat_ofNat]
  norm_num
  cases ansi_output (term_refresh w.parser.term (C.info w.console)) w.flags
    { w.parser.es with args := Function.update w.parser.es.args m 0, suffix := c } <;> rfl

/-- The buffer after the terminating store at index `m`: the first `m`
characters, the NUL, and the rest of the array. -/
theorem args_buffer_terminated (es : SEQUENCE) (m : Nat) (hle : m ≤ 1023) (sfx : Nat) :
    ∃ rest, args_buffer { es with args := Function.update es.args m 0, suffix := sfx } =
      args_first es m ++ 0 :: rest := by
  have h1024 : MAX_STRARG.toNat = (m + 1) + (1023 - m) := by
    simp only [MAX_STRARG]; omega
  refine ⟨((List.range (1023 - m)).map (fun x => m + 1 + x)).map (Function.update es.args m 0), ?_⟩
  simp only [args_buffer, h1024]
  rw [List.range_add (m + 1) (1023 - m), List.map_append, args_first_store, args_first,
    List.append_assoc]
  rfl

theorem cstring_terminated (t rest : List Nat) (ht : ∀ c ∈ t, c ≠ 0) :
    cstring (t ++ 0 :: rest) = t := by
  induction t with
  | nil => simp [cstring]
  | cons a t ih =>
    have ha : a ≠ 0 := ht a (List.mem_cons_self _ _)
    have := ih (fun d h => ht d (List.mem_cons_of_mem _ h))
    unfold cstring at this ⊢
    rw [List.cons_append, List.takeWhile_cons, this]
    simp [ha]

theorem deref_terminated (t rest : List Nat) : deref (t ++ 0 :: rest) = deref t := by
  cases t <;> rfl

/-- `wcscasecmp` reads its first argument up to the terminating NUL only. -/
theorem wcscasecmp_terminated (t rest lit : List Nat) (ht : ∀ c ∈ t, c ≠ 0) :
    wcscasecmp (t ++ 0 :: rest) lit = wcscasecmp t lit := by
  induction t generalizing lit with
  | nil =>
    cases lit with
    | nil => simp [wcscasecmp, deref]
    | cons b bs => simp [wcscasecmp, deref]
  | cons a t ih =>
    have ha : a ≠ 0 := ht a (List.mem_cons_self _ _)
    cases lit with
    | nil => simp [wcscasecmp]
    | cons b bs =>
      simp only [List.cons_append, wcscasecmp, List.append_eq, deref_terminated,
        ih bs (fun d h => ht d (List.mem_cons_of_mem _ h))]

theorem set_property_terminated (flags : FLAGS) (t rest : List Nat) (v : Bool)
    (ht : ∀ c ∈ t, c ≠ 0) :
    set_property flags (t ++ 0 :: rest) v = set_property flags t v := by
  simp only [set_property, wcscasecmp_terminated _ _ _ ht]

/-- A whole OSC sequence `ESC ] digits ; text BEL` fed in Ground, the text
within the capacity: nothing happens before BEL; at BEL one sequence is
dispatched, with the number in `argv[0]` and the text in the buffer. -/
theorem osc_run {σ : Type} (C : Console σ) (w : World σ) (hg : w.parser.state = 1)
    (ds : List Nat) (hd : ∀ c ∈ ds, iswdigit c = true)
    (t : List Nat) (ht : ∀ c ∈ t, c ≠ 7) (hlen : t.length ≤ 1023) :
    ∃ es : SEQUENCE, es.pfx = 93 ∧ es.suffix = 7 ∧ es.argc = 2 ∧
      es.argv 0 = osc_number 0 ds ∧ (∃ rest, args_buffer es = t ++ 0 :: rest) ∧
      feed C w (osc_sequence ds t) = world_dispatch C w es := by
  obtain ⟨w1, e1, s1, sil1⟩ := char_ground_esc C w hg
  obtain ⟨w2, e2, s2, p2, v2, sil2⟩ := char_escape_osc C w1 s1
  obtain ⟨w3, e3, s3, p3, v3, sil3⟩ := feed_digits5 C ds hd w2 s2
  obtain ⟨w4, e4, s4, p4, a4, v4, n4, sil4⟩ := char_semicolon5 C w3 s3
  obtain ⟨w5, e5, s5, p5, a5, v5, n5, b5, sil5⟩ :=
    feed_text6 C t ht w4 0 s4 (by simpa using n4) (by omega)
  have sil : Silent w w5 := (((sil1.trans sil2).trans sil3).trans sil4).trans sil5
  simp only [Nat.zero_add] at n5 b5
  have hbuf : args_first w5.parser.es t.length = t := by
    rw [b5]; simp [args_first]
  obtain ⟨rest, hrest⟩ := args_buffer_terminated w5.parser.es t.length hlen 7
  refine ⟨{ w5.parser.es with args := Function.update w5.parser.es.args t.length 0, suffix := 7 },
    ?_, rfl, ?_, ?_, ⟨rest, by rw [hrest, hbuf]⟩, ?_⟩
  · exact ((p5.trans p4).trans p3).trans p2
  · exact a5.trans a4
  · show w5.parser.es.argv 0 = _
    rw [v5, v4, v3, v2]
  · simp only [osc_sequence, List.cons_append, List.nil_append, List.append_assoc, feed_cons, e1,
      Option.some_bind, e2, feed_append, e3, e4, e5]
    rw [char_end6 C w5 7 t.length s5 n5 hlen (Or.inl rfl), world_dispatch_silent C sil]
    cases world_dispatch C w _ <;> rfl

theorem osc_sequence_ne_zero (ds t : List Nat) (hd : ∀ c ∈ ds, iswdigit c = true)
    (ht : ∀ c ∈ t, c ≠ 0) : ∀ c ∈ osc_sequence ds t, c ≠ 0 := by
  intro c hc
  simp only [osc_sequence, List.mem_append, List.mem_cons, List.mem_singleton, List.not_mem_nil,
    or_false] at hc
  rcases hc with ((((h | h) | h) | h) | h) | h
  · omega
  · omega
  · intro h0; subst h0; exact absurd (hd 0 h) (by decide)
  · omega
  · exact ht c h
  · omega

/-- The private sequences `ESC ] 255 ; name BEL` (`value = true`) and
`ESC ] 254 ; name BEL` (`value = false`), fed in Ground: the flags become
`set_property flags name value`; no native call is made. -/
theorem osc_property_feed {σ : Type} (C : Console σ) (w : World σ) (hg : w.parser.state = 1)
    (t : List Nat) (ht : ∀ c ∈ t, c ≠ 0 ∧ c ≠ 7) (hlen : t.length ≤ 1023) (value : Bool) :
    ∃ w1, feed C w (osc_sequence (if value then [50, 53, 53] else [50, 53, 52]) t) = some w1 ∧
      w1.flags = set_property w.flags t value ∧ w1.parser.state = 1 ∧
      w1.trace = w.trace ∧ w1.console = w.console := by
  have hd : ∀ c ∈ (if value then [50, 53, 53] else [50, 53, 52]), iswdigit c = true := by
    cases value <;> decide
  obtain ⟨es, hp, hs, ha, hv, ⟨rest, hbuf⟩, hrun⟩ :=
    osc_run C w hg _ hd t (fun c hc => (ht c hc).2) hlen
  have hnum : es.argv 0 = if value then 255 else 254 := by
    rw [hv]; cases value <;> rfl
  have hout : ansi_output (term_refresh w.parser.term (C.info w.console)) w.flags es =
      some (term_refresh w.parser.term (C.info w.console), set_property w.flags t value, []) := by
    have ht0 : ∀ c ∈ t, c ≠ 0 := fun c hc => (ht c hc).1
    cases value <;>
      simp [ansi_output, hp, hs, ha, hnum, LBRACKET, RBRACKET, BEL, hbuf,
        set_property_terminated _ _ _ _ ht0]
  rw [hrun]
  simp [world_dispatch, hout]

theorem case_variant_ECHO (s : List Nat) (h : is_case_variant s str_ECHO) :
    (∀ c ∈ s, c ≠ 0 ∧ c ≠ 7) ∧ s.length ≤ 1023 ∧
    ∀ (flags : FLAGS) (v : Bool), set_property flags s v = { flags with echo := v } := by
  simp only [is_case_variant, str_ECHO, List.forall₂_cons_right_iff,
    List.forall₂_nil_right_iff] at h
  obtain ⟨a, _, ha, ⟨b, _, hb, ⟨c, _, hc, ⟨d, _, hd, rfl, rfl⟩, rfl⟩, rfl⟩, rfl⟩ := h
  rcases ha with rfl | rfl <;> rcases hb with rfl | rfl <;> rcases hc with rfl | rfl <;>
    rcases hd with rfl | rfl <;>
    exact ⟨by decide, by decide, fun _ _ => rfl⟩

theorem case_variant_ICRNL (s : List Nat) (h : is_case_variant s str_ICRNL) :
    (∀ c ∈ s, c ≠ 0 ∧ c ≠ 7) ∧ s.length ≤ 1023 ∧
    ∀ (flags : FLAGS) (v : Bool), set_property flags s v = { flags with icrnl := v } := by
  simp only [is_case_variant, str_ICRNL, List.forall₂_cons_right_iff,
    List.forall₂_nil_right_iff] at h
  obtain ⟨a, _, ha, ⟨b, _, hb, ⟨c, _, hc, ⟨d, _, hd, ⟨e, _, he, rfl, rfl⟩, rfl⟩, rfl⟩, rfl⟩, rfl⟩ := h
  rcases ha with rfl | rfl <;> rcases hb with rfl | rfl <;> rcases hc with rfl | rfl <;>
    rcases hd with rfl | rfl <;> rcases he with rfl | rfl <;>
    exact ⟨by decide, by decide, fun _ _ => rfl⟩

theorem case_variant_ONLCR (s : List Nat) (h : is_case_variant s str_ONLCR) :
    (∀ c ∈ s, c ≠ 0 ∧ c ≠ 7) ∧ s.length ≤ 1023 ∧
    ∀ (flags : FLAGS) (v : Bool), set_property flags s v = { flags with onlcr := v } := by
  simp only [is_case_variant, str_ONLCR, List.forall₂_cons_right_iff,
    List.forall₂_nil_right_iff] at h
  obtain ⟨a, _, ha, ⟨b, _, hb, ⟨c, _, hc, ⟨d, _, hd, ⟨e, _, he, rfl, rfl⟩, rfl⟩, rfl⟩, rfl⟩, rfl⟩ := h
  rcases ha with rfl | rfl <;> rcases hb with rfl | rfl <;> rcases hc with rfl | rfl <;>
    rcases hd with rfl | rfl <;> rcases he with rfl | rfl <;>
    exact ⟨by decide, by decide, fun _ _ => rfl⟩

theorem osc_property_print {σ : Type} (C : Console σ) (w : World σ) (hg : w.parser.state = 1)
    (t : List Nat) (ht : ∀ c ∈ t, c ≠ 0 ∧ c ≠ 7) (hlen : t.length ≤ 1023) (value : Bool) :
    ∃ w1, parser_print C w (osc_sequence (if value then [50, 53, 53] else [50, 53, 52]) t)
        (osc_sequence (if value then [50, 53, 53] else [50, 53, 52]) t).length = some w1 ∧
      w1.flags = set_property w.flags t value := by
  have hd : ∀ c ∈ (if value then [50, 53, 53] else [50, 53, 52]), iswdigit c = true := by
    cases value <;> decide
  rw [parser_print_eq_feed C _ (osc_sequence_ne_zero _ t hd (fun c hc => (ht c hc).1)) w]
  obtain ⟨w1, e1, f1, -⟩ := osc_property_feed C w hg t ht hlen value
  exact ⟨w1, e1, f1⟩

theorem osc_property_print_twice {σ : Type} (C : Console σ) (w : World σ)
    (hg : w.parser.state = 1) (t : List Nat) (ht : ∀ c ∈ t, c ≠ 0 ∧ c ≠ 7)
    (hlen : t.length ≤ 1023) (v1 v2 : Bool) :
    ∃ w2, parser_print C w
        (osc_sequence (if v1 then [50, 53, 53] else [50, 53, 52]) t ++
          osc_sequence (if v2 then [50, 53, 53] else [50, 53, 52]) t)
        (osc_sequence (if v1 then [50, 53, 53] else [50, 53, 52]) t ++
          osc_sequence (if v2 then [50, 53, 53] else [50, 53, 52]) t).length = some w2 ∧
      w2.flags = set_property (set_property w.flags t v1) t v2 := by
  have hd : ∀ v : Bool, ∀ c ∈ (if v then [50, 53, 53] else [50, 53, 52]), iswdigit c = true := by
    intro v; cases v <;> decide
  have hnz : ∀ c ∈ osc_sequence (if v1 then [50, 53, 53] else [50, 53, 52]) t ++
      osc_sequence (if v2 then [50, 53, 53] else [50, 53, 52]) t, c ≠ 0 := by
    intro c hc
    rcases List.mem_append.1 hc with h | h
    · exact osc_sequence_ne_zero _ t (hd v1) (fun c hc => (ht c hc).1) c h
    · exact osc_sequence_ne_zero _ t (hd v2) (fun c hc => (ht c hc).1) c h
  obtain ⟨w1, e1, f1, s1, -⟩ := osc_property_feed C w hg t ht hlen v1
  obtain ⟨w2, e2, f2, -⟩ := osc_property_feed C w1 s1 t ht hlen v2
  refine ⟨w2, ?_, by rw [f2, f1]⟩
  rw [parser_print_eq_feed C _ hnz w, feed_append, e1, Option.some_bind, e2]


/-- C6.  For every parser in Ground state, every console and every string `s`
that is `ECHO`, `ICRNL` or `ONLCR` in some mix of upper and lower case:
`ESC ] 255 ; s BEL` sets exactly the named line-discipline flag to true and
`ESC ] 254 ; s BEL` sets exactly that flag to false, the other two flags
keeping their values; and `ESC ] 255 ; s BEL` followed by `ESC ] 254 ; s BEL`
for `ECHO` leaves echo false. -/
theorem c6_property_sequences_set_named_flag {σ : Type} (C : Console σ) (w : World σ) (s : List Nat)
    (hg : w.parser.state = 1) :
    (is_case_variant s str_ECHO →
      (∃ w1, parser_print C w (osc_sequence [50, 53, 53] s)
          (osc_sequence [50, 53, 53] s).length = some w1 ∧
        w1.flags = { w.flags with echo := true }) ∧
      (∃ w1, parser_print C w (osc_sequence [50, 53, 52] s)
          (osc_sequence [50, 53, 52] s).length = some w1 ∧
        w1.flags = { w.flags with echo := false }) ∧
      (∃ w2, parser_print C w (osc_sequence [50, 53, 53] s ++ osc_sequence [50, 53, 52] s)
          (osc_sequence [50, 53, 53] s ++ osc_sequence [50, 53, 52] s).length = some w2 ∧
        w2.flags = { w.flags with echo := false })) ∧
    (is_case_variant s str_ICRNL →
      (∃ w1, parser_print C w (osc_sequence [50, 53, 53] s)
          (osc_sequence [50, 53, 53] s).length = some w1 ∧
        w1.flags = { w.flags with icrnl := true }) ∧
      (∃ w1, parser_print C w (osc_sequence [50, 53, 52] s)
          (osc_sequence [50, 53, 52] s).length = some w1 ∧
        w1.flags = { w.flags with icrnl := false })) ∧
    (is_case_variant s str_ONLCR →
      (∃ w1, parser_print C w (osc_sequence [50, 53, 53] s)
          (osc_sequence [50, 53, 53] s).length = some w1 ∧
        w1.flags = { w.flags with onlcr := true }) ∧
      (∃ w1, parser_print C w (osc_sequence [50, 53, 52] s)
          (osc_sequence [50, 53, 52] s).length = some w1 ∧
        w1.flags = { w.flags with onlcr := false })) := by
  refine ⟨fun h => ?_, fun h => ?_, fun h => ?_⟩
  · obtain ⟨h1, h2, h3⟩ := case_variant_ECHO s h
    refine ⟨?_, ?_, ?_⟩
    · have := osc_property_print C w hg s h1 h2 true
      rw [h3] at this; exact this
    · have := osc_property_print C w hg s h1 h2 false
      rw [h3] at this; exact this
    · have := osc_property_print_twice C w hg s h1 h2 true false
      rw [h3, h3] at this; exact this
  · obtain ⟨h1, h2, h3⟩ := case_variant_ICRNL s h
    refine ⟨?_, ?_⟩
    · have := osc_property_print C w hg s h1 h2 true
      rw [h3] at this; exact this
    · have := osc_property_print C w hg s h1 h2 false
      rw [h3] at this; exact this
  · obtain ⟨h1, h2, h3⟩ := case_variant_ONLCR s h
    refine ⟨?_, ?_⟩
    · have := osc_property_print C w hg s h1 h2 true
      rw [h3] at this; exact this
    · have := osc_property_print C w hg s h1 h2 false
      rw [h3] at this; exact this


/-- C6, witness: from the raw flags, `ESC]255;echo BEL` (lower case) turns echo
on and `ESC]254;OnLcR BEL` from the initial flags leaves them as they are
(ONLCR is off already). -/
theorem c6_property_sequences_set_named_flag_witness :
    (∃ w1, parser_print static_console { sample_world with flags := winsi_setraw flags_initial }
        (osc_sequence [50, 53, 53] [101, 99, 104, 111]) 11 = some w1 ∧
      w1.flags = { echo := true, icrnl := false, onlcr := false }) ∧
    (∃ w1, parser_print static_console sample_world
        (osc_sequence [50, 53, 52] [79, 110, 76, 99, 82]) 12 = some w1 ∧
      w1.flags = { echo := true, icrnl := true, onlcr := false }) :=
  ⟨((c6_property_sequences_set_named_flag static_console
      { sample_world with flags := winsi_setraw flags_initial } [101, 99, 104, 111] rfl).1
      (List.Forall₂.cons (Or.inr rfl) (List.Forall₂.cons (Or.inr rfl)
        (List.Forall₂.cons (Or.inr rfl) (List.Forall₂.cons (Or.inr rfl) List.Forall₂.nil))))).1,
   ((c6_property_sequences_set_named_flag static_console sample_world
      [79, 110, 76, 99, 82] rfl).2.2
      (List.Forall₂.cons (Or.inl rfl) (List.Forall₂.cons (Or.inr rfl)
        (List.Forall₂.cons (Or.inl rfl) (List.Forall₂.cons (Or.inr rfl)
          (List.Forall₂.cons (Or.inl rfl) List.Forall₂.nil)))))).2⟩

set_option maxRecDepth 100000 in
/-- C7 (the code at the failing input).  `wcscasecmp` returns 0 on `ECHX` and
`ECHO`, which differ in their last character, so `ESC ] 255 ; ECHX BEL` turns
the echo flag on. -/
theorem c7_echx_compares_equal_to_echo :
    wcscasecmp [69, 67, 72, 88] str_ECHO = 0 ∧
    (parser_print static_console { sample_world with flags := winsi_setraw flags_initial }
        (osc_sequence [50, 53, 53] [69, 67, 72, 88]) 11).map World.flags =
      some { echo := true, icrnl := false, onlcr := false } := by
  decide

/-- C8.  From every flag state `winsi_setraw` yields echo = false,
icrnl = false, onlcr = false, and `winsi_unsetraw` yields echo = true,
icrnl = true, onlcr = false, which is the initial value of `flags`; so
`set_raw()` followed by `unset_raw()` restores the default flags from any
starting state. -/
theorem c8_setraw_unsetraw_restore_defaults (f : FLAGS) :
    winsi_setraw f = { echo := false, icrnl := false, onlcr := false } ∧
    winsi_unsetraw f = { echo := true, icrnl := true, onlcr := false } ∧
    winsi_unsetraw f = flags_initial ∧
    winsi_unsetraw (winsi_setraw f) = flags_initial :=
  ⟨rfl, rfl, rfl, rfl⟩

/-- C9 (amended).  In the CSI-Param state with all `MAX_ARG` = 16 argument
slots in use (`argc = MAX_ARG - 1`), a further `;` leaves the argument count
and the first `MAX_ARG - 1` argument values unchanged and resets the last slot
to 0, and a further digit `d` is accumulated into the last slot: its value `v`
becomes `10 * v + d` in `int` arithmetic; the count and the other values are
unchanged.  Neither makes a native call. -/
theorem c9_capacity_semicolon_resets_last_slot {σ : Type} (C : Console σ) (w : World σ)
    (hg : w.parser.state = 4) (hc : w.parser.es.argc = MAX_ARG - 1) :
    (∃ w1, parser_print C w [59] 1 = some w1 ∧ w1.parser.state = 4 ∧
      w1.parser.es.argc = w.parser.es.argc ∧
      (∀ i, i ≠ 15 → w1.parser.es.argv i = w.parser.es.argv i) ∧
      w1.parser.es.argv 15 = 0 ∧ w1.trace = w.trace) ∧
    (∀ d, iswdigit d = true →
      ∃ w1, parser_print C w [d] 1 = some w1 ∧ w1.parser.state = 4 ∧
        w1.parser.es.argc = w.parser.es.argc ∧
        (∀ i, i ≠ 15 → w1.parser.es.argv i = w.parser.es.argv i) ∧
        w1.parser.es.argv 15 = iadd (imul 10 (w.parser.es.argv 15)) ((d : Int) - 48) ∧
        w1.trace = w.trace) := by
  simp only [MAX_ARG] at hc
  norm_num at hc
  constructor
  · simp [parser_print, parser_char, parser_step, hg, hc, iswdigit, SEMICOLON, MAX_ARG,
      argv_store]
    intro i hi
    simp [Function.update, hi]
  · intro d hd
    have hd0 : d ≠ 0 := by intro h; subst h; simp [iswdigit] at hd
    simp [parser_print, parser_char, parser_step, hg, hc, hd, hd0, MAX_ARG, argv_store, ZERO]
    intro i hi
    simp [Function.update, hi]

/-- C9, witness: a scanner in CSI-Param with all sixteen slots in use, each
holding 5: a `;` clears the last slot only, the digit 7 turns its 5 into 57. -/
theorem c9_capacity_semicolon_resets_last_slot_witness :
    (∃ w1, parser_print static_console
        { sample_world with parser := { sample_world.parser with
            state := 4,
            es := { sample_world.parser.es with argc := 15, argv := fun _ => 5 } } } [59] 1
          = some w1 ∧
      w1.parser.es.argc = 15 ∧ w1.parser.es.argv 14 = 5 ∧ w1.parser.es.argv 15 = 0) ∧
    (∃ w1, parser_print static_console
        { sample_world with parser := { sample_world.parser with
            state := 4,
            es := { sample_world.parser.es with argc := 15, argv := fun _ => 5 } } } [55] 1
          = some w1 ∧
      w1.parser.es.argc = 15 ∧ w1.parser.es.argv 14 = 5 ∧ w1.parser.es.argv 15 = 57) := by
  have h := c9_capacity_semicolon_resets_last_slot static_console
    { sample_world with parser := { sample_world.parser with
        state := 4,
        es := { sample_world.parser.es with argc := 15, argv := fun _ => 5 } } } rfl rfl
  obtain ⟨⟨w1, e1, -, a1, o1, l1, -⟩, hd⟩ := h
  obtain ⟨w2, e2, -, a2, o2, l2, -⟩ := hd 55 (by decide)
  exact ⟨⟨w1, e1, a1, o1 14 (by decide), l1⟩, ⟨w2, e2, a2, o2 14 (by decide), l2⟩⟩

set_option maxRecDepth 100000 in
/-- C9, counterexample: after `ESC [ 0;0;0;0;0;0;0;0;0;0;0;0;0;0;0;5` the
sixteenth slot holds 5; one more `;` is not ignored, it sets that slot to 0. -/
theorem c9_counterexample_semicolon_not_ignored :
    (parser_print static_console sample_world
        [27, 91, 48, 59, 48, 59, 48, 59, 48, 59, 48, 59, 48, 59, 48, 59, 48, 59, 48, 59, 48, 59,
         48, 59, 48, 59, 48, 59, 48, 59, 48, 59, 53] 33).map
      (fun w => (w.parser.state, w.parser.es.argc, w.parser.es.argv 15)) = some (4, 15, 5) ∧
    (parser_print static_console sample_world
        [27, 91, 48, 59, 48, 59, 48, 59, 48, 59, 48, 59, 48, 59, 48, 59, 48, 59, 48, 59, 48, 59,
         48, 59, 48, 59, 48, 59, 48, 59, 48, 59, 53, 59] 34).map
      (fun w => (w.parser.state, w.parser.es.argc, w.parser.es.argv 15)) = some (4, 15, 0) := by
  decide

/-- The string argument reaches its capacity: the character after the 1023
stored ones ends the sequence as its suffix, and since it is not BEL nothing
is done. -/
theorem osc_overlong {σ : Type} (C : Console σ) (w : World σ) (hg : w.parser.state = 1)
    (ds : List Nat) (hd : ∀ c ∈ ds, iswdigit c = true)
    (t : List Nat) (ht : ∀ c ∈ t, c ≠ 7) (hlen : t.length = 1023) (c : Nat) (hc : c ≠ 7) :
    ∃ w1, feed C w ([27, 93] ++ ds ++ [59] ++ t ++ [c]) = some w1 ∧ w1.parser.state = 1 ∧
      w1.trace = w.trace ∧ w1.console = w.console ∧ w1.flags = w.flags ∧
      w1.parser.term = term_refresh w.parser.term (C.info w.console) := by
  obtain ⟨w1, e1, s1, sil1⟩ := char_ground_esc C w hg
  obtain ⟨w2, e2, s2, p2, v2, sil2⟩ := char_escape_osc C w1 s1
  obtain ⟨w3, e3, s3, p3, v3, sil3⟩ := feed_digits5 C ds hd w2 s2
  obtain ⟨w4, e4, s4, p4, a4, v4, n4, sil4⟩ := char_semicolon5 C w3 s3
  obtain ⟨w5, e5, s5, p5, a5, v5, n5, b5, sil5⟩ :=
    feed_text6 C t ht w4 0 s4 (by simpa using n4) (by omega)
  have sil : Silent w w5 := (((sil1.trans sil2).trans sil3).trans sil4).trans sil5
  simp only [Nat.zero_add] at n5
  have hpfx : w5.parser.es.pfx = 93 := ((p5.trans p4).trans p3).trans p2
  have hout : ansi_output (term_refresh w.parser.term (C.info w.console)) w.flags
      { w5.parser.es with args := Function.update w5.parser.es.args t.length 0, suffix := c } =
      some (term_refresh w.parser.term (C.info w.console), w.flags, []) := by
    simp [ansi_output, hpfx, LBRACKET, RBRACKET, BEL, hc]
  simp only [List.cons_append, List.nil_append, List.append_assoc, feed_cons, e1,
    Option.some_bind, e2, feed_append, e3, e4, e5]
  rw [char_end6 C w5 c t.length s5 n5 (by omega) (Or.inr hlen), world_dispatch_silent C sil]
  simp [world_dispatch, hout, feed]


/-- C10 (the code at the failing input).  `ESC ] 2 ;`, a text of 1024 letters
`a`, `BEL`: the 1024th letter ends the sequence as its suffix, which is not
BEL, so `SetConsoleTitle` is never called; the only native call of the whole
string is the write of the BEL character as ordinary output. -/
theorem c10_overlong_title_is_dropped :
    ∃ w1, parser_print static_console sample_world (osc_sequence [50] (List.replicate 1024 97))
        (osc_sequence [50] (List.replicate 1024 97)).length = some w1 ∧
      w1.parser.state = 1 ∧ w1.trace = [ConsoleOp.WriteConsole 7] := by
  have hnz : ∀ c ∈ osc_sequence [50] (List.replicate 1024 97), c ≠ 0 := by
    apply osc_sequence_ne_zero
    · decide
    · intro c hc; rw [List.mem_replicate] at hc; omega
  have hsplit : osc_sequence [50] (List.replicate 1024 97) =
      ([27, 93] ++ [50] ++ [59] ++ List.replicate 1023 97 ++ [97]) ++ [7] := by
    have h : List.replicate 1024 97 = List.replicate 1023 97 ++ [97] :=
      List.replicate_succ' 1023 97
    rw [osc_sequence, h]
    simp only [List.append_assoc]
  obtain ⟨w1, e1, s1, t1, c1, f1, r1⟩ := osc_overlong static_console sample_world rfl [50]
    (by decide) (List.replicate 1023 97)
    (by intro c hc; rw [List.mem_replicate] at hc; omega) (List.length_replicate _ _) 97 (by decide)
  rw [parser_print_eq_feed _ _ hnz, hsplit, feed_append, e1]
  simp [feed, parser_char, parser_step, s1, t1, c1, f1, r1, ESC]
  decide

/-- Every case of the `switch` other than `m` keeps the two colours. -/
theorem ansi_output_csi_colours (term : TERM) (es : SEQUENCE) (hm : es.suffix ≠ 109) :
    ∃ term1 ops, ansi_output_csi term es = some (term1, ops) ∧
      term1.foreground = term.foreground ∧ term1.background = term.background := by
  by_cases hin : es.suffix ∈
      [74, 75, 76, 77, 80, 64, 65, 66, 67, 68, 69, 70, 71, 102, 72, 115, 117, 114, 83, 84, 116]
  · simp only [List.mem_cons, List.mem_singleton, List.not_mem_nil, or_false] at hin
    rcases hin with h | h | h | h | h | h | h | h | h | h | h | h | h | h | h | h | h | h | h | h | h
    all_goals
      simp only [ansi_output_csi, h]
      simp
      split_ifs <;> simp
  · simp only [List.mem_cons, List.mem_singleton, List.not_mem_nil, or_false, not_or] at hin
    obtain ⟨h1, h2, h3, h4, h5, h6, h7, h8, h9, h10, h11, h12, h13, h14, h15, h16, h17, h18, h19,
      h20, h21⟩ := hin
    exact ⟨term, [], by simp [ansi_output_csi, hm, h1, h2, h3, h4, h5, h6, h7, h8, h9, h10, h11,
      h12, h13, h14, h15, h16, h17, h18, h19, h20, h21], rfl, rfl⟩


/-- `ansi_output` reads no array outside its bounds when the argument count
is at most `MAX_ARG` and the colours are table indices; it keeps the colours
table indices. -/
theorem ansi_output_total (term : TERM) (flags : FLAGS) (es : SEQUENCE)
    (hargc : es.argc ≤ 16)
    (hf : 0 ≤ term.foreground ∧ term.foreground ≤ 15)
    (hb : 0 ≤ term.background ∧ term.background ≤ 15) :
    ∃ term1 flags1 ops, ansi_output term flags es = some (term1, flags1, ops) ∧
      (0 ≤ term1.foreground ∧ term1.foreground ≤ 15) ∧
      (0 ≤ term1.background ∧ term1.background ≤ 15) := by
  unfold ansi_output
  by_cases hp : es.pfx = LBRACKET
  · rw [if_pos hp]
    split_ifs with h1 h2
    · exact ⟨_, _, _, rfl, hf, hb⟩
    · exact ⟨_, _, _, rfl, hf, hb⟩
    · by_cases hm : es.suffix = 109
      · have hn : 0 + (default_arg es 0).argc.toNat ≤ 16 := by
          unfold default_arg; split_ifs <;> (simp; try omega)
        have hloop := sgr_loop_eq (default_arg es 0).argv (default_arg es 0).argc.toNat 0 term hn
        have hcol := foldl_sgr_colours
          ((List.range' 0 (default_arg es 0).argc.toNat).map (default_arg es 0).argv) term hf hb
        have hattr := sgr_attr_eq_spec _ hcol.1 hcol.2
        simp only [ansi_output_csi, hm, if_true, hloop, hattr]
        exact ⟨_, _, _, rfl, hcol.1, hcol.2⟩
      · obtain ⟨t1, ops, e, ef, eb⟩ := ansi_output_csi_colours term es hm
        rw [e]
        exact ⟨_, _, _, rfl, ef ▸ hf, eb ▸ hb⟩
  · rw [if_neg hp]
    split_ifs <;> exact ⟨_, _, _, rfl, hf, hb⟩


theorem parser_dispatch_inv (p : PARSER) (flags : FLAGS)
    (ha : 0 ≤ p.es.argc ∧ p.es.argc ≤ MAX_ARG - 1)
    (hf : 0 ≤ p.term.foreground ∧ p.term.foreground ≤ 15)
    (hb : 0 ≤ p.term.background ∧ p.term.background ≤ 15) :
    ∃ p1 flags1 ops, parser_dispatch p flags = some (p1, flags1, ops) ∧ parser_inv p1 := by
  have h16 : p.es.argc ≤ 16 := by have := ha.2; simp only [MAX_ARG] at this; omega
  have n16 : ¬ ((1 : Int) = 6) := by decide
  obtain ⟨t1, f1, ops, e, hf1, hb1⟩ := ansi_output_total p.term flags p.es h16 hf hb
  exact ⟨{ p with term := t1, state := 1 }, f1, ops, by simp only [parser_dispatch, e], ha,
    fun h => absurd h n16, hf1, hb1⟩

/-- One iteration of the loop of `parser_print` keeps the invariant and makes
no access outside an array. -/
theorem parser_step_inv (p : PARSER) (flags : FLAGS) (info : CONSOLE_SCREEN_BUFFER_INFO)
    (c : Nat) (hinv : parser_inv p) :
    ∃ p1 flags1 ops, parser_step p flags info c = some (p1, flags1, ops) ∧ parser_inv p1 := by
  obtain ⟨ha, h6, hf, hb⟩ := hinv
  have ha15 : p.es.argc ≤ 15 := by have := ha.2; simp only [MAX_ARG] at this; omega
  have n16 : ¬ ((1 : Int) = 6) := by decide
  have n26 : ¬ ((2 : Int) = 6) := by decide
  have n36 : ¬ ((3 : Int) = 6) := by decide
  have n46 : ¬ ((4 : Int) = 6) := by decide
  have n56 : ¬ ((5 : Int) = 6) := by decide
  have a0 : (0 : Int) ≤ 0 ∧ (0 : Int) ≤ MAX_ARG - 1 := by decide
  have a1 : (0 : Int) ≤ 1 ∧ (1 : Int) ≤ MAX_ARG - 1 := by decide
  have a2 : (0 : Int) ≤ 2 ∧ (2 : Int) ≤ MAX_ARG - 1 := by decide
  by_cases s1 : p.state = 1
  · by_cases hc : c = ESC
    · simp only [parser_step, s1, if_true, hc]
      exact ⟨_, _, _, rfl, ha, fun h => absurd h n26, hf, hb⟩
    · simp only [parser_step, s1, if_true, hc, if_false]
      exact ⟨_, _, _, rfl, ha, fun h => absurd h n16, hf, hb⟩
  by_cases s2 : p.state = 2
  · have e21 : ¬ ((2 : Int) = 1) := by decide
    by_cases hc : c = ESC
    · simp only [parser_step, s2, e21, if_true, if_false, hc]
      exact ⟨_, _, _, rfl, ha, fun h => absurd h n26, hf, hb⟩
    by_cases hl : c = LBRACKET
    · simp only [parser_step, s2, e21, if_true, if_false, hc, hl]
      exact ⟨_, _, _, rfl, ha, fun h => absurd h n36, hf, hb⟩
    by_cases hr : c = RBRACKET
    · simp only [parser_step, s2, e21, if_true, if_false, hc, hl, hr]
      exact ⟨_, _, _, rfl, a0, fun h => absurd h n56, hf, hb⟩
    · simp only [parser_step, s2, e21, if_true, if_false, hc, hl, hr]
      exact ⟨_, _, _, rfl, ha, fun h => absurd h n16, hf, hb⟩
  by_cases s3 : p.state = 3
  · have e31 : ¬ ((3 : Int) = 1) := by decide
    have e32 : ¬ ((3 : Int) = 2) := by decide
    by_cases hd : iswdigit c = true
    · simp only [parser_step, s3, e31, e32, if_true, if_false, hd]
      exact ⟨_, _, _, rfl, a0, fun h => absurd h n46, hf, hb⟩
    by_cases hsc : c = SEMICOLON
    · simp only [parser_step, s3, e31, e32, if_true, if_false, hd, hsc]
      exact ⟨_, _, _, rfl, a1, fun h => absurd h n46, hf, hb⟩
    by_cases hq : c = QUESTION
    · simp only [parser_step, s3, e31, e32, if_true, if_false, hd, hsc, hq]
      exact ⟨_, _, _, rfl, ha, fun h => absurd h n36, hf, hb⟩
    · simp only [parser_step, s3, e31, e32, if_true, if_false, hd, hsc, hq]
      exact parser_dispatch_inv _ flags a0 hf hb
  by_cases s4 : p.state = 4
  · have e41 : ¬ ((4 : Int) = 1) := by decide
    have e42 : ¬ ((4 : Int) = 2) := by decide
    have e43 : ¬ ((4 : Int) = 3) := by decide
    have hlt : p.es.argc < MAX_ARG := by simp only [MAX_ARG]; omega
    have hb1 : 0 ≤ (if p.es.argc < MAX_ARG - 1 then p.es.argc + 1 else p.es.argc) ∧
        (if p.es.argc < MAX_ARG - 1 then p.es.argc + 1 else p.es.argc) < MAX_ARG := by
      simp only [MAX_ARG]; split_ifs <;> omega
    have hb2 : (if p.es.argc < MAX_ARG - 1 then p.es.argc + 1 else p.es.argc) ≤ MAX_ARG - 1 := by
      simp only [MAX_ARG]; split_ifs <;> omega
    by_cases hd : iswdigit c = true
    · simp only [parser_step, s4, e41, e42, e43, if_true, if_false, hd, argv_store, ha.1, hlt,
        and_self]
      exact ⟨_, _, _, rfl, ha, fun h => absurd h n46, hf, hb⟩
    by_cases hsc : c = SEMICOLON
    · simp only [parser_step, s4, e41, e42, e43, if_true, if_false, hd, hsc, argv_store, hb1,
        and_self]
      exact ⟨_, _, _, rfl, ⟨hb1.1, hb2⟩, fun h => absurd h n46, hf, hb⟩
    · simp only [parser_step, s4, e41, e42, e43, if_true, if_false, hd, hsc]
      exact parser_dispatch_inv _ flags ⟨hb1.1, hb2⟩ hf hb
  by_cases s5 : p.state = 5
  · have e51 : ¬ ((5 : Int) = 1) := by decide
    have e52 : ¬ ((5 : Int) = 2) := by decide
    have e53 : ¬ ((5 : Int) = 3) := by decide
    have e54 : ¬ ((5 : Int) = 4) := by decide
    by_cases hd : iswdigit c = true
    · simp only [parser_step, s5, e51, e52, e53, e54, if_true, if_false, hd]
      exact ⟨_, _, _, rfl, a1, fun h => absurd h n56, hf, hb⟩
    by_cases hsc : c = SEMICOLON
    · simp only [parser_step, s5, e51, e52, e53, e54, if_true, if_false, hd, hsc]
      refine ⟨_, _, _, rfl, a2, fun _ => ?_, hf, hb⟩
      simp [MAX_STRARG]
    · simp only [parser_step, s5, e51, e52, e53, e54, if_true, if_false, hd, hsc]
      exact parser_dispatch_inv _ flags ha hf hb
  by_cases s6 : p.state = 6
  · have e61 : ¬ ((6 : Int) = 1) := by decide
    have e62 : ¬ ((6 : Int) = 2) := by decide
    have e63 : ¬ ((6 : Int) = 3) := by decide
    have e64 : ¬ ((6 : Int) = 4) := by decide
    have e65 : ¬ ((6 : Int) = 5) := by decide
    obtain ⟨h60, h61⟩ := h6 s6
    have hlt : p.es.argv 1 < MAX_STRARG := by simp only [MAX_STRARG] at h61 ⊢; omega
    by_cases hc : c ≠ BEL ∧ p.es.argv 1 < MAX_STRARG - 1
    · simp only [parser_step, s6, e61, e62, e63, e64, e65, if_true, if_false]
      rw [if_pos hc]
      simp only [args_store, h60, hlt, and_self, if_true]
      refine ⟨_, _, _, rfl, ha, fun _ => ?_, hf, hb⟩
      have h2 := hc.2
      simp only [MAX_STRARG] at h2 h61 ⊢
      simp only [Function.update_same, iadd, wrap32]
      omega
    · simp only [parser_step, s6, e61, e62, e63, e64, e65, if_true, if_false]
      rw [if_neg hc]
      simp only [args_store, h60, hlt, and_self, if_true]
      exact parser_dispatch_inv _ flags ha hf hb
  · simp only [parser_step, s1, s2, s3, s4, s5, s6, if_false]
    exact ⟨_, _, _, rfl, ha, fun h => absurd h s6, hf, hb⟩


theorem parser_print_inv {σ : Type} (C : Console σ) (s : List Nat) (w : World σ) (buflen : Int)
    (h : parser_inv w.parser) :
    ∃ w1, parser_print C w s buflen = some w1 ∧ parser_inv w1.parser := by
  induction s generalizing w buflen with
  | nil => exact ⟨w, rfl, h⟩
  | cons c s ih =>
    by_cases hstop : buflen = 0 ∨ c = 0
    · exact ⟨w, by simp only [parser_print, hstop, if_true], h⟩
    · obtain ⟨p1, f1, ops, e, hinv⟩ := parser_step_inv w.parser w.flags (C.info w.console) c h
      simp only [parser_print, hstop, if_false, parser_char, e]
      exact ih _ _ hinv

theorem initial_world_inv {σ : Type} (C : Console σ) (s0 : σ) :
    parser_inv (initial_world C s0).parser := by
  have a : (0 : Int) ≤ 0 ∧ (0 : Int) ≤ MAX_ARG - 1 := by decide
  have n : ¬ ((1 : Int) = 6) := by decide
  have f : 0 ≤ foreground_default ∧ foreground_default ≤ 15 := by decide
  have b : 0 ≤ background_default ∧ background_default ≤ 15 := by decide
  exact ⟨a, fun h => absurd h n, f, b⟩

/-- C11.  For every console, every input string and every count fed to
`parser_print` from the initial parser state, the run completes without
taking the out-of-bounds branch of a store into `argv[MAX_ARG]` or
`args[MAX_STRARG]` or of a read of `argv` or of the colour tables (the
embedding yields `none` exactly there), and afterwards the argument count is
between 0 and `MAX_ARG - 1`, the string length `argv[1]` is an index of
`args` while the string is read, and both colours are table indices.  The
default-argument store `es.argv[es.argc++] = v` of `ansi_output` happens only
with `argc = 0`, so it writes index 0. -/
theorem c11_array_indices_in_bounds :
    (∀ (σ : Type) (C : Console σ) (s0 : σ) (s : List Nat) (buflen : Int),
      ∃ w, parser_print C (initial_world C s0) s buflen = some w ∧
        (0 ≤ w.parser.es.argc ∧ w.parser.es.argc ≤ MAX_ARG - 1) ∧
        (w.parser.state = 6 → 0 ≤ w.parser.es.argv 1 ∧ w.parser.es.argv 1 ≤ MAX_STRARG - 1) ∧
        (0 ≤ w.parser.term.foreground ∧ w.parser.term.foreground ≤ 15) ∧
        (0 ≤ w.parser.term.background ∧ w.parser.term.background ≤ 15)) ∧
    (∀ (es : SEQUENCE) (v : Int), (default_arg es v).argc ≠ es.argc →
      (0 ≤ es.argc ∧ es.argc < MAX_ARG) ∧
      argv_store es es.argc v = some { es with argv := Function.update es.argv 0 v } ∧
      (default_arg es v).argv = Function.update es.argv 0 v ∧
      (default_arg es v).argc = es.argc + 1) := by
  constructor
  · intro σ C s0 s buflen
    exact parser_print_inv C s _ buflen (initial_world_inv C s0)
  · intro es v h
    by_cases h0 : es.argc = 0
    · refine ⟨by rw [h0]; decide, ?_, ?_, ?_⟩
      · simp [argv_store, h0, MAX_ARG]
      · simp [default_arg, h0]
      · simp [default_arg, h0]
    · exact absurd (by simp [default_arg, h0]) h

theorem sgr_apply_scroll_region (t : TERM) (a : Int) :
    (sgr_apply t a).scroll_region = t.scroll_region := by
  rw [sgr_apply_eq_spec]
  unfold spec_sgr_rule
  simp only [apply_ite TERM.scroll_region, ite_self]

theorem sgr_loop_scroll_region (argv : Nat → Int) (n i : Nat) (t t1 : TERM)
    (h : sgr_loop argv n i t = some t1) : t1.scroll_region = t.scroll_region := by
  induction n generalizing i t with
  | zero =>
    simp only [sgr_loop, Option.some.injEq] at h
    rw [← h]
  | succ n ih =>
    simp only [sgr_loop] at h
    split_ifs at h
    rw [ih _ _ h, sgr_apply_scroll_region]

/-- Every case of the `switch` other than `r` keeps the scroll region. -/
theorem ansi_output_csi_scroll_region (term term1 : TERM) (es : SEQUENCE) (ops : List ConsoleOp)
    (hr : es.suffix ≠ 114) (h : ansi_output_csi term es = some (term1, ops)) :
    term1.scroll_region = term.scroll_region := by
  by_cases hm : es.suffix = 109
  · simp only [ansi_output_csi, hm, if_true] at h
    cases hl : sgr_loop (default_arg es 0).argv (default_arg es 0).argc.toNat 0 term with
    | none => simp [hl] at h
    | some t2 =>
      simp only [hl] at h
      cases ha : sgr_attr t2 with
      | none => simp [ha] at h
      | some a =>
        simp only [ha, Option.some.injEq, Prod.mk.injEq] at h
        rw [← h.1]
        exact sgr_loop_scroll_region _ _ _ _ _ hl
  by_cases hin : es.suffix ∈
      [74, 75, 76, 77, 80, 64, 65, 66, 67, 68, 69, 70, 71, 102, 72, 115, 117, 83, 84, 116]
  · simp only [List.mem_cons, List.mem_singleton, List.not_mem_nil, or_false] at hin
    rcases hin with k | k | k | k | k | k | k | k | k | k | k | k | k | k | k | k | k | k | k | k
    all_goals
      simp only [ansi_output_csi, k] at h
      simp at h
      split_ifs at h <;> simp at h <;> (rw [← h.1])
  · simp only [List.mem_cons, List.mem_singleton, List.not_mem_nil, or_false, not_or] at hin
    obtain ⟨h1, h2, h3, h4, h5, h6, h7, h8, h9, h10, h11, h12, h13, h14, h15, h16, h17, h18, h19,
      h20⟩ := hin
    simp [ansi_output_csi, hm, hr, h1, h2, h3, h4, h5, h6, h7, h8, h9, h10, h11,
      h12, h13, h14, h15, h16, h17, h18, h19, h20] at h
    rw [← h.1]

/-- C12, counterexample: after initialisation on the 80x25 sample console the
scroll region is rows 0 to 24; writing `ESC [ 5 ; 3 r` leaves Top = 4 and
Bottom = 2, so Top ≤ Bottom does not hold. -/
theorem c12_counterexample_region_reversed :
    (sample_world.parser.term.scroll_region.Top, sample_world.parser.term.scroll_region.Bottom)
      = (0, 24) ∧
    (parser_print static_console sample_world [27, 91, 53, 59, 51, 114] 6).map
      (fun w => (w.parser.term.scroll_region.Top, w.parser.term.scroll_region.Bottom,
        decide (w.parser.term.scroll_region.Top ≤ w.parser.term.scroll_region.Bottom)))
      = some (4, 2, false) := by
  decide

/-- C12 (amended). `scroll_region.Top ≤ scroll_region.Bottom` holds after
`parser_init` on a screen of height 1 to 32767, and every dispatch
`ansi_output` that returns preserves it on such a screen, provided that for
`ESC [ top ; bottom r` (two arguments, no secondary prefix) the arguments
satisfy `-32767 ≤ top ≤ bottom ≤ 32768`; only the suffix `r` writes the
region at all. -/
theorem c12_scroll_region_ordered :
    (∀ (p : PARSER) (info : CONSOLE_SCREEN_BUFFER_INFO),
      1 ≤ info.dwSize.Y → info.dwSize.Y ≤ 32767 →
      (parser_init p info).term.scroll_region.Top
        ≤ (parser_init p info).term.scroll_region.Bottom) ∧
    (∀ (term term1 : TERM) (flags flags1 : FLAGS) (es : SEQUENCE) (ops : List ConsoleOp),
      ansi_output term flags es = some (term1, flags1, ops) →
      term.scroll_region.Top ≤ term.scroll_region.Bottom →
      1 ≤ term.height → term.height ≤ 32767 →
      (es.pfx = LBRACKET ∧ es.pfx2 = 0 ∧ es.suffix = 114 ∧ es.argc = 2 →
        -32767 ≤ es.argv 0 ∧ es.argv 0 ≤ es.argv 1 ∧ es.argv 1 ≤ 32768) →
      term1.scroll_region.Top ≤ term1.scroll_region.Bottom) ∧
    (∀ (term term1 : TERM) (flags flags1 : FLAGS) (es : SEQUENCE) (ops : List ConsoleOp),
      ansi_output term flags es = some (term1, flags1, ops) →
      ¬ (es.pfx = LBRACKET ∧ es.pfx2 = 0 ∧ es.suffix = 114) →
      term1.scroll_region = term.scroll_region) := by
  have frame : ∀ (term term1 : TERM) (flags flags1 : FLAGS) (es : SEQUENCE)
      (ops : List ConsoleOp), ansi_output term flags es = some (term1, flags1, ops) →
      ¬ (es.pfx = LBRACKET ∧ es.pfx2 = 0 ∧ es.suffix = 114) →
      term1.scroll_region = term.scroll_region := by
    intro term term1 flags flags1 es ops h hn
    unfold ansi_output at h
    by_cases hp : es.pfx = LBRACKET
    · rw [if_pos hp] at h
      split_ifs at h with hq h2
      · simp only [Option.some.injEq, Prod.mk.injEq] at h
        rw [← h.1]
      · simp only [Option.some.injEq, Prod.mk.injEq] at h
        rw [← h.1]
      · have h20 : es.pfx2 = 0 := not_not.mp h2
        have hr : es.suffix ≠ 114 := fun e => hn ⟨hp, h20, e⟩
        cases hc : ansi_output_csi term es with
        | none => simp [hc] at h
        | some r =>
          obtain ⟨t2, ops2⟩ := r
          simp only [hc, Option.some.injEq, Prod.mk.injEq] at h
          rw [← h.1]
          exact ansi_output_csi_scroll_region term t2 es ops2 hr hc
    · rw [if_neg hp] at h
      split_ifs at h <;> simp only [Option.some.injEq, Prod.mk.injEq] at h <;> rw [← h.1]
  refine ⟨?_, ?_, frame⟩
  · intro p info h1 h2
    simp only [parser_init, toSHORT, isub, wrap32]
    omega
  · intro term term1 flags flags1 es ops h hord h1 h2 hargs
    by_cases hr : es.pfx = LBRACKET ∧ es.pfx2 = 0 ∧ es.suffix = 114
    · obtain ⟨hp, h20, hs⟩ := hr
      have hq : ¬ (es.pfx2 = QUESTION ∧ (es.suffix = 104 ∨ es.suffix = 108)
          ∧ es.argc = 1 ∧ es.argv 0 = 25) := by
        rw [h20]; intro hh; exact absurd hh.1 (by decide)
      have h2n : ¬ (es.pfx2 ≠ 0) := not_not.mpr h20
      unfold ansi_output at h
      rw [if_pos hp, if_neg hq, if_neg h2n] at h
      simp only [ansi_output_csi, hs] at h
      simp at h
      by_cases a0 : es.argc = 0
      · simp only [a0, if_true] at h
        simp at h
        rw [← h.1]
        simp only [toSHORT, isub, wrap32]
        omega
      · by_cases a2 : es.argc = 2
        · have hb := hargs ⟨hp, h20, hs, a2⟩
          simp only [a0, a2, if_true, if_false] at h
          simp at h
          rw [← h.1]
          simp only [toSHORT, isub, wrap32]
          omega
        · simp only [a0, a2, if_false] at h
          simp at h
          rw [← h.1]
          exact hord
    · rw [frame term term1 flags flags1 es ops h hr]
      exact hord

/-- C12, witness: the sample console, and `ESC [ 3 ; 5 r` on it. -/
theorem c12_scroll_region_ordered_witness :
    (parser_init global_parser_zeroed sample_info).term.scroll_region.Top
      ≤ (parser_init global_parser_zeroed sample_info).term.scroll_region.Bottom ∧
    ansi_output sample_term flags_initial (region_sequence 3 5)
      = some ({ sample_term with scroll_region :=
                  { sample_term.scroll_region with Top := 2, Bottom := 4 } },
              flags_initial, []) ∧
    (2 : Int) ≤ 4 :=
  ⟨c12_scroll_region_ordered.1 global_parser_zeroed sample_info (by decide) (by decide),
   rfl,
   c12_scroll_region_ordered.2.1 sample_term
     { sample_term with scroll_region := { sample_term.scroll_region with Top := 2, Bottom := 4 } }
     flags_initial flags_initial (region_sequence 3 5) [] rfl (by decide) (by decide) (by decide)
     (fun _ => by decide)⟩

/-- The cursor cell of a screen lies inside the row-major range of the
screen, and the products of the erase lengths fit an `int`. -/
theorem offset_bounds (w h col row : Int) (hw : 1 ≤ w ∧ w ≤ 32767) (hh : 1 ≤ h ∧ h ≤ 32767)
    (hc : 0 ≤ col ∧ col < w) (hr : 0 ≤ row ∧ row < h) :
    0 ≤ row * w ∧ row * w + col < w * h ∧ w * h ≤ 1073676289 := by
  obtain ⟨hw1, hw2⟩ := hw
  obtain ⟨hh1, hh2⟩ := hh
  obtain ⟨hc1, hc2⟩ := hc
  obtain ⟨hr1, hr2⟩ := hr
  refine ⟨by positivity, ?_, ?_⟩
  · have : (row + 1) * w ≤ h * w := by
      apply mul_le_mul_of_nonneg_right <;> omega
    nlinarith
  · have : w * h ≤ 32767 * 32767 := by
      apply mul_le_mul <;> omega
    omega

/-- The three fill lengths of the `J` case in exact arithmetic: on a screen
of `SHORT` size no `int` operation overflows. -/
theorem erase_display_lengths (w h col row : Int) (hw : 1 ≤ w ∧ w ≤ 32767)
    (hh : 1 ≤ h ∧ h ≤ 32767) (hc : 0 ≤ col ∧ col < w) (hr : 0 ≤ row ∧ row < h) :
    isub (isub (iadd (imul (isub (isub h row) 1) w) w) col) 1 = w * h - (row * w + col) - 1 ∧
    iadd (iadd (imul row w) col) 1 = row * w + col + 1 ∧
    imul w h = w * h := by
  obtain ⟨o1, o2, o3⟩ := offset_bounds w h col row hw hh hc hr
  obtain ⟨hw1, hw2⟩ := hw
  obtain ⟨hh1, hh2⟩ := hh
  obtain ⟨hc1, hc2⟩ := hc
  obtain ⟨hr1, hr2⟩ := hr
  have e : (h - row - 1) * w = w * h - row * w - w := by ring
  have p : 0 ≤ (h - row - 1) * w := by
    apply mul_nonneg <;> omega
  refine ⟨?_, ?_, ?_⟩
  · simp only [isub, iadd, imul]
    rw [wrap32_of_range (x := h - row) (by omega) (by omega),
      wrap32_of_range (x := h - row - 1) (by omega) (by omega),
      wrap32_of_range (x := (h - row - 1) * w) (by omega) (by omega),
      wrap32_of_range (x := (h - row - 1) * w + w) (by omega) (by omega),
      wrap32_of_range (x := (h - row - 1) * w + w - col) (by omega) (by omega),
      wrap32_of_range (x := (h - row - 1) * w + w - col - 1) (by omega) (by omega)]
    omega
  · simp only [isub, iadd, imul]
    rw [wrap32_of_range (x := row * w) (by omega) (by omega),
      wrap32_of_range (x := row * w + col) (by omega) (by omega),
      wrap32_of_range (x := row * w + col + 1) (by omega) (by omega)]
  · simp only [imul]
    rw [wrap32_of_range (x := w * h) (by nlinarith) (by omega)]

/-- The `J` case with one argument. -/
theorem ansi_output_erase_display (term : TERM) (flags : FLAGS) (es : SEQUENCE)
    (hp : es.pfx = 91) (hq : es.pfx2 = 0) (hs : es.suffix = 74) (ha : es.argc = 1) :
    ansi_output term flags es = some (term, flags,
      if es.argv 0 = 0 then
        console_fill term term.col term.row
          (isub (isub (iadd (imul (isub (isub term.height term.row) 1) term.width) term.width)
            term.col) 1)
      else if es.argv 0 = 1 then
        console_fill term 0 0 (iadd (iadd (imul term.row term.width) term.col) 1)
      else if es.argv 0 = 2 then
        console_fill term 0 0 (imul term.width term.height) ++ console_set_pos term 0 0
      else []) := by
  simp only [ansi_output, ansi_output_csi, hp, hq, hs, ha, default_arg, LBRACKET, QUESTION]
  simp
  split_ifs <;> rfl

/-- A fill of the simulated screen from a position inside it. -/
theorem screen_fill (sc : Screen) (term : TERM) (x y len : Int)
    (hx : 0 ≤ x ∧ x < sc.width) (hy : 0 ≤ y ∧ y < sc.height)
    (hw : sc.width ≤ 32767) (hh : sc.height ≤ 32767)
    (hl : 0 ≤ len ∧ len ≤ 2147483647) (ha : term.attr < 65536) :
    (console_fill term x y len).foldl screen_exec sc =
      { sc with
        chars := fun o => if y * sc.width + x ≤ o ∧ o < y * sc.width + x + len
                            ∧ o < sc.width * sc.height then 32 else sc.chars o,
        attrs := fun o => if y * sc.width + x ≤ o ∧ o < y * sc.width + x + len
                            ∧ o < sc.width * sc.height then term.attr else sc.attrs o } := by
  have ex : toSHORT x = x := toSHORT_of_range (by omega) (by omega)
  have ey : toSHORT y = y := toSHORT_of_range (by omega) (by omega)
  have el : toDWORD len = len := by unfold toDWORD; omega
  have ea : toWORD term.attr = term.attr := by unfold toWORD; omega
  have hin : 0 ≤ x ∧ x < sc.width ∧ 0 ≤ y ∧ y < sc.height := ⟨hx.1, hx.2, hy.1, hy.2⟩
  simp only [console_fill, List.foldl, screen_exec, Screen.inside, Screen.filled, Screen.offset,
    ex, ey, el, ea, hin, decide_True, if_true, and_self, decide_eq_true_eq]

/-- `ESC [ n J` for `n` = 0, 1, 2 fed in Ground is one dispatch of the `J`
sequence with the argument `n`. -/
theorem print_erase_display {σ : Type} (C : Console σ) (w : World σ) (hg : w.parser.state = 1)
    (n : Nat) (hn : n < 3) :
    parser_print C w [27, 91, 48 + n, 74] 4 =
      world_dispatch C w
        { w.parser.es with
          pfx := 91, pfx2 := 0, suffix := 74, argc := 1,
          argv := Function.update w.parser.es.argv 0 (n : Int) } := by
  interval_cases n <;>
  simp [parser_print, parser_char, parser_step, parser_dispatch, world_dispatch, ansi_output,
    ansi_output_csi, default_arg, hg, ESC, LBRACKET, RBRACKET, SEMICOLON, QUESTION, ZERO,
    iswdigit, MAX_ARG]

/-- What `ESC [ 0 J` and `ESC [ 1 J` do to the cells of the simulated
screen. -/
theorem erase_display_cells (w : World Screen) (hg : w.parser.state = 1)
    (hw : 1 ≤ w.console.width ∧ w.console.width ≤ 32767)
    (hh : 1 ≤ w.console.height ∧ w.console.height ≤ 32767)
    (ha : w.console.attr < 65536)
    (hc : 0 ≤ w.console.cursor.X ∧ w.console.cursor.X < w.console.width)
    (hr : 0 ≤ w.console.cursor.Y ∧ w.console.cursor.Y < w.console.height) :
    (∃ w1, parser_print screen_console w [27, 91, 48, 74] 4 = some w1 ∧
      ∀ o, (w1.console.chars o, w1.console.attrs o) =
        if w.console.cursor.Y * w.console.width + w.console.cursor.X ≤ o
            ∧ o ≤ w.console.width * w.console.height - 2
        then (32, w.console.attr) else (w.console.chars o, w.console.attrs o)) ∧
    (∃ w1, parser_print screen_console w [27, 91, 49, 74] 4 = some w1 ∧
      ∀ o, (w1.console.chars o, w1.console.attrs o) =
        if 0 ≤ o ∧ o ≤ w.console.cursor.Y * w.console.width + w.console.cursor.X
        then (32, w.console.attr) else (w.console.chars o, w.console.attrs o)) := by
  obtain ⟨l0, l1, -⟩ := erase_display_lengths _ _ _ _ hw hh hc hr
  obtain ⟨o1, o2, o3⟩ := offset_bounds _ _ _ _ hw hh hc hr
  have hcol : (term_refresh w.parser.term (screen_console.info w.console)).col
      = w.console.cursor.X := rfl
  have hrow : (term_refresh w.parser.term (screen_console.info w.console)).row
      = w.console.cursor.Y := rfl
  have hwid : (term_refresh w.parser.term (screen_console.info w.console)).width
      = w.console.width := rfl
  have hhei : (term_refresh w.parser.term (screen_console.info w.console)).height
      = w.console.height := rfl
  have hattr : (term_refresh w.parser.term (screen_console.info w.console)).attr
      = w.console.attr := rfl
  constructor
  · have h := print_erase_display screen_console w hg 0 (by decide)
    simp only [Nat.add_zero, Nat.cast_zero] at h
    rw [h]
    simp only [world_dispatch]
    rw [ansi_output_erase_display _ _ _ rfl rfl rfl rfl]
    simp only [Function.update_same, if_true]
    refine ⟨_, rfl, ?_⟩
    intro o
    show ((List.foldl screen_exec w.console (console_fill _ _ _ _)).chars o,
      (List.foldl screen_exec w.console (console_fill _ _ _ _)).attrs o) = _
    generalize term_refresh w.parser.term (screen_console.info w.console) = T
      at hcol hrow hwid hhei hattr ⊢
    rw [hcol, hrow, hwid, hhei, l0,
      screen_fill w.console T _ _ _ hc hr hw.2 hh.2 (by omega) (by rw [hattr]; exact ha)]
    simp only [hattr]
    by_cases c : w.console.cursor.Y * w.console.width + w.console.cursor.X ≤ o
            ∧ o ≤ w.console.width * w.console.height - 2
    · rw [if_pos c, if_pos (by omega), if_pos (by omega)]
    · rw [if_neg c, if_neg (by omega), if_neg (by omega)]
  · have h := print_erase_display screen_console w hg 1 (by decide)
    simp only [Nat.cast_one] at h
    rw [h]
    simp only [world_dispatch]
    rw [ansi_output_erase_display _ _ _ rfl rfl rfl rfl]
    simp only [Function.update_same, if_true, one_ne_zero, if_false]
    refine ⟨_, rfl, ?_⟩
    intro o
    show ((List.foldl screen_exec w.console (console_fill _ _ _ _)).chars o,
      (List.foldl screen_exec w.console (console_fill _ _ _ _)).attrs o) = _
    generalize term_refresh w.parser.term (screen_console.info w.console) = T
      at hcol hrow hwid hhei hattr ⊢
    rw [hcol, hrow, hwid, l1,
      screen_fill w.console T _ _ _ ⟨le_refl 0, by omega⟩ ⟨le_refl 0, by omega⟩ hw.2 hh.2
        (by omega) (by rw [hattr]; exact ha)]
    simp only [hattr]
    by_cases c : 0 ≤ o ∧ o ≤ w.console.cursor.Y * w.console.width + w.console.cursor.X
    · rw [if_pos c, if_pos (by omega), if_pos (by omega)]
    · rw [if_neg c, if_neg (by omega), if_neg (by omega)]

/-- `ESC [ H` fed in Ground is one dispatch of the `H` sequence without
arguments. -/
theorem print_home {σ : Type} (C : Console σ) (w : World σ) (hg : w.parser.state = 1) :
    parser_print C w [27, 91, 72] 3 =
      world_dispatch C w { w.parser.es with pfx := 91, pfx2 := 0, suffix := 72, argc := 0 } := by
  simp [parser_print, parser_char, parser_step, parser_dispatch, world_dispatch, ansi_output,
    ansi_output_csi, default_arg, hg, ESC, LBRACKET, RBRACKET, SEMICOLON, QUESTION, ZERO,
    iswdigit, MAX_ARG]

/-- Writing two strings without NUL one after the other, each counted in
full, is writing their concatenation. -/
theorem parser_print_append {σ : Type} (C : Console σ) (s1 s2 : List Nat)
    (h1 : ∀ c ∈ s1, c ≠ 0) (h2 : ∀ c ∈ s2, c ≠ 0) (w : World σ) :
    parser_print C w (s1 ++ s2) ((s1 ++ s2).length) =
      (parser_print C w s1 s1.length).bind (fun w1 => parser_print C w1 s2 s2.length) := by
  have h12 : ∀ c ∈ s1 ++ s2, c ≠ 0 := by
    intro c hc
    rcases List.mem_append.mp hc with h | h
    · exact h1 c h
    · exact h2 c h
  rw [parser_print_eq_feed C _ h12, feed_append, parser_print_eq_feed C _ h1]
  congr 1
  funext w1
  rw [parser_print_eq_feed C _ h2]

/-- The home position of a screen of at least one cell. -/
theorem screen_home (sc : Screen) (term : TERM) (hw : 1 ≤ sc.width) (hh : 1 ≤ sc.height)
    (htw : term.width = sc.width) (hth : term.height = sc.height) :
    (console_set_pos term 0 0).foldl screen_exec sc = { sc with cursor := { X := 0, Y := 0 } } := by
  have h1 : ¬ ((0 : Int) ≥ term.height) := by omega
  have h2 : ¬ ((0 : Int) ≥ term.width) := by omega
  have hin : (0 : Int) ≤ 0 ∧ 0 < sc.width ∧ (0 : Int) ≤ 0 ∧ 0 < sc.height :=
    ⟨le_refl 0, by omega, le_refl 0, by omega⟩
  have z : toSHORT 0 = 0 := by decide
  simp only [console_set_pos, lt_self_iff_false, if_false, h1, h2, z, List.foldl, screen_exec,
    Screen.inside, hin, decide_True, if_true, and_self]

/-- The `H` case without arguments: the cursor is set to the home position. -/
theorem ansi_output_home (term : TERM) (flags : FLAGS) (es : SEQUENCE)
    (hp : es.pfx = 91) (hq : es.pfx2 = 0) (hs : es.suffix = 72) (ha : es.argc = 0) :
    ansi_output term flags es = some (term, flags, console_set_pos term 0 0) := by
  have z : isub 1 1 = 0 := by decide
  simp only [ansi_output, ansi_output_csi, hp, hq, hs, ha, LBRACKET, QUESTION]
  simp [z]

/-- `ESC [ 2 J` on the simulated screen: every cell is a space in the current
attribute and the cursor is at home. -/
theorem clear_screen_cells (w : World Screen) (hg : w.parser.state = 1)
    (hw : 1 ≤ w.console.width ∧ w.console.width ≤ 32767)
    (hh : 1 ≤ w.console.height ∧ w.console.height ≤ 32767)
    (ha : w.console.attr < 65536) :
    ∃ w1, parser_print screen_console w [27, 91, 50, 74] 4 = some w1 ∧
      w1.parser.state = 1 ∧
      w1.console.cursor = { X := 0, Y := 0 } ∧
      w1.console.width = w.console.width ∧ w1.console.height = w.console.height ∧
      w1.console.attr = w.console.attr ∧
      ∀ o, 0 ≤ o → o < w.console.width * w.console.height →
        w1.console.chars o = 32 ∧ w1.console.attrs o = w.console.attr := by
  obtain ⟨-, -, l2⟩ := erase_display_lengths _ _ 0 0 hw hh ⟨le_refl 0, by omega⟩
    ⟨le_refl 0, by omega⟩
  obtain ⟨-, -, o3⟩ := offset_bounds _ _ 0 0 hw hh ⟨le_refl 0, by omega⟩ ⟨le_refl 0, by omega⟩
  have hwid : (term_refresh w.parser.term (screen_console.info w.console)).width
      = w.console.width := rfl
  have hhei : (term_refresh w.parser.term (screen_console.info w.console)).height
      = w.console.height := rfl
  have hattr : (term_refresh w.parser.term (screen_console.info w.console)).attr
      = w.console.attr := rfl
  have h := print_erase_display screen_console w hg 2 (by decide)
  have c2 : ((2 : Nat) : Int) = 2 := rfl
  simp only [c2] at h
  rw [h]
  simp only [world_dispatch]
  rw [ansi_output_erase_display _ _ _ rfl rfl rfl rfl]
  have n20 : ¬ ((2 : Int) = 0) := by decide
  have n21 : ¬ ((2 : Int) = 1) := by decide
  have hexec : screen_console.exec = screen_exec := rfl
  simp only [Function.update_same, if_true, n20, n21, if_false, List.foldl_append, hexec]
  generalize term_refresh w.parser.term (screen_console.info w.console) = T
    at hwid hhei hattr ⊢
  rw [hwid, hhei, l2,
    screen_fill w.console T _ _ _ ⟨le_refl 0, by omega⟩ ⟨le_refl 0, by omega⟩ hw.2 hh.2
      (by constructor <;> nlinarith) (by rw [hattr]; exact ha),
    screen_home _ T ?h1 ?h2 ?h3 ?h4]
  case h1 => exact hw.1
  case h2 => exact hh.1
  case h3 => exact hwid
  case h4 => exact hhei
  refine ⟨_, rfl, rfl, rfl, rfl, rfl, rfl, ?_⟩
  intro o h0 h1
  have c : 0 * w.console.width + 0 ≤ o ∧ o < 0 * w.console.width + 0
      + w.console.width * w.console.height ∧ o < w.console.width * w.console.height := by
    refine ⟨by omega, by omega, h1⟩
  simp only [c, and_self, if_true, hattr]

/-- `ESC [ H` on the simulated screen: the cursor is at home, nothing else
changes. -/
theorem home_cells (w : World Screen) (hg : w.parser.state = 1)
    (hw : 1 ≤ w.console.width) (hh : 1 ≤ w.console.height) :
    ∃ w1, parser_print screen_console w [27, 91, 72] 3 = some w1 ∧
      w1.console = { w.console with cursor := { X := 0, Y := 0 } } := by
  rw [print_home screen_console w hg]
  simp only [world_dispatch]
  rw [ansi_output_home _ _ _ rfl rfl rfl rfl]
  have hexec : screen_console.exec = screen_exec := rfl
  simp only [hexec]
  rw [screen_home w.console _ hw hh rfl rfl]
  exact ⟨_, rfl, rfl⟩

/-- C13. On a simulated screen of `SHORT` size with the cursor inside,
`ESC [ 0 J` written in Ground fills with space in the current attribute the
cells at the row-major offsets `row*width+col` through `width*height-2` and
leaves every other cell as it was: the last cell of the last row, at offset
`width*height-1`, is not filled.  `ESC [ 1 J` fills exactly the cells at the
offsets 0 through `row*width+col`. -/
theorem c13_erase_to_end_leaves_last_cell (w : World Screen) (hg : w.parser.state = 1)
    (hw : 1 ≤ w.console.width ∧ w.console.width ≤ 32767)
    (hh : 1 ≤ w.console.height ∧ w.console.height ≤ 32767)
    (ha : w.console.attr < 65536)
    (hc : 0 ≤ w.console.cursor.X ∧ w.console.cursor.X < w.console.width)
    (hr : 0 ≤ w.console.cursor.Y ∧ w.console.cursor.Y < w.console.height) :
    (∃ w1, parser_print screen_console w [27, 91, 48, 74] 4 = some w1 ∧
      (∀ o, (w1.console.chars o, w1.console.attrs o) =
        if w.console.cursor.Y * w.console.width + w.console.cursor.X ≤ o
            ∧ o ≤ w.console.width * w.console.height - 2
        then (32, w.console.attr) else (w.console.chars o, w.console.attrs o)) ∧
      (w1.console.chars (w.console.width * w.console.height - 1),
        w1.console.attrs (w.console.width * w.console.height - 1)) =
      (w.console.chars (w.console.width * w.console.height - 1),
        w.console.attrs (w.console.width * w.console.height - 1))) ∧
    (∃ w1, parser_print screen_console w [27, 91, 49, 74] 4 = some w1 ∧
      ∀ o, (w1.console.chars o, w1.console.attrs o) =
        if 0 ≤ o ∧ o ≤ w.console.cursor.Y * w.console.width + w.console.cursor.X
        then (32, w.console.attr) else (w.console.chars o, w.console.attrs o)) := by
  obtain ⟨⟨w0, e0, c0⟩, h1⟩ := erase_display_cells w hg hw hh ha hc hr
  refine ⟨⟨w0, e0, c0, ?_⟩, h1⟩
  rw [c0, if_neg (by omega)]

/-- C13, witness: the 80 x 25 sample screen with the cursor at column 1 of
row 0.  After `ESC [ 0 J` the cell at offset 1998 is a space in attribute 7;
the last cell, at offset 1999, still holds `x` in attribute 112. -/
theorem c13_erase_to_end_leaves_last_cell_witness :
    ∃ w1, parser_print screen_console sample_screen_world [27, 91, 48, 74] 4 = some w1 ∧
      (w1.console.chars 1998, w1.console.attrs 1998) = (32, 7) ∧
      (w1.console.chars 1999, w1.console.attrs 1999) = (120, 112) := by
  obtain ⟨⟨w0, e0, c0, l0⟩, -⟩ := c13_erase_to_end_leaves_last_cell sample_screen_world
    (by decide) (by decide) (by decide) (by decide) (by decide) (by decide)
  exact ⟨w0, e0, c0 1998, l0⟩

/-- C14. On a simulated screen of `SHORT` size, whatever the cursor position
and the content, writing `ESC [ 2 J ESC [ H` in Ground leaves the cursor at
(0,0) and every cell of `[0,width) x [0,height)` holding a space in the
current attribute; the size and the attribute are as before. -/
theorem c14_clear_screen_then_home (w : World Screen) (hg : w.parser.state = 1)
    (hw : 1 ≤ w.console.width ∧ w.console.width ≤ 32767)
    (hh : 1 ≤ w.console.height ∧ w.console.height ≤ 32767)
    (ha : w.console.attr < 65536) :
    ∃ w1, parser_print screen_console w [27, 91, 50, 74, 27, 91, 72] 7 = some w1 ∧
      w1.console.cursor = { X := 0, Y := 0 } ∧
      w1.console.width = w.console.width ∧ w1.console.height = w.console.height ∧
      w1.console.attr = w.console.attr ∧
      ∀ x y, 0 ≤ x → x < w.console.width → 0 ≤ y → y < w.console.height →
        w1.console.chars (y * w.console.width + x) = 32 ∧
        w1.console.attrs (y * w.console.width + x) = w.console.attr := by
  obtain ⟨w1, e1, s1, -, wd1, ht1, at1, cells1⟩ := clear_screen_cells w hg hw hh ha
  obtain ⟨w2, e2, c2⟩ := home_cells w1 s1 (by rw [wd1]; exact hw.1) (by rw [ht1]; exact hh.1)
  have happ : parser_print screen_console w [27, 91, 50, 74, 27, 91, 72] 7 =
      (parser_print screen_console w [27, 91, 50, 74] 4).bind
        (fun v => parser_print screen_console v [27, 91, 72] 3) :=
    parser_print_append screen_console [27, 91, 50, 74] [27, 91, 72] (by decide) (by decide) w
  rw [happ, e1, Option.some_bind, e2]
  refine ⟨w2, rfl, ?_, ?_, ?_, ?_, ?_⟩
  · rw [c2]
  · rw [c2]; exact wd1
  · rw [c2]; exact ht1
  · rw [c2]; exact at1
  · intro x y hx0 hx1 hy0 hy1
    obtain ⟨b1, b2, -⟩ := offset_bounds _ _ x y hw hh ⟨hx0, hx1⟩ ⟨hy0, hy1⟩
    rw [c2]
    exact cells1 _ (by omega) b2

/-- C14, witness: the 80 x 25 sample screen, cursor at column 1 of row 0,
every cell holding `x` in attribute 112. -/
theorem c14_clear_screen_then_home_witness :
    ∃ w1, parser_print screen_console sample_screen_world [27, 91, 50, 74, 27, 91, 72] 7
        = some w1 ∧
      w1.console.cursor = { X := 0, Y := 0 } ∧
      (w1.console.chars 0, w1.console.attrs 0) = (32, 7) ∧
      (w1.console.chars 1999, w1.console.attrs 1999) = (32, 7) := by
  obtain ⟨w1, e, c, -, -, -, cells⟩ := c14_clear_screen_then_home sample_screen_world
    (by decide) (by decide) (by decide) (by decide)
  have a := cells 0 0 (by decide) (by decide) (by decide) (by decide)
  have b := cells 79 24 (by decide) (by decide) (by decide) (by decide)
  exact ⟨w1, e, c, Prod.ext a.1 a.2, Prod.ext b.1 b.2⟩

theorem written_chars_put_char (term : TERM) (s : Nat) :
    written_chars (console_put_char term s) = [s] := by
  unfold console_put_char
  split_ifs <;> rfl

theorem written_chars_append (a b : List ConsoleOp) :
    written_chars (a ++ b) = written_chars a ++ written_chars b := by
  simp only [written_chars, List.filterMap_append]

/-- One literal character in Ground. -/
theorem char_ground_literal {σ : Type} (C : Console σ) (w : World σ) (c : Nat)
    (hg : w.parser.state = 1) (h0 : c ≠ 0) (he : c ≠ 27) :
    ∃ w1, parser_char C w c = some w1 ∧ w1.parser.state = 1 ∧ w1.flags = w.flags ∧
      w1.parser.term.concealed = w.parser.term.concealed ∧
      w1.trace = w.trace ++
        (console_put_char (term_refresh w.parser.term (C.info w.console))
            (if w.parser.term.concealed then 32 else c)
          ++ (if w.flags.onlcr ∧ c = 13 then
                console_put_char (term_refresh w.parser.term (C.info w.console)) 10
              else [])) := by
  simp only [parser_char, parser_step, hg, ESC, he, if_true, if_false, ne_eq, h0,
    not_false_eq_true]
  exact ⟨_, rfl, rfl, rfl, rfl, rfl⟩

/-- A string of literal characters in Ground. -/
theorem print_ground_literals {σ : Type} (C : Console σ) (s : List Nat)
    (hs : ∀ c ∈ s, c ≠ 0 ∧ c ≠ 27) (w : World σ) (hg : w.parser.state = 1) :
    ∃ w1, parser_print C w s s.length = some w1 ∧ w1.parser.state = 1 ∧ w1.flags = w.flags ∧
      w1.parser.term.concealed = w.parser.term.concealed ∧
      written_chars w1.trace = written_chars w.trace ++
        s.flatMap (ground_output w.flags w.parser.term.concealed) := by
  rw [parser_print_eq_feed C s (fun c hc => (hs c hc).1)]
  induction s generalizing w with
  | nil => exact ⟨w, rfl, hg, rfl, rfl, by simp⟩
  | cons c s ih =>
    have hc := hs c (List.mem_cons_self _ _)
    obtain ⟨w1, e1, g1, f1, k1, t1⟩ := char_ground_literal C w c hg hc.1 hc.2
    obtain ⟨w2, e2, g2, f2, k2, t2⟩ := ih (fun d hd => hs d (List.mem_cons_of_mem _ hd)) w1 g1
    refine ⟨w2, ?_, g2, f2.trans f1, k2.trans k1, ?_⟩
    · rw [feed_cons, e1, Option.some_bind, e2]
    · rw [t2, t1, f1, k1, List.flatMap_cons, written_chars_append, written_chars_append,
        written_chars_put_char, List.append_assoc]
      congr 1
      unfold ground_output
      by_cases h : w.flags.onlcr = true ∧ c = 13
      · simp only [h, and_self, if_true, written_chars_put_char, List.singleton_append,
          List.cons_append, List.nil_append]
      · simp only [h, if_false, written_chars, List.filterMap_nil, List.append_nil,
          List.singleton_append, List.cons_append, List.nil_append]

/-- C15, the failing input: with ONLCR on, a line feed written in Ground goes
out as the line feed alone, without a carriage return before it; and a
carriage return goes out followed by a line feed. -/
theorem c15_failing_input_line_feed_alone :
    sample_world_onlcr.flags.onlcr = true ∧ sample_world_onlcr.parser.state = 1 ∧
    (parser_print static_console sample_world_onlcr [10] 1).map World.trace
      = some [ConsoleOp.WriteConsole 10] ∧
    (parser_print static_console sample_world_onlcr [13] 1).map World.trace
      = some [ConsoleOp.WriteConsole 13, ConsoleOp.WriteConsole 10] := by
  decide

/-- C15. What the Ground state writes for a string of literal characters (no
NUL, no ESC): each character as it is, or a space when the style is
concealed, and with ONLCR on a line feed after every carriage return.  A line
feed of the string is written alone, with no carriage return before it,
whatever the flag: the test of line 808 is for `\r`, although the flags are
declared termios-style (line 55), where ONLCR turns NL into CR-NL.  With
ONLCR off nothing is added. -/
theorem c15_onlcr_line_feed_after_carriage_return {σ : Type} (C : Console σ) (w : World σ)
    (s : List Nat) (hg : w.parser.state = 1) (hs : ∀ c ∈ s, c ≠ 0 ∧ c ≠ 27) :
    ∃ w1, parser_print C w s s.length = some w1 ∧ w1.parser.state = 1 ∧
      written_chars w1.trace = written_chars w.trace ++
        s.flatMap (fun c => (if w.parser.term.concealed then 32 else c)
          :: (if w.flags.onlcr ∧ c = 13 then [10] else [])) ∧
      (w.flags.onlcr = false →
        written_chars w1.trace = written_chars w.trace ++
          s.map (fun c => if w.parser.term.concealed then 32 else c)) := by
  have hl : ∀ l : List Nat,
      l.flatMap (fun c => (if w.parser.term.concealed = true then 32 else c) :: ([] : List Nat))
        = l.map (fun c => if w.parser.term.concealed = true then 32 else c) := by
    intro l
    induction l with
    | nil => rfl
    | cons c l ih => simp only [List.flatMap_cons, List.map_cons, List.singleton_append, ih]
  obtain ⟨w1, e, g, -, -, t⟩ := print_ground_literals C s hs w hg
  refine ⟨w1, e, g, t, ?_⟩
  intro hoff
  rw [t]
  congr 1
  unfold ground_output
  simp only [hoff, Bool.false_eq_true, false_and, if_false]
  exact hl s

/-- C15, witness: `A`, line feed, carriage return written with ONLCR on are
output as `A`, line feed, carriage return, line feed. -/
theorem c15_onlcr_line_feed_after_carriage_return_witness :
    ∃ w1, parser_print static_console sample_world_onlcr [65, 10, 13] 3 = some w1 ∧
      written_chars w1.trace = [65, 10, 13, 10] := by
  obtain ⟨w1, e, -, t, -⟩ := c15_onlcr_line_feed_after_carriage_return static_console
    sample_world_onlcr [65, 10, 13] (by decide) (by decide)
  exact ⟨w1, e, t⟩

/-- The text of a string buffer after `s` has been stored behind it. -/
theorem wstr_text_append (w w1 : WSTR) (k : Nat) (s : List Nat)
    (hc : w.count = k) (hc1 : w1.count = k + s.length)
    (h1 : ∀ i, i < k → w1.buffer i = w.buffer i)
    (h2 : ∀ j, j < s.length → w1.buffer (k + j) = s.getD j 0) :
    wstr_text w1 = wstr_text w ++ s := by
  have e1 : w1.count.toNat = k + s.length := by rw [hc1]; omega
  have e0 : w.count.toNat = k := by rw [hc]; omega
  unfold wstr_text
  rw [e1, e0]
  apply List.ext_getElem
  · simp
  · intro i hi1 hi2
    simp only [List.getElem_map, List.getElem_range]
    by_cases hik : i < k
    · rw [List.getElem_append_left (by simpa using hik)]
      simp only [List.getElem_map, List.getElem_range]
      exact h1 i hik
    · have hlen : ((List.range k).map w.buffer).length ≤ i := by simp; omega
      rw [List.getElem_append_right hlen]
      simp only [List.length_map, List.length_range]
      have hj : i - k < s.length := by
        simp only [List.length_map, List.length_range] at hi1
        omega
      have := h2 (i - k) hj
      rw [show k + (i - k) = i by omega] at this
      rw [this, List.getD_eq_getElem _ _ hj]

/-- A virtual key code above `VK_F12` has no case in the `switch`. -/
theorem key_sequence_large (vk : Nat) (h : 124 ≤ vk) : key_sequence vk = none := by
  have h33 : ¬ (vk = 33) := by omega
  have h34 : ¬ (vk = 34) := by omega
  have h35 : ¬ (vk = 35) := by omega
  have h36 : ¬ (vk = 36) := by omega
  have h37 : ¬ (vk = 37) := by omega
  have h38 : ¬ (vk = 38) := by omega
  have h39 : ¬ (vk = 39) := by omega
  have h40 : ¬ (vk = 40) := by omega
  have h45 : ¬ (vk = 45) := by omega
  have h46 : ¬ (vk = 46) := by omega
  have h112 : ¬ (vk = 112) := by omega
  have h113 : ¬ (vk = 113) := by omega
  have h114 : ¬ (vk = 114) := by omega
  have h115 : ¬ (vk = 115) := by omega
  have h116 : ¬ (vk = 116) := by omega
  have h117 : ¬ (vk = 117) := by omega
  have h118 : ¬ (vk = 118) := by omega
  have h119 : ¬ (vk = 119) := by omega
  have h120 : ¬ (vk = 120) := by omega
  have h121 : ¬ (vk = 121) := by omega
  have h122 : ¬ (vk = 122) := by omega
  have h123 : ¬ (vk = 123) := by omega
  simp only [key_sequence, VK_PRIOR, VK_NEXT, VK_END, VK_HOME, VK_LEFT, VK_UP, VK_RIGHT, VK_DOWN, VK_INSERT, VK_DELETE, VK_F1,
    VK_F2, VK_F3, VK_F4, VK_F5, VK_F6, VK_F7, VK_F8, VK_F9, VK_F10, VK_F11, VK_F12,
    h33, h34, h35, h36, h37, h38, h39, h40, h45, h46, h112, h113
    , h114, h115, h116, h117, h118, h119, h120, h121, h122, h123, if_false]

/-- The check of one entry of the key translation table. -/
theorem key_sequence_checked : ∀ vk, vk < 124 →
    (match key_sequence vk with
      | none => true
      | some (s, n) => decide (cstring s = s ∧ n = s.length ∧ 3 ≤ s.length ∧ s.length ≤ 5 ∧
          s.getD (s.length - 1) 0 ≠ 13)) = true := by
  decide

/-- The sequences of the key translation table: 3 to 5 characters, none of
them NUL, the length as handed on, the last one not a carriage return. -/
theorem key_sequence_facts (vk : Nat) (s : List Nat) (n : Int)
    (h : key_sequence vk = some (s, n)) :
    cstring s = s ∧ n = s.length ∧ 3 ≤ s.length ∧ s.length ≤ 5 ∧
      s.getD (s.length - 1) 0 ≠ 13 := by
  by_cases hv : vk < 124
  · have := key_sequence_checked vk hv
    rw [h] at this
    simpa using this
  · rw [key_sequence_large vk (by omega)] at h
    exact absurd h (by simp)

/-- `wstr_write_char` with room for the character and the NUL. -/
theorem wstr_write_char_room (w : WSTR) (c : Nat) (k : Nat) (hc : w.count = k)
    (hroom : (k : Int) + 2 ≤ w.size) (hsize : w.size ≤ 2147483647) :
    wstr_write_char w c =
      some ({ buffer := Function.update (Function.update w.buffer k c) (k + 1) 0,
              size := w.size, count := (k : Int) + 1 }, true) := by
  have e2 : iadd w.count 2 = (k : Int) + 2 := by
    rw [hc]; exact wrap32_of_range (by omega) (by omega)
  have e1 : iadd (k : Int) 1 = (k : Int) + 1 := wrap32_of_range (by omega) (by omega)
  have n2 : ¬ ((k : Int) + 2 > w.size) := by omega
  have b1 : (0 : Int) ≤ k ∧ (k : Int) < w.size := ⟨by omega, by omega⟩
  have b2 : (0 : Int) ≤ (k : Int) + 1 ∧ (k : Int) + 1 < w.size := ⟨by omega, by omega⟩
  have t1 : ((k : Int) + 1).toNat = k + 1 := by omega
  unfold wstr_write_char
  rw [e2, if_neg n2]
  have s1 : wstr_store w w.count c = some { w with buffer := Function.update w.buffer k c } := by
    unfold wstr_store
    rw [hc, if_pos b1, Int.toNat_ofNat]
  rw [s1]
  dsimp only
  rw [hc, e1]
  unfold wstr_store
  dsimp only
  rw [if_pos b2, t1]

/-- `wstr_write` with room for the string and the NUL. -/
theorem wstr_write_room (w : WSTR) (s : List Nat) (n : Int) (k : Nat) (hc : w.count = k)
    (hs : cstring s = s) (hn : n = s.length)
    (hroom : (k : Int) + s.length + 1 ≤ w.size) (hsize : w.size ≤ 2147483647) :
    wstr_write w s n =
      some ({ buffer := fun i =>
                if (k : Int) ≤ (i : Int) ∧ (i : Int) ≤ (k : Int) + s.length then s.getD (i - k) 0
                else w.buffer i,
              size := w.size, count := (k : Int) + s.length }, true) := by
  have e1 : iadd (iadd w.count n) 1 = (k : Int) + s.length + 1 := by
    rw [hc, hn]
    simp only [iadd]
    rw [wrap32_of_range (x := (k : Int) + s.length) (by omega) (by omega)]
    exact wrap32_of_range (by omega) (by omega)
  have e2 : iadd (k : Int) (s.length : Int) = (k : Int) + s.length :=
    wrap32_of_range (by omega) (by omega)
  have n1 : ¬ ((k : Int) + s.length + 1 > w.size) := by omega
  have b1 : (0 : Int) ≤ k ∧ (k : Int) + s.length + 1 ≤ w.size := ⟨by omega, hroom⟩
  unfold wstr_write
  rw [e1, if_neg n1]
  unfold wcscpy
  rw [hc, hs, if_pos b1]
  dsimp only
  rw [hn, e2, Int.toNat_ofNat]

/-- The end of the key-down branch when the string is not full: no overflow
is reported, and a last character CR becomes LF under `flags.icrnl`. -/
theorem key_down_check_room (flags : FLAGS) (w1 : WSTR) (e1 : List Nat) (m : Nat)
    (hm : w1.count = m) (h1 : 1 ≤ m) (hroom : (m : Int) + 1 ≤ w1.size)
    (hsize : w1.size ≤ 2147483647) :
    ∃ w2, key_down_check flags w1 e1 = some (EventResult.next w2 e1) ∧
      w2.size = w1.size ∧ w2.count = m ∧
      (∀ i, i + 1 < m → w2.buffer i = w1.buffer i) ∧
      w2.buffer (m - 1) =
        (if flags.icrnl = true ∧ w1.buffer (m - 1) = 13 then 10 else w1.buffer (m - 1)) := by
  have hw := wstr_write_room w1 [] 0 m hm rfl rfl (by simpa using hroom) hsize
  have el : ((([] : List Nat).length : Nat) : Int) = 0 := rfl
  rw [el, add_zero] at hw
  unfold key_down_check
  rw [hw]
  dsimp only
  have es : isub (m : Int) 1 = (m : Int) - 1 := wrap32_of_range (by omega) (by omega)
  have et : ((m : Int) - 1).toNat = m - 1 := by omega
  have hb : (0 : Int) ≤ (m : Int) - 1 ∧ (m : Int) - 1 < w1.size := ⟨by omega, by omega⟩
  have hnot : ¬ ((m : Int) ≤ ((m - 1 : Nat) : Int) ∧ ((m - 1 : Nat) : Int) ≤ (m : Int)) := by
    omega
  rw [es, et, if_pos hb, if_neg hnot]
  simp only [Bool.true_eq_false, if_false]
  by_cases hi : flags.icrnl = true
  · rw [if_pos hi]
    by_cases hcr : w1.buffer (m - 1) = 13
    · rw [if_pos hcr]
      unfold wstr_store
      dsimp only
      rw [if_pos hb, et]
      refine ⟨_, rfl, rfl, rfl, ?_, ?_⟩
      · intro i hi2
        dsimp only
        rw [Function.update_noteq (by omega)]
        have : ¬ ((m : Int) ≤ (i : Int) ∧ (i : Int) ≤ (m : Int)) := by omega
        rw [if_neg this]
      · dsimp only
        rw [Function.update_same, if_pos ⟨hi, hcr⟩]
    · rw [if_neg hcr]
      refine ⟨_, rfl, rfl, rfl, ?_, ?_⟩
      · intro i hi2
        dsimp only
        have : ¬ ((m : Int) ≤ (i : Int) ∧ (i : Int) ≤ (m : Int)) := by omega
        rw [if_neg this]
      · dsimp only
        rw [if_neg hnot, if_neg (fun h => hcr h.2)]
  · rw [if_neg hi]
    refine ⟨_, rfl, rfl, rfl, ?_, ?_⟩
    · intro i hi2
      dsimp only
      have : ¬ ((m : Int) ≤ (i : Int) ∧ (i : Int) ≤ (m : Int)) := by omega
      rw [if_neg this]
    · dsimp only
      rw [if_neg hnot, if_neg (fun h => hi h.1)]

/-- A key-down event without Ctrl or Alt for a key of the translation table,
with room in the string: the sequence of the table is appended, nothing is
echoed. -/
theorem event_translated (flags : FLAGS) (w : WSTR) (echoed : List Nat) (ev : INPUT_RECORD)
    (k : Nat) (s : List Nat) (n : Int)
    (hk : ev.EventType = KEY_EVENT) (hd : ev.KeyEvent.bKeyDown = true)
    (hmod : ev.KeyEvent.dwControlKeyState &&& 15 = 0)
    (hseq : key_sequence ev.KeyEvent.wVirtualKeyCode = some (s, n))
    (hc : w.count = k) (hroom : (k : Int) + s.length + 1 ≤ w.size)
    (hsize : w.size ≤ 2147483647) :
    ∃ w2, ansi_input_event flags w echoed ev = some (EventResult.next w2 echoed) ∧
      w2.size = w.size ∧ w2.count = (k : Int) + s.length ∧
      wstr_text w2 = wstr_text w ++ s := by
  obtain ⟨f1, f2, f3, f4, f5⟩ := key_sequence_facts _ s n hseq
  have hw := wstr_write_room w s n k hc f1 f2 hroom hsize
  have hnd : ¬ (ev.KeyEvent.bKeyDown = false) := by rw [hd]; decide
  have hnm : ¬ (ev.KeyEvent.dwControlKeyState &&& 15 ≠ 0) := not_not.mpr hmod
  unfold ansi_input_event
  rw [if_pos hk, if_neg hnd]
  unfold key_down_write
  rw [if_neg hnm, hseq]
  dsimp only
  rw [hw]
  dsimp only
  obtain ⟨w2, e2, z2, c2, b2, l2⟩ := key_down_check_room flags
    { buffer := fun i =>
        if (k : Int) ≤ (i : Int) ∧ (i : Int) ≤ (k : Int) + s.length then s.getD (i - k) 0
        else w.buffer i,
      size := w.size, count := (k : Int) + s.length } echoed (k + s.length)
    (by push_cast; rfl) (by omega) (by push_cast; exact hroom) hsize
  refine ⟨w2, e2, z2, by rw [c2]; push_cast; rfl, ?_⟩
  have hlast : w2.buffer (k + s.length - 1) = s.getD (s.length - 1) 0 := by
    rw [l2]
    dsimp only
    have hin : (k : Int) ≤ ((k + s.length - 1 : Nat) : Int)
        ∧ ((k + s.length - 1 : Nat) : Int) ≤ (k : Int) + s.length := by omega
    rw [if_pos hin, show k + s.length - 1 - k = s.length - 1 by omega]
    rw [if_neg (fun h => f5 h.2)]
  apply wstr_text_append w w2 k s hc (by rw [c2]; push_cast; rfl)
  · intro i hi
    rw [b2 i (by omega)]
    dsimp only
    have : ¬ ((k : Int) ≤ (i : Int) ∧ (i : Int) ≤ (k : Int) + s.length) := by omega
    rw [if_neg this]
  · intro j hj
    by_cases hjl : j + 1 < s.length
    · rw [b2 (k + j) (by omega)]
      dsimp only
      have hin : (k : Int) ≤ ((k + j : Nat) : Int)
          ∧ ((k + j : Nat) : Int) ≤ (k : Int) + s.length := by omega
      rw [if_pos hin, show k + j - k = j by omega]
    · have : j = s.length - 1 := by omega
      rw [this, show k + (s.length - 1) = k + s.length - 1 by omega, hlast]

/-- `emit_char` with room in the string: the character is stored, and under
`flags.echo` it is printed, a carriage return as a line feed. -/
theorem emit_char_room (flags : FLAGS) (w : WSTR) (echoed : List Nat) (c : Nat) (k : Nat)
    (hc : w.count = k) (hroom : (k : Int) + 2 ≤ w.size) (hsize : w.size ≤ 2147483647) :
    emit_char flags w echoed c =
      some ({ buffer := Function.update (Function.update w.buffer k c) (k + 1) 0,
              size := w.size, count := (k : Int) + 1 },
            if flags.echo = true then echoed ++ [if c = 13 then 10 else c] else echoed) := by
  unfold emit_char
  rw [wstr_write_char_room w c k hc hroom hsize]

/-- A key-down event that emits its Unicode character (Ctrl or Alt held, or
a key without a case in the `switch`), with room in the string: the
character is appended, a carriage return as a line feed under `flags.icrnl`,
and echoed under `flags.echo`. -/
theorem event_char (flags : FLAGS) (w : WSTR) (echoed : List Nat) (ev : INPUT_RECORD) (k : Nat)
    (hk : ev.EventType = KEY_EVENT) (hd : ev.KeyEvent.bKeyDown = true)
    (hcase : ev.KeyEvent.dwControlKeyState &&& 15 ≠ 0
      ∨ key_sequence ev.KeyEvent.wVirtualKeyCode = none)
    (hc : w.count = k) (hroom : (k : Int) + 2 ≤ w.size) (hsize : w.size ≤ 2147483647) :
    ∃ w2, ansi_input_event flags w echoed ev =
        some (EventResult.next w2
          (if flags.echo = true then
            echoed ++ [if ev.KeyEvent.UnicodeChar = 13 then 10 else ev.KeyEvent.UnicodeChar]
           else echoed)) ∧
      w2.size = w.size ∧ w2.count = (k : Int) + 1 ∧
      wstr_text w2 = wstr_text w ++
        [if flags.icrnl = true ∧ ev.KeyEvent.UnicodeChar = 13 then 10
         else ev.KeyEvent.UnicodeChar] := by
  have hnd : ¬ (ev.KeyEvent.bKeyDown = false) := by rw [hd]; decide
  have hwrite : key_down_write flags w echoed ev.KeyEvent =
      emit_char flags w echoed ev.KeyEvent.UnicodeChar := by
    unfold key_down_write
    by_cases hm : ev.KeyEvent.dwControlKeyState &&& 15 ≠ 0
    · rw [if_pos hm]
    · rw [if_neg hm]
      rcases hcase with h | h
      · exact absurd h hm
      · rw [h]
  unfold ansi_input_event
  rw [if_pos hk, if_neg hnd, hwrite, emit_char_room flags w echoed _ k hc hroom hsize]
  dsimp only
  obtain ⟨w2, e2, z2, c2, b2, l2⟩ := key_down_check_room flags
    { buffer := Function.update (Function.update w.buffer k ev.KeyEvent.UnicodeChar) (k + 1) 0,
      size := w.size, count := (k : Int) + 1 }
    (if flags.echo = true then
      echoed ++ [if ev.KeyEvent.UnicodeChar = 13 then 10 else ev.KeyEvent.UnicodeChar]
     else echoed) (k + 1)
    (by push_cast; rfl) (by omega) (by push_cast; omega) hsize
  refine ⟨w2, e2, z2, by rw [c2]; push_cast; rfl, ?_⟩
  have hcell : Function.update (Function.update w.buffer k ev.KeyEvent.UnicodeChar) (k + 1) 0 k
      = ev.KeyEvent.UnicodeChar := by
    rw [Function.update_noteq (by omega), Function.update_same]
  apply wstr_text_append w w2 k _ hc (by rw [c2]; rfl)
  · intro i hi
    rw [b2 i (by omega)]
    dsimp only
    rw [Function.update_noteq (by omega), Function.update_noteq (by omega)]
  · intro j hj
    have hj0 : j = 0 := by simpa using hj
    subst hj0
    have l3 := l2
    dsimp only at l3
    rw [show k + 1 - 1 = k by omega, hcell] at l3
    rw [Nat.add_zero, l3]
    rfl

/-- The key-up event of the Alt key, with room in the string: the Unicode
character is appended as it is, whatever `flags.icrnl`, and echoed under
`flags.echo`. -/
theorem event_alt_up (flags : FLAGS) (w : WSTR) (echoed : List Nat) (c : Nat) (k : Nat)
    (hc : w.count = k) (hroom : (k : Int) + 2 ≤ w.size) (hsize : w.size ≤ 2147483647) :
    ∃ w2, ansi_input_event flags w echoed (alt_key_up c) =
        some (EventResult.next w2
          (if flags.echo = true then echoed ++ [if c = 13 then 10 else c] else echoed)) ∧
      w2.size = w.size ∧ w2.count = (k : Int) + 1 ∧
      wstr_text w2 = wstr_text w ++ [c] := by
  have h1 : (alt_key_up c).EventType = KEY_EVENT := rfl
  have h2 : (alt_key_up c).KeyEvent.bKeyDown = false := rfl
  have h3 : (alt_key_up c).KeyEvent.wVirtualKeyCode = VK_MENU := rfl
  unfold ansi_input_event
  rw [if_pos h1, if_pos h2, if_pos h3]
  have h4 : (alt_key_up c).KeyEvent.UnicodeChar = c := rfl
  rw [h4, emit_char_room flags w echoed c k hc hroom hsize]
  dsimp only
  refine ⟨_, rfl, rfl, rfl, ?_⟩
  apply wstr_text_append w _ k [c] hc rfl
  · intro i hi
    dsimp only
    rw [Function.update_noteq (by omega), Function.update_noteq (by omega)]
  · intro j hj
    have hj0 : j = 0 := by simpa using hj
    subst hj0
    dsimp only
    rw [Function.update_noteq (by omega)]
    show Function.update w.buffer k c k = c
    rw [Function.update_same]

/-- C16, counterexample: the Enter key (virtual key 13, no case in the
`switch`, Unicode character CR) pressed with the initial flags: the call
reports the one character LF, not the event's Unicode character. -/
theorem c16_counterexample_enter_gives_line_feed :
    key_sequence VK_RETURN = none ∧
    (ansi_input flags_initial [key_down VK_RETURN 13] (fun _ => 0) 0 []).map
      (fun r => (r.ret, r.text)) = some (0, [10]) := by
  decide

/-- C16 (amended). A key-down event with no Ctrl or Alt modifier, handled
while the string has room for six more cells: for a key of the translation
table (`key_sequence`, the cases of the `switch`; Left-Arrow is `ESC [ D`)
exactly the sequence of the table is appended and nothing else; for every
other virtual key exactly one character is appended, the event's Unicode
character, or a line feed when that character is a carriage return and
`flags.icrnl` is on. -/
theorem c16_key_down_appends_table_sequence (flags : FLAGS) (w : WSTR) (echoed : List Nat)
    (ev : INPUT_RECORD) (k : Nat)
    (hk : ev.EventType = KEY_EVENT) (hd : ev.KeyEvent.bKeyDown = true)
    (hmod : ev.KeyEvent.dwControlKeyState &&& 15 = 0)
    (hc : w.count = k) (hroom : (k : Int) + 6 ≤ w.size) (hsize : w.size ≤ 2147483647) :
    (∀ s n, key_sequence ev.KeyEvent.wVirtualKeyCode = some (s, n) →
      ∃ w2, ansi_input_event flags w echoed ev = some (EventResult.next w2 echoed) ∧
        w2.count = (k : Int) + s.length ∧ wstr_text w2 = wstr_text w ++ s) ∧
    (key_sequence ev.KeyEvent.wVirtualKeyCode = none →
      ∃ w2 e2, ansi_input_event flags w echoed ev = some (EventResult.next w2 e2) ∧
        w2.count = (k : Int) + 1 ∧
        wstr_text w2 = wstr_text w ++
          [if flags.icrnl = true ∧ ev.KeyEvent.UnicodeChar = 13 then 10
           else ev.KeyEvent.UnicodeChar]) ∧
    key_sequence VK_LEFT = some ([27, 91, 68], 3) := by
  refine ⟨?_, ?_, by decide⟩
  · intro s n hseq
    obtain ⟨-, -, -, f4, -⟩ := key_sequence_facts _ s n hseq
    obtain ⟨w2, e, -, c, t⟩ := event_translated flags w echoed ev k s n hk hd hmod hseq hc
      (by omega) hsize
    exact ⟨w2, e, c, t⟩
  · intro hnone
    obtain ⟨w2, e, -, c, t⟩ := event_char flags w echoed ev k hk hd (Or.inr hnone) hc
      (by omega) hsize
    exact ⟨w2, _, e, c, t⟩

/-- C16, witness: Left-Arrow pressed on the empty string of `ansi_input`,
with the initial flags. -/
theorem c16_key_down_appends_table_sequence_witness :
    ∃ w2, ansi_input_event flags_initial (wstr_create_empty (fun _ => 0) IO_BUFLEN) []
        (key_down VK_LEFT 0) = some (EventResult.next w2 []) ∧
      w2.count = 3 ∧ wstr_text w2 = [27, 91, 68] :=
  (c16_key_down_appends_table_sequence flags_initial (wstr_create_empty (fun _ => 0) IO_BUFLEN)
    [] (key_down VK_LEFT 0) 0 rfl rfl rfl rfl (by decide) (by decide)).1 [27, 91, 68] 3 rfl

/-- C17, counterexample: Left-Arrow pressed with the initial flags (echo
on): the call reports `ESC [ D` and prints nothing. -/
theorem c17_counterexample_arrow_not_echoed :
    flags_initial.echo = true ∧
    (ansi_input flags_initial [key_down VK_LEFT 0] (fun _ => 0) 0 []).map
      (fun r => (r.ret, r.text, r.echoed)) = some (0, [27, 91, 68], []) := by
  decide

/-- C17 (amended). With echo enabled and room in the string, a key event
that emits its Unicode character (a key-down event with Ctrl or Alt held or
for a key without a case in the `switch`, and the key-up event of Alt) also
prints that character, a carriage return as a line feed; a key-down event for
a key of the translation table prints nothing, its sequence goes to the
result only.  With echo disabled nothing is printed. -/
theorem c17_echo_prints_emitted_characters_only (flags : FLAGS) (w : WSTR) (echoed : List Nat)
    (k : Nat) (hc : w.count = k) (hroom : (k : Int) + 6 ≤ w.size)
    (hsize : w.size ≤ 2147483647) :
    (∀ ev, ev.EventType = KEY_EVENT → ev.KeyEvent.bKeyDown = true →
      (ev.KeyEvent.dwControlKeyState &&& 15 ≠ 0
        ∨ key_sequence ev.KeyEvent.wVirtualKeyCode = none) →
      ∃ w2, ansi_input_event flags w echoed ev =
        some (EventResult.next w2
          (if flags.echo = true then
            echoed ++ [if ev.KeyEvent.UnicodeChar = 13 then 10 else ev.KeyEvent.UnicodeChar]
           else echoed))) ∧
    (∀ c, ∃ w2, ansi_input_event flags w echoed (alt_key_up c) =
        some (EventResult.next w2
          (if flags.echo = true then echoed ++ [if c = 13 then 10 else c] else echoed))) ∧
    (∀ ev s n, ev.EventType = KEY_EVENT → ev.KeyEvent.bKeyDown = true →
      ev.KeyEvent.dwControlKeyState &&& 15 = 0 →
      key_sequence ev.KeyEvent.wVirtualKeyCode = some (s, n) →
      ∃ w2, ansi_input_event flags w echoed ev = some (EventResult.next w2 echoed) ∧
        wstr_text w2 = wstr_text w ++ s) := by
  refine ⟨?_, ?_, ?_⟩
  · intro ev hk hd hcase
    obtain ⟨w2, e, -⟩ := event_char flags w echoed ev k hk hd hcase hc (by omega) hsize
    exact ⟨w2, e⟩
  · intro c
    obtain ⟨w2, e, -⟩ := event_alt_up flags w echoed c k hc (by omega) hsize
    exact ⟨w2, e⟩
  · intro ev s n hk hd hmod hseq
    obtain ⟨-, -, -, f4, -⟩ := key_sequence_facts _ s n hseq
    obtain ⟨w2, e, -, -, t⟩ := event_translated flags w echoed ev k s n hk hd hmod hseq hc
      (by omega) hsize
    exact ⟨w2, e, t⟩

/-- C17, witness: on the empty string of `ansi_input` with the initial
flags, the key `a` is echoed and the Enter key is echoed as a line feed. -/
theorem c17_echo_prints_emitted_characters_only_witness :
    (∃ w2, ansi_input_event flags_initial (wstr_create_empty (fun _ => 0) IO_BUFLEN) []
        (key_down 65 97) = some (EventResult.next w2 [97])) ∧
    (∃ w2, ansi_input_event flags_initial (wstr_create_empty (fun _ => 0) IO_BUFLEN) []
        (key_down VK_RETURN 13) = some (EventResult.next w2 [10])) :=
  ⟨(c17_echo_prints_emitted_characters_only flags_initial
      (wstr_create_empty (fun _ => 0) IO_BUFLEN) [] 0 rfl (by decide) (by decide)).1
      (key_down 65 97) rfl rfl (Or.inr (by decide)),
   (c17_echo_prints_emitted_characters_only flags_initial
      (wstr_create_empty (fun _ => 0) IO_BUFLEN) [] 0 rfl (by decide) (by decide)).1
      (key_down VK_RETURN 13) rfl rfl (Or.inr (by decide))⟩

/-- C18. The key-up event of Alt delivers its Unicode character as it is:
with `flags.icrnl` on, a carriage return from Alt key-up is counted into the
result as a carriage return, while the same character from a key-down event
(here with Alt held) is counted as a line feed.  The replacement and the
overflow check stand inside the key-down branch only. -/
theorem c18_alt_key_up_keeps_carriage_return :
    flags_initial.icrnl = true ∧
    (ansi_input flags_initial [alt_key_up 13] (fun _ => 0) 0 []).map
      (fun r => (r.ret, r.count, r.text)) = some (0, 1, [13]) ∧
    (ansi_input flags_initial
        [{ EventType := KEY_EVENT,
           KeyEvent := { bKeyDown := true, wVirtualKeyCode := VK_MENU, UnicodeChar := 13,
                         dwControlKeyState := 2 } }] (fun _ => 0) 0 []).map
      (fun r => (r.ret, r.count, r.text)) = some (0, 1, [10]) ∧
    (∀ (flags : FLAGS) (w : WSTR) (echoed : List Nat) (c k : Nat),
      w.count = k → (k : Int) + 2 ≤ w.size → w.size ≤ 2147483647 →
      ∃ w2 e2, ansi_input_event flags w echoed (alt_key_up c) = some (EventResult.next w2 e2) ∧
        wstr_text w2 = wstr_text w ++ [c]) ∧
    (∀ (flags : FLAGS) (w : WSTR) (echoed : List Nat) (ev : INPUT_RECORD) (k : Nat),
      ev.EventType = KEY_EVENT → ev.KeyEvent.bKeyDown = true →
      (ev.KeyEvent.dwControlKeyState &&& 15 ≠ 0
        ∨ key_sequence ev.KeyEvent.wVirtualKeyCode = none) →
      ev.KeyEvent.UnicodeChar = 13 →
      w.count = k → (k : Int) + 2 ≤ w.size → w.size ≤ 2147483647 →
      ∃ w2 e2, ansi_input_event flags w echoed ev = some (EventResult.next w2 e2) ∧
        wstr_text w2 = wstr_text w ++ [if flags.icrnl = true then 10 else 13]) := by
  refine ⟨by decide, by decide, by decide, ?_, ?_⟩
  · intro flags w echoed c k hc hroom hsize
    obtain ⟨w2, e, -, -, t⟩ := event_alt_up flags w echoed c k hc hroom hsize
    exact ⟨w2, _, e, t⟩
  · intro flags w echoed ev k hk hd hcase hcr hc hroom hsize
    obtain ⟨w2, e, -, -, t⟩ := event_char flags w echoed ev k hk hd hcase hc hroom hsize
    refine ⟨w2, _, e, ?_⟩
    rw [t, hcr]
    simp

/-- The `switch` does nothing for a wrong argument count. -/
theorem ansi_output_csi_wrong_count (term : TERM) (es : SEQUENCE) (h : wrong_count es) :
    ansi_output_csi term es = some (term, []) := by
  rcases h with ⟨hs, ha⟩ | ⟨hs, ha⟩ | ⟨hs, ha⟩ | ⟨hs, ha⟩ | ⟨hs, ha⟩ | ⟨hs, ha⟩
  · have n0 : es.argc ≠ 0 := by omega
    rcases hs with hs | hs <;> simp [ansi_output_csi, hs, n0]
  · have n1 : es.argc ≠ 1 := by omega
    rcases hs with hs | hs <;> simp [ansi_output_csi, hs, n1]
  · have n0 : es.argc ≠ 0 := by omega
    have n2 : es.argc ≠ 2 := by omega
    simp [ansi_output_csi, hs, n0, n2]
  · have n0 : es.argc ≠ 0 := by omega
    have n1 : es.argc ≠ 1 := by omega
    simp only [List.mem_cons, List.mem_singleton, List.not_mem_nil, or_false] at hs
    rcases hs with hs | hs | hs | hs | hs | hs | hs | hs | hs | hs | hs | hs | hs <;>
      simp [ansi_output_csi, hs, default_arg, n0, n1]
  · have n0 : es.argc ≠ 0 := by omega
    have n1 : es.argc ≠ 1 := by omega
    have g2 : es.argc > 2 := by omega
    rcases hs with hs | hs <;> simp [ansi_output_csi, hs, n0, n1, g2]
  · simp only [ansi_output_csi, hs]
    simp
    intro h3 h8
    rcases ha with ha | ha
    · omega
    · exact absurd h8 ha

/-- C19. For every CSI sequence (first prefix `[`) whose argument count is
wrong for its suffix in the sense of `wrong_count`, `ansi_output` makes no
native call and returns the terminal state and the flags as they were. -/
theorem c19_wrong_argument_count_is_noop (term : TERM) (flags : FLAGS) (es : SEQUENCE)
    (hp : es.pfx = LBRACKET) (h : wrong_count es) :
    ansi_output term flags es = some (term, flags, []) := by
  have hs : ¬ (es.suffix = 104 ∨ es.suffix = 108) := by
    intro hh
    rcases h with ⟨hs, -⟩ | ⟨hs, -⟩ | ⟨hs, -⟩ | ⟨hs, -⟩ | ⟨hs, -⟩ | ⟨hs, -⟩
    · omega
    · omega
    · omega
    · simp only [List.mem_cons, List.mem_singleton, List.not_mem_nil, or_false] at hs
      omega
    · omega
    · omega
  have hq : ¬ (es.pfx2 = QUESTION ∧ (es.suffix = 104 ∨ es.suffix = 108)
      ∧ es.argc = 1 ∧ es.argv 0 = 25) := fun hh => hs hh.2.1
  unfold ansi_output
  rw [if_pos hp, if_neg hq]
  by_cases h2 : es.pfx2 ≠ 0
  · rw [if_pos h2]
  · rw [if_neg h2, ansi_output_csi_wrong_count term es h]

/-- C19, witness: the record of `ESC [ 3 ; 5 r` with a third argument is
ignored; and written through the scanner, `ESC [ 1 ; 2 ; 3 r`, `ESC [ 1 s`
and `ESC [ S` make no native call and leave the scroll region and the saved
cursor as they were. -/
theorem c19_wrong_argument_count_is_noop_witness :
    ansi_output sample_term flags_initial { region_sequence 3 5 with argc := 3 }
      = some (sample_term, flags_initial, []) ∧
    (parser_print static_console sample_world
        [27, 91, 49, 59, 50, 59, 51, 114, 27, 91, 49, 115, 27, 91, 83] 15).map
      (fun w => (w.trace, w.parser.term.scroll_region, w.parser.term.save_pos))
      = some ([], sample_world.parser.term.scroll_region, sample_world.parser.term.save_pos) :=
  ⟨c19_wrong_argument_count_is_noop sample_term flags_initial
      { region_sequence 3 5 with argc := 3 } rfl
      (Or.inr (Or.inr (Or.inl ⟨rfl, Or.inr (by decide)⟩))),
   by decide⟩

/-- A sequence with the secondary prefix `?`: the cursor visibility is set
for one argument 25 and the suffix `h` or `l`, and nothing is done otherwise. -/
theorem ansi_output_question (term : TERM) (flags : FLAGS) (es : SEQUENCE)
    (hp : es.pfx = 91) (hq : es.pfx2 = 63) :
    ansi_output term flags es = some (term, flags,
      if (es.suffix = 104 ∨ es.suffix = 108) ∧ es.argc = 1 ∧ es.argv 0 = 25 then
        [ConsoleOp.SetConsoleCursorInfo (decide (es.suffix = 104))]
      else []) := by
  have h2 : es.pfx2 ≠ 0 := by rw [hq]; decide
  unfold ansi_output
  rw [if_pos (by rw [hp]; rfl)]
  by_cases hc : (es.suffix = 104 ∨ es.suffix = 108) ∧ es.argc = 1 ∧ es.argv 0 = 25
  · rw [if_pos ⟨by rw [hq]; rfl, hc⟩, if_pos hc]
  · rw [if_neg (fun h => hc h.2), if_pos h2, if_neg hc]

/-- C20. For every parser in Ground state and every console, a CSI sequence
with one or more `?` after `ESC [` returns the scanner to Ground with the
terminal state and the flags as they were; it makes the one native call that
sets the cursor visibility (visible for `h`, hidden for `l`) when its suffix
is `h` or `l` and it has exactly one argument, equal to 25, and no native
call otherwise.  A CSI sequence without `?` written after it is dispatched
with the secondary prefix 0.  So `ESC[?25h` and `ESC[?25l` set the
visibility, `ESC[?1m` and `ESC[?25;1h` do nothing, and `ESC[?25h ESC[25h`
sets the visibility once. -/
theorem c20_question_prefix_only_sets_cursor_visibility {σ : Type} (C : Console σ) (w : World σ)
    (k : Nat) (params : List Nat) (sfx : Nat)
    (hg : w.parser.state = 1) (hk : 1 ≤ k)
    (hp : ∀ c ∈ params, is_param c = true)
    (hs0 : sfx ≠ 0) (hsp : is_param sfx = false) (hsq : sfx ≠ 63) :
    (∃ w1, parser_print C w (csi_sequence k params sfx) (csi_sequence k params sfx).length
        = some w1 ∧
      w1.parser.state = 1 ∧ w1.flags = w.flags ∧
      w1.parser.term = term_refresh w.parser.term (C.info w.console) ∧
      w1.parser.es.pfx2 = 63 ∧
      w1.trace = w.trace ++
        (if (sfx = 104 ∨ sfx = 108) ∧ w1.parser.es.argc = 1 ∧ w1.parser.es.argv 0 = 25 then
          [ConsoleOp.SetConsoleCursorInfo (decide (sfx = 104))]
         else []) ∧
      ∀ params2 sfx2, (∀ c ∈ params2, is_param c = true) → sfx2 ≠ 0 →
        is_param sfx2 = false → sfx2 ≠ 63 →
        ∃ es2, es2.pfx = 91 ∧ es2.pfx2 = 0 ∧ es2.suffix = sfx2 ∧
          parser_print C w1 (csi_sequence 0 params2 sfx2) (csi_sequence 0 params2 sfx2).length
            = world_dispatch C w1 es2) ∧
    (parser_print C w [27, 91, 63, 50, 53, 104] 6).map World.trace
      = some (w.trace ++ [ConsoleOp.SetConsoleCursorInfo true]) ∧
    (parser_print C w [27, 91, 63, 50, 53, 108] 6).map World.trace
      = some (w.trace ++ [ConsoleOp.SetConsoleCursorInfo false]) ∧
    (parser_print C w [27, 91, 63, 49, 109] 5).map World.trace = some w.trace ∧
    (parser_print C w [27, 91, 63, 50, 53, 59, 49, 104] 8).map World.trace = some w.trace ∧
    (parser_print C w [27, 91, 63, 50, 53, 104, 27, 91, 50, 53, 104] 11).map World.trace
      = some (w.trace ++ [ConsoleOp.SetConsoleCursorInfo true]) := by
  have hnz := csi_sequence_ne_zero k params sfx hp hs0
  obtain ⟨es, hpfx, hpfx2, hsfx, -, -, -, hrun⟩ := csi_run C w hg k params hp sfx hsp hsq
  have hk0 : ¬ (k = 0) := by omega
  rw [if_neg hk0] at hpfx2
  have hout := ansi_output_question (term_refresh w.parser.term (C.info w.console)) w.flags es
    hpfx hpfx2
  have hw1 : parser_print C w (csi_sequence k params sfx) (csi_sequence k params sfx).length =
      world_dispatch C w es := by
    rw [parser_print_eq_feed C _ hnz w, csi_sequence, hrun]
  refine ⟨?_, ?_, ?_, ?_, ?_, ?_⟩
  · rw [hw1]
    simp only [world_dispatch, hout]
    refine ⟨_, rfl, rfl, rfl, rfl, hpfx2, by rw [hsfx], ?_⟩
    intro params2 sfx2 hp2 hs02 hsp2 hsq2
    have hnz2 := csi_sequence_ne_zero 0 params2 sfx2 hp2 hs02
    obtain ⟨es2, a, b, c, -, -, -, hrun2⟩ := csi_run C
      { parser := { es := es, term := term_refresh w.parser.term (C.info w.console), state := 1 },
        flags := w.flags,
        console := List.foldl C.exec w.console
          (if (es.suffix = 104 ∨ es.suffix = 108) ∧ es.argc = 1 ∧ es.argv 0 = 25 then
            [ConsoleOp.SetConsoleCursorInfo (decide (es.suffix = 104))]
           else []),
        trace := w.trace ++
          (if (es.suffix = 104 ∨ es.suffix = 108) ∧ es.argc = 1 ∧ es.argv 0 = 25 then
            [ConsoleOp.SetConsoleCursorInfo (decide (es.suffix = 104))]
           else []) }
      rfl 0 params2 hp2 sfx2 hsp2 hsq2
    refine ⟨es2, a, b, c, ?_⟩
    rw [parser_print_eq_feed C _ hnz2, csi_sequence]
    exact hrun2
  all_goals
    simp [parser_print, parser_char, parser_step, parser_dispatch, ansi_output, ansi_output_csi,
      default_arg, argv_store, hg, ESC, LBRACKET, RBRACKET, SEMICOLON, QUESTION, ZERO, iswdigit,
      MAX_ARG, iadd, imul, wrap32]

/-- C20, witness: `ESC[?25l` on the sample console hides the cursor, and
`ESC[?7h` makes no native call. -/
theorem c20_question_prefix_only_sets_cursor_visibility_witness :
    (∃ w1, parser_print static_console sample_world [27, 91, 63, 50, 53, 108] 6 = some w1 ∧
      w1.trace = [ConsoleOp.SetConsoleCursorInfo false] ∧
      w1.parser.term = term_refresh sample_world.parser.term sample_info) ∧
    (∃ w1, parser_print static_console sample_world [27, 91, 63, 55, 104] 5 = some w1 ∧
      w1.trace = []) := by
  obtain ⟨⟨w1, e1, -, -, t1, -, r1, -⟩, -⟩ :=
    c20_question_prefix_only_sets_cursor_visibility static_console sample_world 1 [50, 53] 108
      rfl (by decide) (by decide) (by decide) (by decide) (by decide)
  obtain ⟨⟨w2, e2, -, -, -, -, r2, -⟩, -⟩ :=
    c20_question_prefix_only_sets_cursor_visibility static_console sample_world 1 [55] 104
      rfl (by decide) (by decide) (by decide) (by decide) (by decide)
  have e1c : parser_print static_console sample_world [27, 91, 63, 50, 53, 108] 6 = some w1 := e1
  have e2c : parser_print static_console sample_world [27, 91, 63, 55, 104] 5 = some w2 := e2
  have v1 : (parser_print static_console sample_world [27, 91, 63, 50, 53, 108] 6).map
      World.trace = some [ConsoleOp.SetConsoleCursorInfo false] := by decide
  have v2 : (parser_print static_console sample_world [27, 91, 63, 55, 104] 5).map
      World.trace = some [] := by decide
  rw [e1c] at v1
  rw [e2c] at v2
  exact ⟨⟨w1, e1c, Option.some.inj v1, t1⟩, ⟨w2, e2c, Option.some.inj v2⟩⟩

/-- C21. `console_put_char` makes the direct cell write exactly when the
cursor column is at or beyond the last column and the character is not a line
feed; the row and the height play no part.  So the letter `A` written through
`parser_print` with the cursor in the last column of the first row of an
80 x 25 screen goes out as a direct cell write, not as the advancing write,
and a line feed written in the last column of the last row goes out as the
advancing write. -/
theorem c21_direct_write_in_last_column_of_any_row :
    (∀ (term : TERM) (s : Nat), 1 ≤ term.width → term.width ≤ 32767 →
      ((∃ a d, console_put_char term s = [ConsoleOp.WriteConsoleOutput s a d]) ↔
        (term.col ≥ term.width - 1 ∧ s ≠ 10)) ∧
      (console_put_char term s = [ConsoleOp.WriteConsole s] ↔
        ¬ (term.col ≥ term.width - 1 ∧ s ≠ 10))) ∧
    (parser_print static_console (initial_world static_console edge_info) [65] 1).map World.trace
      = some [ConsoleOp.WriteConsoleOutput 65 7 { Left := 79, Top := 0, Right := 79, Bottom := 0 }] ∧
    (parser_print static_console (initial_world static_console corner_info) [65] 1).map
        World.trace
      = some [ConsoleOp.WriteConsoleOutput 65 7
          { Left := 79, Top := 24, Right := 79, Bottom := 24 }] ∧
    (parser_print static_console (initial_world static_console corner_info) [10] 1).map
        World.trace
      = some [ConsoleOp.WriteConsole 10] ∧
    (parser_print static_console sample_world [65] 1).map World.trace
      = some [ConsoleOp.WriteConsole 65] := by
  refine ⟨?_, by decide, by decide, by decide, by decide⟩
  intro term s h1 h2
  have e : isub term.width 1 = term.width - 1 := wrap32_of_range (by omega) (by omega)
  unfold console_put_char
  rw [e]
  by_cases c : term.col ≥ term.width - 1 ∧ s ≠ 10
  · rw [if_pos c]
    constructor
    · exact ⟨fun _ => c, fun _ => ⟨_, _, rfl⟩⟩
    · constructor
      · intro h
        simp at h
      · intro h
        exact absurd c h
  · rw [if_neg c]
    constructor
    · constructor
      · rintro ⟨a, d, h⟩
        simp at h
      · intro h
        exact absurd h c
    · exact ⟨fun _ => c, fun _ => rfl⟩

/-- C22. Writing `ESC[31;1mHELLO` `ESC[0m` (16 characters, no space) after
initialisation, on every console: the native calls are, in order, one
`SetConsoleTextAttribute` with `FOREGROUND_RED | FOREGROUND_INTENSITY` (on
the black background), the five calls of `console_put_char` for `H`, `E`,
`L`, `L`, `O`, each on the terminal state reloaded from the console at that
moment, and one `SetConsoleTextAttribute` with the white foreground on the
black background; the scanner ends in Ground with bold, underline, reverse
video and concealed all false. -/
theorem c22_bold_red_hello_then_reset :
    ∀ (σ : Type) (C : Console σ) (s0 : σ),
      ∃ w1 t1 t2 t3 t4 t5,
        parser_print C (initial_world C s0)
          [27, 91, 51, 49, 59, 49, 109, 72, 69, 76, 76, 79, 27, 91, 48, 109] 16 = some w1 ∧
        w1.trace =
          [ConsoleOp.SetConsoleTextAttribute (FOREGROUND_RED ||| FOREGROUND_INTENSITY)]
          ++ console_put_char t1 72 ++ console_put_char t2 69 ++ console_put_char t3 76
          ++ console_put_char t4 76 ++ console_put_char t5 79
          ++ [ConsoleOp.SetConsoleTextAttribute
                (FOREGROUND_RED ||| FOREGROUND_GREEN ||| FOREGROUND_BLUE)] ∧
        w1.parser.state = 1 ∧
        w1.parser.term.bold = false ∧ w1.parser.term.underline = false ∧
        w1.parser.term.rvideo = false ∧ w1.parser.term.concealed = false ∧
        w1.parser.term.foreground = 7 ∧ w1.parser.term.background = 0 := by
  intro σ C s0
  simp [parser_print, parser_char, parser_step, parser_dispatch, ansi_output, ansi_output_csi,
    default_arg, argv_store, initial_world, parser_init, term_refresh, global_parser_zeroed, flags_initial,
    sgr_loop, sgr_apply, sgr_attr, table_get, foregroundcolor, backgroundcolor,
    foreground_default, background_default, FOREGROUND_WHITE, FOREGROUND_BLACK,
    BACKGROUND_BLACK, BACKGROUND_WHITE, FOREGROUND_RED, FOREGROUND_GREEN, FOREGROUND_BLUE,
    FOREGROUND_INTENSITY, BACKGROUND_RED, BACKGROUND_GREEN, BACKGROUND_BLUE,
    BACKGROUND_INTENSITY, ESC, LBRACKET, RBRACKET, SEMICOLON, QUESTION, ZERO, iswdigit,
    MAX_ARG, iadd, imul, wrap32]
  exact ⟨_, _, _, _, _, rfl⟩

/-- C22, witness: on the sample console, where the cursor is not in the last
column, every character goes out with the advancing write. -/
theorem c22_bold_red_hello_then_reset_witness :
    ∃ w1, parser_print static_console sample_world
        [27, 91, 51, 49, 59, 49, 109, 72, 69, 76, 76, 79, 27, 91, 48, 109] 16 = some w1 ∧
      w1.trace = [ConsoleOp.SetConsoleTextAttribute 12, ConsoleOp.WriteConsole 72,
        ConsoleOp.WriteConsole 69, ConsoleOp.WriteConsole 76, ConsoleOp.WriteConsole 76,
        ConsoleOp.WriteConsole 79, ConsoleOp.SetConsoleTextAttribute 7] ∧
      w1.parser.state = 1 := by
  obtain ⟨w1, t1, t2, t3, t4, t5, e, -, s, -⟩ :=
    c22_bold_red_hello_then_reset CONSOLE_SCREEN_BUFFER_INFO static_console sample_info
  have e1 : parser_print static_console sample_world
      [27, 91, 51, 49, 59, 49, 109, 72, 69, 76, 76, 79, 27, 91, 48, 109] 16 = some w1 := e
  have v : (parser_print static_console sample_world
      [27, 91, 51, 49, 59, 49, 109, 72, 69, 76, 76, 79, 27, 91, 48, 109] 16).map World.trace
      = some [ConsoleOp.SetConsoleTextAttribute 12, ConsoleOp.WriteConsole 72,
        ConsoleOp.WriteConsole 69, ConsoleOp.WriteConsole 76, ConsoleOp.WriteConsole 76,
        ConsoleOp.WriteConsole 79, ConsoleOp.SetConsoleTextAttribute 7] := by decide
  rw [e1] at v
  exact ⟨w1, e1, Option.some.inj v, s⟩

theorem osc_number_cons (v : Int) (d : Nat) (ds : List Nat) :
    osc_number v (d :: ds) = osc_number (iadd (imul 10 v) ((d : Int) - ZERO)) ds := rfl

theorem digits_value_from_ge (ds : List Nat) (v : Nat) : v ≤ digits_value_from v ds := by
  induction ds generalizing v with
  | nil => exact le_refl v
  | cons d ds ih =>
    have := ih (10 * v + (d - 48))
    simp only [digits_value_from, List.foldl_cons] at this ⊢
    omega

/-- While the base-10 value fits an `int`, the accumulation of the code
computes it. -/
theorem osc_number_eq_value (ds : List Nat) (hd : ∀ c ∈ ds, iswdigit c = true) (v : Nat)
    (h : digits_value_from v ds ≤ 2147483647) :
    osc_number (v : Int) ds = (digits_value_from v ds : Int) := by
  induction ds generalizing v with
  | nil => rfl
  | cons d ds ih =>
    have hdig : 48 ≤ d ∧ d ≤ 57 := by
      have := hd d (List.mem_cons_self _ _)
      simpa [iswdigit] using this
    have hstep : digits_value_from v (d :: ds) = digits_value_from (10 * v + (d - 48)) ds := by
      simp only [digits_value_from, List.foldl_cons]
    rw [hstep] at h
    have hge := digits_value_from_ge ds (10 * v + (d - 48))
    have e1 : iadd (imul 10 (v : Int)) ((d : Int) - ZERO) = ((10 * v + (d - 48) : Nat) : Int) := by
      simp only [iadd, imul, ZERO]
      rw [wrap32_of_range (x := 10 * (v : Int)) (by omega) (by omega)]
      rw [wrap32_of_range (by omega) (by omega)]
      omega
    rw [osc_number_cons, e1, hstep]
    exact ih (fun c hc => hd c (List.mem_cons_of_mem _ hc)) _ h

/-- A run of digits in CSI-Param accumulates in the current argument slot. -/
theorem feed_digits4 {σ : Type} (C : Console σ) (ds : List Nat)
    (hd : ∀ c ∈ ds, iswdigit c = true) (w : World σ)
    (hg : w.parser.state = 4) (h0 : 0 ≤ w.parser.es.argc) (h15 : w.parser.es.argc ≤ 15) :
    ∃ w1, feed C w ds = some w1 ∧ w1.parser.state = 4 ∧
      w1.parser.es.argc = w.parser.es.argc ∧
      w1.parser.es.pfx = w.parser.es.pfx ∧ w1.parser.es.pfx2 = w.parser.es.pfx2 ∧
      w1.parser.es.argv w.parser.es.argc.toNat
        = osc_number (w.parser.es.argv w.parser.es.argc.toNat) ds ∧
      (∀ i, i ≠ w.parser.es.argc.toNat → w1.parser.es.argv i = w.parser.es.argv i) ∧
      Silent w w1 := by
  induction ds generalizing w with
  | nil => exact ⟨w, rfl, hg, rfl, rfl, rfl, rfl, fun _ _ => rfl, Silent.refl w⟩
  | cons c ds ih =>
    have hc : iswdigit c = true := hd c (List.mem_cons_self _ _)
    have hlt : w.parser.es.argc < 16 := by omega
    have hstep : ∃ w1, parser_char C w c = some w1 ∧ w1.parser.state = 4 ∧
        w1.parser.es.argc = w.parser.es.argc ∧
        w1.parser.es.pfx = w.parser.es.pfx ∧ w1.parser.es.pfx2 = w.parser.es.pfx2 ∧
        w1.parser.es.argv = Function.update w.parser.es.argv w.parser.es.argc.toNat
          (iadd (imul 10 (w.parser.es.argv w.parser.es.argc.toNat)) ((c : Int) - ZERO)) ∧
        Silent w w1 := by
      simp [parser_char, parser_step, hg, hc, argv_store, MAX_ARG, h0, hlt, Silent]
    obtain ⟨w1, e1, s1, a1, p1, q1, v1, sil1⟩ := hstep
    obtain ⟨w2, e2, s2, a2, p2, q2, v2, o2, sil2⟩ :=
      ih (fun d hd2 => hd d (List.mem_cons_of_mem _ hd2)) w1 s1 (by rw [a1]; exact h0)
        (by rw [a1]; exact h15)
    refine ⟨w2, by simp only [feed_cons, e1, Option.some_bind, e2], s2, a2.trans a1,
      p2.trans p1, q2.trans q1, ?_, ?_, sil1.trans sil2⟩
    · rw [a1] at v2
      rw [v2, v1, Function.update_same, osc_number_cons]
    · intro i hi
      rw [a1] at o2
      rw [o2 i hi, v1, Function.update_noteq hi]

/-- The first digit of a CSI sequence, in CSI-Entry. -/
theorem char_digit3 {σ : Type} (C : Console σ) (w : World σ) (d : Nat)
    (hg : w.parser.state = 3) (hd : iswdigit d = true) :
    ∃ w1, parser_char C w d = some w1 ∧ w1.parser.state = 4 ∧ w1.parser.es.argc = 0 ∧
      w1.parser.es.argv 0 = (d : Int) - ZERO ∧
      w1.parser.es.pfx = w.parser.es.pfx ∧ w1.parser.es.pfx2 = w.parser.es.pfx2 ∧
      Silent w w1 := by
  simp [parser_char, parser_step, hg, hd, Silent]

/-- `ESC [ digits suffix` fed in Ground: one sequence is dispatched, with one
argument, the number accumulated from the digits. -/
theorem csi_number_run {σ : Type} (C : Console σ) (w : World σ) (hg : w.parser.state = 1)
    (d : Nat) (ds : List Nat) (hd : ∀ c ∈ d :: ds, iswdigit c = true)
    (sfx : Nat) (hsp : is_param sfx = false) :
    ∃ es : SEQUENCE, es.pfx = 91 ∧ es.pfx2 = 0 ∧ es.suffix = sfx ∧ es.argc = 1 ∧
      es.argv 0 = osc_number 0 (d :: ds) ∧
      feed C w ([27, 91] ++ (d :: ds) ++ [sfx]) = world_dispatch C w es := by
  obtain ⟨w1, e1, s1, sil1⟩ := char_ground_esc C w hg
  obtain ⟨w2, e2, s2, p2, q2, sil2⟩ := char_escape_csi C w1 s1
  obtain ⟨w3, e3, s3, a3, v3, p3, q3, sil3⟩ :=
    char_digit3 C w2 d s2 (hd d (List.mem_cons_self _ _))
  obtain ⟨w4, e4, s4, a4, p4, q4, v4, -, sil4⟩ :=
    feed_digits4 C ds (fun c hc => hd c (List.mem_cons_of_mem _ hc)) w3 s3
      (by rw [a3]) (by rw [a3]; decide)
  have sil : Silent w w4 := ((sil1.trans sil2).trans sil3).trans sil4
  have hargc : w4.parser.es.argc = 0 := a4.trans a3
  have hlt : w4.parser.es.argc < MAX_ARG - 1 := by rw [hargc]; decide
  refine ⟨{ w4.parser.es with argc := w4.parser.es.argc + 1, suffix := sfx },
    (p4.trans p3).trans p2, (q4.trans q3).trans q2, rfl, by show w4.parser.es.argc + 1 = 1; rw [hargc]; rfl,
    ?_, ?_⟩
  · show w4.parser.es.argv 0 = _
    rw [a3] at v4
    have : (0 : Int).toNat = 0 := rfl
    rw [this] at v4
    have hdig : 48 ≤ d ∧ d ≤ 57 := by
      have := hd d (List.mem_cons_self _ _)
      simpa [iswdigit] using this
    have e : iadd (imul 10 0) ((d : Int) - ZERO) = (d : Int) - ZERO := by
      simp only [iadd, imul, wrap32, ZERO]
      omega
    rw [v4, v3, osc_number_cons, e]
  · simp only [List.cons_append, List.nil_append, feed_cons, e1, Option.some_bind, e2, e3,
      feed_append, e4]
    rw [char_suffix4 C w4 sfx s4 hsp, if_pos hlt, world_dispatch_silent C sil]
    cases world_dispatch C w { w4.parser.es with argc := w4.parser.es.argc + 1, suffix := sfx }
      <;> rfl

set_option maxRecDepth 100000 in
/-- C23, counterexample: the ten digits `2147483648` accumulate to
-2147483648 in `int` arithmetic, which is negative and is not the base-10
value of the string; written as `ESC [ 2147483648`, that is the value in
`argv[0]`. -/
theorem c23_counterexample_ten_digits_wrap :
    digits_value [50, 49, 52, 55, 52, 56, 51, 54, 52, 56] = 2147483648 ∧
    osc_number 0 [50, 49, 52, 55, 52, 56, 51, 54, 52, 56] = -2147483648 ∧
    (parser_print static_console sample_world
        [27, 91, 50, 49, 52, 55, 52, 56, 51, 54, 52, 56] 12).map
      (fun w => (w.parser.state, w.parser.es.argc, w.parser.es.argv 0))
      = some (4, 0, -2147483648) := by
  decide

/-- C23 (amended). The numeric arguments are accumulated as
`value = 10*value + digit` in `int` arithmetic (`osc_number`): a whole
`ESC [ digits suffix` is dispatched with the accumulated number as its one
argument, a run of digits in CSI-Param accumulates in the current argument
slot whatever its index, and `ESC ] digits ; text BEL` is dispatched with the
accumulated number in `argv[0]`.  For every digit string whose base-10 value
is at most 2147483647 the accumulated number is that value, a non-negative
integer. -/
theorem c23_digits_accumulate_base10_within_int :
    (∀ ds : List Nat, (∀ c ∈ ds, iswdigit c = true) → digits_value ds ≤ 2147483647 →
      osc_number 0 ds = (digits_value ds : Int) ∧ 0 ≤ osc_number 0 ds) ∧
    (∀ (σ : Type) (C : Console σ) (w : World σ) (d : Nat) (ds : List Nat) (sfx : Nat),
      w.parser.state = 1 → (∀ c ∈ d :: ds, iswdigit c = true) → is_param sfx = false →
      ∃ es : SEQUENCE, es.pfx = 91 ∧ es.pfx2 = 0 ∧ es.suffix = sfx ∧ es.argc = 1 ∧
        es.argv 0 = osc_number 0 (d :: ds) ∧
        feed C w ([27, 91] ++ (d :: ds) ++ [sfx]) = world_dispatch C w es) ∧
    (∀ (σ : Type) (C : Console σ) (w : World σ) (ds : List Nat),
      w.parser.state = 4 → 0 ≤ w.parser.es.argc → w.parser.es.argc ≤ 15 →
      (∀ c ∈ ds, iswdigit c = true) →
      ∃ w1, parser_print C w ds ds.length = some w1 ∧ w1.parser.state = 4 ∧
        w1.parser.es.argc = w.parser.es.argc ∧
        w1.parser.es.argv w.parser.es.argc.toNat
          = osc_number (w.parser.es.argv w.parser.es.argc.toNat) ds) ∧
    (∀ (σ : Type) (C : Console σ) (w : World σ) (ds t : List Nat),
      w.parser.state = 1 → (∀ c ∈ ds, iswdigit c = true) → (∀ c ∈ t, c ≠ 7) →
      t.length ≤ 1023 →
      ∃ es : SEQUENCE, es.pfx = 93 ∧ es.argv 0 = osc_number 0 ds ∧
        feed C w (osc_sequence ds t) = world_dispatch C w es) := by
  refine ⟨?_, ?_, ?_, ?_⟩
  · intro ds hd h
    have e := osc_number_eq_value ds hd 0 h
    have e0 : ((0 : Nat) : Int) = 0 := rfl
    rw [e0] at e
    refine ⟨e, ?_⟩
    rw [e]
    exact Int.ofNat_nonneg _
  · intro σ C w d ds sfx hg hd hsp
    exact csi_number_run C w hg d ds hd sfx hsp
  · intro σ C w ds hg h0 h15 hd
    obtain ⟨w1, e, s, a, -, -, v, -, -⟩ := feed_digits4 C ds hd w hg h0 h15
    have hnz : ∀ c ∈ ds, c ≠ 0 := by
      intro c hc h0c
      have := hd c hc
      rw [h0c] at this
      simp [iswdigit] at this
    exact ⟨w1, (parser_print_eq_feed C ds hnz w).trans e, s, a, v⟩
  · intro σ C w ds t hg hd ht hlen
    obtain ⟨es, p, -, -, v, -, r⟩ := osc_run C w hg ds hd t ht hlen
    exact ⟨es, p, v, r⟩

/-- C23, witness: the digits `999` accumulate to 999, and the nine digits
`999999999` to 999999999. -/
theorem c23_digits_accumulate_base10_within_int_witness :
    osc_number 0 [57, 57, 57] = 999 ∧
    osc_number 0 [57, 57, 57, 57, 57, 57, 57, 57, 57] = 999999999 :=
  ⟨(c23_digits_accumulate_base10_within_int.1 [57, 57, 57] (by decide) (by decide)).1,
   (c23_digits_accumulate_base10_within_int.1 [57, 57, 57, 57, 57, 57, 57, 57, 57] (by decide)
      (by decide)).1⟩

/-- Reads that each find two new characters: one is returned, one stays
queued, and the start index moves on by two. -/
theorem winsi_reads_two (n : Nat) (h : n < 2147483648) :
    winsi_reads { available := 0, offset := 0 } (List.replicate n 2)
      = { available := n, offset := n } := by
  induction n with
  | zero => rfl
  | succ n ih =>
    have ih1 := ih (by omega)
    unfold winsi_reads at ih1 ⊢
    rw [List.replicate_succ', List.foldl_append, ih1]
    simp only [List.foldl_cons, List.foldl_nil, winsi_read]
    have e1 : (n + 2) % 4294967296 = n + 2 := by omega
    have g : n + 2 ≥ 1 := by omega
    rw [e1, if_pos g]
    by_cases h0 : n = 0
    · subst h0; rfl
    · rw [if_neg h0]
      have e2 : (n + 1) % 4294967296 = n + 1 := by omega
      rw [e2]
      rfl

/-- C24. `winsi_read` calls the input function on every read, whether
characters are queued or not, and resets `offset` only when none is.  When
each read finds two new characters (two key events give a count of 2), after
`n` reads `n` characters are queued at offset `n`; at the 514th read the queue
holds 513 characters, the input function is still called, and the region it
may write starts at index 1026, so it does not lie inside the
`2*IO_BUFLEN` = 2048 cells of `global_buffer`. -/
theorem c24_refill_region_leaves_buffer :
    (∀ n, n < 2147483648 →
      winsi_reads { available := 0, offset := 0 } (List.replicate n 2)
        = { available := n, offset := n }) ∧
    (winsi_reads { available := 0, offset := 0 } (List.replicate 513 2)).available = 513 ∧
    winsi_read_start (winsi_reads { available := 0, offset := 0 } (List.replicate 513 2))
      = 1026 ∧
    ¬ refill_region_inside
        (winsi_reads { available := 0, offset := 0 } (List.replicate 513 2)) ∧
    (ansi_input flags_initial [key_down 65 97, key_down 66 98] (fun _ => 0) 0 []).map
      (fun r => (r.ret, r.count)) = some (0, 2) := by
  have h513 := winsi_reads_two 513 (by decide)
  refine ⟨winsi_reads_two, ?_, ?_, ?_, by decide⟩
  · rw [h513]
  · rw [h513]; decide
  · rw [h513]; unfold refill_region_inside; decide

/-- An SGR sequence on a terminal state whose colours are table indices:
the attribute is composed without leaving the tables, and the colours are
table indices afterwards. -/
theorem ansi_output_sgr_colours (term : TERM) (flags : FLAGS) (es : SEQUENCE)
    (hp : es.pfx = 91) (hq : es.pfx2 = 0) (hs : es.suffix = 109) (hargc : es.argc ≤ 16)
    (hf : 0 ≤ term.foreground ∧ term.foreground ≤ 15)
    (hb : 0 ≤ term.background ∧ term.background ≤ 15) :
    ∃ term1 attr,
      ansi_output term flags es = some (term1, flags, [ConsoleOp.SetConsoleTextAttribute attr]) ∧
      sgr_attr term1 = some attr ∧
      (0 ≤ term1.foreground ∧ term1.foreground ≤ 15) ∧
      (0 ≤ term1.background ∧ term1.background ≤ 15) := by
  have hn : 0 + (default_arg es 0).argc.toNat ≤ 16 := by
    unfold default_arg; split_ifs <;> (simp; try omega)
  have hloop := sgr_loop_eq (default_arg es 0).argv (default_arg es 0).argc.toNat 0 term hn
  have hcol := foldl_sgr_colours
    ((List.range' 0 (default_arg es 0).argc.toNat).map (default_arg es 0).argv) term hf hb
  have hattr := sgr_attr_eq_spec _ hcol.1 hcol.2
  have hq1 : ¬ (es.pfx2 = QUESTION ∧ (es.suffix = 104 ∨ es.suffix = 108)
      ∧ es.argc = 1 ∧ es.argv 0 = 25) := by
    rw [hq]; intro hh; exact absurd hh.1 (by decide)
  have hq2 : ¬ (es.pfx2 ≠ 0) := not_not.mpr hq
  unfold ansi_output
  rw [if_pos (by rw [hp]; rfl), if_neg hq1, if_neg hq2]
  simp only [ansi_output_csi, hs, if_true, hloop, hattr]
  exact ⟨_, _, rfl, hattr, hcol.1, hcol.2⟩

/-- C25. `foreground` and `background` are colour indices in 0..15 after
`parser_init` (7 and 0), after the reset argument 0 (7 and 0 again), after
every SGR sequence `ansi_output` interprets, whatever its argument values,
and after every string written from the initial state; in each SGR sequence
the attribute is composed by lookups inside the two 16-entry tables. -/
theorem c25_colours_stay_table_indices :
    (∀ (p : PARSER) (info : CONSOLE_SCREEN_BUFFER_INFO),
      (parser_init p info).term.foreground = 7 ∧ (parser_init p info).term.background = 0) ∧
    (∀ term : TERM, (sgr_apply term 0).foreground = 7 ∧ (sgr_apply term 0).background = 0) ∧
    (∀ (term : TERM) (a : Int),
      (0 ≤ term.foreground ∧ term.foreground ≤ 15) →
      (0 ≤ term.background ∧ term.background ≤ 15) →
      (0 ≤ (sgr_apply term a).foreground ∧ (sgr_apply term a).foreground ≤ 15) ∧
      (0 ≤ (sgr_apply term a).background ∧ (sgr_apply term a).background ≤ 15)) ∧
    (∀ (term : TERM) (flags : FLAGS) (es : SEQUENCE),
      es.pfx = 91 → es.pfx2 = 0 → es.suffix = 109 → es.argc ≤ 16 →
      (0 ≤ term.foreground ∧ term.foreground ≤ 15) →
      (0 ≤ term.background ∧ term.background ≤ 15) →
      ∃ term1 attr f1 b1 f2 b2,
        ansi_output term flags es
          = some (term1, flags, [ConsoleOp.SetConsoleTextAttribute attr]) ∧
        sgr_attr term1 = some attr ∧
        table_get foregroundcolor term1.foreground = some f1 ∧
        table_get backgroundcolor term1.background = some b1 ∧
        table_get foregroundcolor term1.background = some f2 ∧
        table_get backgroundcolor term1.foreground = some b2 ∧
        (0 ≤ term1.foreground ∧ term1.foreground ≤ 15) ∧
        (0 ≤ term1.background ∧ term1.background ≤ 15)) ∧
    (∀ (σ : Type) (C : Console σ) (s0 : σ) (s : List Nat) (buflen : Int),
      ∃ w1, parser_print C (initial_world C s0) s buflen = some w1 ∧
        (0 ≤ w1.parser.term.foreground ∧ w1.parser.term.foreground ≤ 15) ∧
        (0 ≤ w1.parser.term.background ∧ w1.parser.term.background ≤ 15)) := by
  refine ⟨fun p info => ⟨rfl, rfl⟩, fun term => ⟨rfl, rfl⟩, sgr_apply_colours, ?_, ?_⟩
  · intro term flags es hp hq hs hargc hf hb
    obtain ⟨t1, attr, e, a, f, b⟩ := ansi_output_sgr_colours term flags es hp hq hs hargc hf hb
    exact ⟨t1, attr, _, _, _, _, e, a, table_get_fg _ f, table_get_bg _ b, table_get_fg _ b,
      table_get_bg _ f, f, b⟩
  · intro σ C s0 s buflen
    obtain ⟨w1, e, -, -, f, b⟩ := parser_print_inv C s (initial_world C s0) buflen
      (initial_world_inv C s0)
    exact ⟨w1, e, f, b⟩

/-- C25, witness: `ESC[107;97;0;35m` on the sample world ends with the
foreground 5 and the default background 0. -/
theorem c25_colours_stay_table_indices_witness :
    ∃ w1, parser_print static_console sample_world
        [27, 91, 49, 48, 55, 59, 57, 55, 59, 48, 59, 51, 53, 109] 14 = some w1 ∧
      (0 ≤ w1.parser.term.foreground ∧ w1.parser.term.foreground ≤ 15) ∧
      (0 ≤ w1.parser.term.background ∧ w1.parser.term.background ≤ 15) :=
  c25_colours_stay_table_indices.2.2.2.2 CONSOLE_SCREEN_BUFFER_INFO static_console sample_info
    [27, 91, 49, 48, 55, 59, 57, 55, 59, 48, 59, 51, 53, 109] 14

/-- The count the `P` and `@` cases use, while `col + N` fits an `int`: the
smaller one of `N` and `width - col`. -/
theorem clamped_count (width col n : Int) (hw : 1 ≤ width ∧ width ≤ 32767)
    (hc : 0 ≤ col ∧ col < width) (hn : 0 ≤ n) (hfit : col + n ≤ 2147483647) :
    (if iadd col n > isub width 1 then isub width col else n) = min n (width - col) := by
  have e1 : iadd col n = col + n := wrap32_of_range (by omega) (by omega)
  have e2 : isub width 1 = width - 1 := wrap32_of_range (by omega) (by omega)
  have e3 : isub width col = width - col := wrap32_of_range (by omega) (by omega)
  rw [e1, e2, e3]
  by_cases h : col + n > width - 1
  · rw [if_pos h, min_eq_right (by omega)]
  · rw [if_neg h, min_eq_left (by omega)]

/-- The cells a fill of `len` cells from column `x` of row `y` covers when it
ends inside the row: the columns `x .. x+len-1` of that row. -/
theorem filled_in_row (sc : Screen) (x y len : Int) (hx : 0 ≤ x) (hl : 0 ≤ len)
    (hend : x + len ≤ sc.width) (hy : 0 ≤ y ∧ y < sc.height) (o : Int) :
    sc.filled len { X := x, Y := y } o = true ↔
      (y * sc.width + x ≤ o ∧ o ≤ y * sc.width + (x + len - 1)) := by
  have hrow : (y + 1) * sc.width ≤ sc.height * sc.width := by
    apply mul_le_mul_of_nonneg_right <;> omega
  have e : (y + 1) * sc.width = y * sc.width + sc.width := by ring
  have e2 : sc.height * sc.width = sc.width * sc.height := by ring
  simp only [Screen.filled, Screen.offset, decide_eq_true_eq]
  constructor
  · rintro ⟨a, b, -⟩
    exact ⟨a, by omega⟩
  · rintro ⟨a, b⟩
    exact ⟨a, by omega, by omega⟩

/-- The `P` case with no or one argument. -/
theorem ansi_output_delete_chars (term : TERM) (flags : FLAGS) (es : SEQUENCE)
    (hp : es.pfx = 91) (hq : es.pfx2 = 0) (hs : es.suffix = 80)
    (ha : es.argc = 0 ∨ es.argc = 1) (n : Int)
    (hn : (if iadd term.col ((default_arg es 1).argv 0) > isub term.width 1
            then isub term.width term.col else (default_arg es 1).argv 0) = n) :
    ansi_output term flags es = some (term, flags,
      console_scroll term (iadd term.col n) term.row (isub term.width 1) term.row
        term.col term.row
      ++ console_fill term (isub term.width n) term.row n) := by
  have h1 : (default_arg es 1).argc = 1 := by
    unfold default_arg
    rcases ha with h | h
    · rw [if_pos h]
    · rw [if_neg (by omega)]; exact h
  have hq1 : ¬ (es.pfx2 = QUESTION ∧ (es.suffix = 104 ∨ es.suffix = 108)
      ∧ es.argc = 1 ∧ es.argv 0 = 25) := by
    rw [hq]; intro hh; exact absurd hh.1 (by decide)
  have hq2 : ¬ (es.pfx2 ≠ 0) := not_not.mpr hq
  unfold ansi_output
  rw [if_pos (by rw [hp]; rfl), if_neg hq1, if_neg hq2]
  simp only [ansi_output_csi, hs]
  simp [h1, hn]

/-- The `@` case with no or one argument. -/
theorem ansi_output_insert_chars (term : TERM) (flags : FLAGS) (es : SEQUENCE)
    (hp : es.pfx = 91) (hq : es.pfx2 = 0) (hs : es.suffix = 64)
    (ha : es.argc = 0 ∨ es.argc = 1) (n : Int)
    (hn : (if iadd term.col ((default_arg es 1).argv 0) > isub term.width 1
            then isub term.width term.col else (default_arg es 1).argv 0) = n) :
    ansi_output term flags es = some (term, flags,
      console_scroll term term.col term.row (isub (isub term.width 1) n) term.row
        (iadd term.col n) term.row
      ++ console_fill term term.col term.row n) := by
  have h1 : (default_arg es 1).argc = 1 := by
    unfold default_arg
    rcases ha with h | h
    · rw [if_pos h]
    · rw [if_neg (by omega)]; exact h
  have hq1 : ¬ (es.pfx2 = QUESTION ∧ (es.suffix = 104 ∨ es.suffix = 108)
      ∧ es.argc = 1 ∧ es.argv 0 = 25) := by
    rw [hq]; intro hh; exact absurd hh.1 (by decide)
  have hq2 : ¬ (es.pfx2 ≠ 0) := not_not.mpr hq
  unfold ansi_output
  rw [if_pos (by rw [hp]; rfl), if_neg hq1, if_neg hq2]
  simp only [ansi_output_csi, hs]
  simp [h1, hn]

/-- `console_fill` with arguments that fit the native types. -/
theorem console_fill_exact (term : TERM) (x y len : Int)
    (hx : 0 ≤ x ∧ x ≤ 32767) (hy : 0 ≤ y ∧ y ≤ 32767) (hl : 0 ≤ len ∧ len ≤ 2147483647)
    (ha : term.attr < 65536) :
    console_fill term x y len =
      [ConsoleOp.FillConsoleOutputCharacter 32 len { X := x, Y := y },
       ConsoleOp.FillConsoleOutputAttribute term.attr len { X := x, Y := y }] := by
  have ex : toSHORT x = x := toSHORT_of_range (by omega) (by omega)
  have ey : toSHORT y = y := toSHORT_of_range (by omega) (by omega)
  have el : toDWORD len = len := by unfold toDWORD; omega
  have ea : toWORD term.attr = term.attr := by unfold toWORD; omega
  unfold console_fill
  rw [ex, ey, el, ea]

set_option maxRecDepth 100000 in
/-- C26, counterexample: `ESC[2147483647@` and `ESC[2147483647P` with the
cursor in column 1 of an 80-column screen.  `col + N` overflows, the count is
not clamped to `width - col` = 79, and the fill of 2147483647 cells runs past
the end of the cursor row: on the simulated screen the first cell of the
next row (offset 80) is blanked by the insert form. -/
theorem c26_counterexample_count_not_clamped :
    (parser_print static_console sample_world
        [27, 91, 50, 49, 52, 55, 52, 56, 51, 54, 52, 55, 64] 13).map
      (fun w => w.trace.drop 1)
      = some [ConsoleOp.FillConsoleOutputCharacter 32 2147483647 { X := 1, Y := 0 },
              ConsoleOp.FillConsoleOutputAttribute 7 2147483647 { X := 1, Y := 0 }] ∧
    (parser_print static_console sample_world
        [27, 91, 50, 49, 52, 55, 52, 56, 51, 54, 52, 55, 80] 13).map
      (fun w => w.trace.drop 1)
      = some [ConsoleOp.FillConsoleOutputCharacter 32 2147483647 { X := 81, Y := 0 },
              ConsoleOp.FillConsoleOutputAttribute 7 2147483647 { X := 81, Y := 0 }] ∧
    (parser_print screen_console sample_screen_world
        [27, 91, 50, 49, 52, 55, 52, 56, 51, 54, 52, 55, 64] 13).map
      (fun w => (w.console.chars 80, w.console.attrs 80)) = some (32, 7) ∧
    (sample_screen.chars 80, sample_screen.attrs 80) = (120, 112) := by
  decide

/-- C26 (amended). For `ESC [ N P` and `ESC [ N @` (N = 1 when omitted) with
the cursor at column `col` of a screen of width `w` (0 ≤ col < w), N ≥ 0 and
`col + N` within the range of an `int`, the count used is
`N' = min(N, w - col)`: the delete form scrolls and then fills `N'` cells
from column `w - N'` of the cursor row, which are exactly the columns
`w-N' .. w-1` of that row; the insert form scrolls and then fills `N'` cells
from column `col`, exactly the columns `col .. col+N'-1` of the cursor row. -/
theorem c26_delete_insert_count_clamped (term : TERM) (flags : FLAGS) (es : SEQUENCE)
    (hp : es.pfx = 91) (hq : es.pfx2 = 0) (ha : es.argc = 0 ∨ es.argc = 1)
    (hw : 1 ≤ term.width ∧ term.width ≤ 32767) (hc : 0 ≤ term.col ∧ term.col < term.width)
    (hr : 0 ≤ term.row ∧ term.row ≤ 32767) (hattr : term.attr < 65536)
    (hn : 0 ≤ (default_arg es 1).argv 0)
    (hfit : term.col + (default_arg es 1).argv 0 ≤ 2147483647) :
    (es.suffix = 80 →
      ansi_output term flags es = some (term, flags,
        console_scroll term (term.col + min ((default_arg es 1).argv 0) (term.width - term.col))
          term.row (term.width - 1) term.row term.col term.row
        ++ [ConsoleOp.FillConsoleOutputCharacter 32
              (min ((default_arg es 1).argv 0) (term.width - term.col))
              { X := term.width - min ((default_arg es 1).argv 0) (term.width - term.col),
                Y := term.row },
            ConsoleOp.FillConsoleOutputAttribute term.attr
              (min ((default_arg es 1).argv 0) (term.width - term.col))
              { X := term.width - min ((default_arg es 1).argv 0) (term.width - term.col),
                Y := term.row }]) ∧
      ∀ sc : Screen, sc.width = term.width → term.row < sc.height → ∀ o,
        sc.filled (min ((default_arg es 1).argv 0) (term.width - term.col))
            { X := term.width - min ((default_arg es 1).argv 0) (term.width - term.col),
              Y := term.row } o = true ↔
          (term.row * term.width
              + (term.width - min ((default_arg es 1).argv 0) (term.width - term.col)) ≤ o
            ∧ o ≤ term.row * term.width + (term.width - 1))) ∧
    (es.suffix = 64 →
      ansi_output term flags es = some (term, flags,
        console_scroll term term.col term.row
          (term.width - 1 - min ((default_arg es 1).argv 0) (term.width - term.col)) term.row
          (term.col + min ((default_arg es 1).argv 0) (term.width - term.col)) term.row
        ++ [ConsoleOp.FillConsoleOutputCharacter 32
              (min ((default_arg es 1).argv 0) (term.width - term.col))
              { X := term.col, Y := term.row },
            ConsoleOp.FillConsoleOutputAttribute term.attr
              (min ((default_arg es 1).argv 0) (term.width - term.col))
              { X := term.col, Y := term.row }]) ∧
      term.col + min ((default_arg es 1).argv 0) (term.width - term.col) ≤ term.width ∧
      ∀ sc : Screen, sc.width = term.width → term.row < sc.height → ∀ o,
        sc.filled (min ((default_arg es 1).argv 0) (term.width - term.col))
            { X := term.col, Y := term.row } o = true ↔
          (term.row * term.width + term.col ≤ o
            ∧ o ≤ term.row * term.width
                + (term.col + min ((default_arg es 1).argv 0) (term.width - term.col) - 1))) := by
  have hcount := clamped_count term.width term.col ((default_arg es 1).argv 0) hw hc hn hfit
  generalize hN : (default_arg es 1).argv 0 = N at hcount hn hfit ⊢
  generalize hM : min N (term.width - term.col) = M at hcount ⊢
  have hM0 : 0 ≤ M := by rw [← hM]; exact le_min hn (by omega)
  have hM1 : M ≤ term.width - term.col := by rw [← hM]; exact min_le_right _ _
  have e1 : iadd term.col M = term.col + M := wrap32_of_range (by omega) (by omega)
  have e2 : isub term.width 1 = term.width - 1 := wrap32_of_range (by omega) (by omega)
  have e3 : isub term.width M = term.width - M := wrap32_of_range (by omega) (by omega)
  have e4 : isub (term.width - 1) M = term.width - 1 - M := wrap32_of_range (by omega) (by omega)
  constructor
  · intro hs
    constructor
    · rw [ansi_output_delete_chars term flags es hp hq hs ha M (by rw [hN]; exact hcount),
        e1, e2, e3, console_fill_exact term _ _ _ ⟨by omega, by omega⟩ hr ⟨hM0, by omega⟩ hattr]
    · intro sc hsw hsh o
      rw [filled_in_row sc _ _ _ (by omega) hM0 (by rw [hsw]; omega) ⟨hr.1, hsh⟩, hsw]
      constructor
      · rintro ⟨a, b⟩; exact ⟨a, by omega⟩
      · rintro ⟨a, b⟩; exact ⟨a, by omega⟩
  · intro hs
    refine ⟨?_, by omega, ?_⟩
    · rw [ansi_output_insert_chars term flags es hp hq hs ha M (by rw [hN]; exact hcount),
        e1, e2, e4, console_fill_exact term _ _ _ ⟨hc.1, by omega⟩ hr ⟨hM0, by omega⟩ hattr]
    · intro sc hsw hsh o
      rw [filled_in_row sc _ _ _ hc.1 hM0 (by rw [hsw]; omega) ⟨hr.1, hsh⟩, hsw]

/-- C26, witness: on the 80 x 25 sample terminal state, cursor in column 1,
`ESC[999P` fills the 79 cells from column 1 and `ESC[5@` the 5 cells from
column 1. -/
theorem c26_delete_insert_count_clamped_witness :
    (ansi_output sample_term flags_initial (count_sequence 80 999)).map (fun r => r.2.2.drop 1)
      = some [ConsoleOp.FillConsoleOutputCharacter 32 79 { X := 1, Y := 0 },
              ConsoleOp.FillConsoleOutputAttribute 7 79 { X := 1, Y := 0 }] ∧
    (ansi_output sample_term flags_initial (count_sequence 64 5)).map (fun r => r.2.2.drop 1)
      = some [ConsoleOp.FillConsoleOutputCharacter 32 5 { X := 1, Y := 0 },
              ConsoleOp.FillConsoleOutputAttribute 7 5 { X := 1, Y := 0 }] := by
  have h1 := ((c26_delete_insert_count_clamped sample_term flags_initial (count_sequence 80 999)
    rfl rfl (Or.inr rfl) (by decide) (by decide) (by decide) (by decide) (by decide)
    (by decide)).1 rfl).1
  have h2 := ((c26_delete_insert_count_clamped sample_term flags_initial (count_sequence 64 5)
    rfl rfl (Or.inr rfl) (by decide) (by decide) (by decide) (by decide) (by decide)
    (by decide)).2 rfl).1
  rw [h1, h2]
  decide

/-- With an argument count of 15 the `m` case does not read `argv[15]`. -/
theorem ansi_output_sgr_ignores_last_slot (term : TERM) (flags : FLAGS) (es : SEQUENCE) (v : Int)
    (hp : es.pfx = 91) (hq : es.pfx2 = 0) (hs : es.suffix = 109) (ha : es.argc = 15) :
    ansi_output term flags { es with argv := Function.update es.argv 15 v }
      = ansi_output term flags es := by
  have t15 : (15 : Int).toNat = 15 := rfl
  have hl1 := sgr_loop_eq (Function.update es.argv 15 v) 15 0 term (by decide)
  have hl2 := sgr_loop_eq es.argv 15 0 term (by decide)
  have hmap : (List.range' 0 15).map (Function.update es.argv 15 v)
      = (List.range' 0 15).map es.argv := by
    apply List.map_congr_left
    intro i hi
    have : i < 15 := by
      have := List.mem_range'.1 hi
      omega
    rw [Function.update_noteq (by omega)]
  simp only [ansi_output, ansi_output_csi, hp, hq, hs, ha, default_arg, LBRACKET, QUESTION]
  simp [hl1, hl2, hmap]
  rw [ha, t15, hl2]

set_option maxRecDepth 100000 in
/-- C27. When the argument slots are full the suffix leaves the argument
count at 15, so the interpreter processes `argv[0..14]` only: the last
argument is stored in `argv[15]` and never read.  An SGR sequence of sixteen
arguments 0 and a seventeenth argument 1 (bold) leaves bold off and sets the
default attribute 7, and so does one with sixteen arguments whose last is 1;
with fifteen arguments the last one is applied. -/
theorem c27_last_argument_beyond_capacity_not_processed :
    (parser_print static_console sample_world
        [27, 91, 48, 59, 48, 59, 48, 59, 48, 59, 48, 59, 48, 59, 48, 59, 48, 59, 48, 59, 48, 59,
         48, 59, 48, 59, 48, 59, 48, 59, 48, 59, 48, 59, 49, 109] 36).map
      (fun w => (w.trace, w.parser.term.bold, w.parser.es.argc, w.parser.es.argv 15))
      = some ([ConsoleOp.SetConsoleTextAttribute 7], false, 15, 1) ∧
    (parser_print static_console sample_world
        [27, 91, 48, 59, 48, 59, 48, 59, 48, 59, 48, 59, 48, 59, 48, 59, 48, 59, 48, 59, 48, 59,
         48, 59, 48, 59, 48, 59, 48, 59, 48, 59, 49, 109] 34).map
      (fun w => (w.trace, w.parser.term.bold, w.parser.es.argc, w.parser.es.argv 15))
      = some ([ConsoleOp.SetConsoleTextAttribute 7], false, 15, 1) ∧
    (parser_print static_console sample_world
        [27, 91, 48, 59, 48, 59, 48, 59, 48, 59, 48, 59, 48, 59, 48, 59, 48, 59, 48, 59, 48, 59,
         48, 59, 48, 59, 48, 59, 48, 59, 49, 109] 32).map
      (fun w => (w.trace, w.parser.term.bold, w.parser.es.argc))
      = some ([ConsoleOp.SetConsoleTextAttribute 15], true, 15) ∧
    (∀ (σ : Type) (C : Console σ) (w : World σ) (sfx : Nat),
      w.parser.state = 4 → w.parser.es.argc = 15 → is_param sfx = false →
      parser_char C w sfx = world_dispatch C w { w.parser.es with argc := 15, suffix := sfx }) ∧
    (∀ (term : TERM) (flags : FLAGS) (es : SEQUENCE) (v : Int),
      es.pfx = 91 → es.pfx2 = 0 → es.suffix = 109 → es.argc = 15 →
      ansi_output term flags { es with argv := Function.update es.argv 15 v }
        = ansi_output term flags es) := by
  refine ⟨by decide, by decide, by decide, ?_, ?_⟩
  · intro σ C w sfx hg ha hsp
    have hlt : ¬ (w.parser.es.argc < MAX_ARG - 1) := by rw [ha]; decide
    rw [char_suffix4 C w sfx hg hsp, if_neg hlt, ha]
  · intro term flags es v hp hq hs ha
    exact ansi_output_sgr_ignores_last_slot term flags es v hp hq hs ha

/-- A character in the Escape state, by cases: the world after it. -/
theorem char_escape {σ : Type} (C : Console σ) (w : World σ) (c : Nat)
    (hg : w.parser.state = 2) :
    parser_char C w c = some
      { w with
        parser :=
          { es := if c = 27 then w.parser.es
                  else if c = 91 then { w.parser.es with pfx := 91, pfx2 := 0 }
                  else if c = 93 then
                    { w.parser.es with
                      pfx := 93, pfx2 := 0, argc := 0,
                      argv := Function.update w.parser.es.argv 0 0 }
                  else w.parser.es,
            term := term_refresh w.parser.term (C.info w.console),
            state := if c = 27 then 2 else if c = 91 then 3 else if c = 93 then 5 else 1 } } := by
  by_cases h27 : c = 27
  · subst h27
    simp [parser_char, parser_step, hg, ESC]
  · by_cases h91 : c = 91
    · subst h91
      simp [parser_char, parser_step, hg, ESC, LBRACKET]
    · by_cases h93 : c = 93
      · subst h93
        simp [parser_char, parser_step, hg, ESC, LBRACKET, RBRACKET]
      · simp [parser_char, parser_step, hg, ESC, LBRACKET, RBRACKET, h27, h91, h93]

/-- A run of ESC characters fed in Ground leaves the same world as one ESC. -/
theorem feed_escapes {σ : Type} (C : Console σ) (v : World σ) (hg : v.parser.state = 1)
    (n : Nat) : feed C v (List.replicate (n + 1) 27) = feed C v [27] := by
  have h1 : parser_char C v 27 = some
      { v with parser := { v.parser with term := term_refresh v.parser.term (C.info v.console),
                                         state := 2 } } := by
    simp [parser_char, parser_step, hg, ESC]
  have h2 : ∀ m, feed C
      { v with parser := { v.parser with term := term_refresh v.parser.term (C.info v.console),
                                         state := 2 } } (List.replicate m 27)
      = some { v with parser := { v.parser with
                                   term := term_refresh v.parser.term (C.info v.console),
                                   state := 2 } } := by
    intro m
    induction m with
    | zero => rfl
    | succ m ih =>
      rw [List.replicate_succ, feed_cons, char_escape C _ 27 rfl]
      simp only [if_true, term_refresh_refresh, Option.some_bind]
      exact ih
  rw [List.replicate_succ, feed_cons, h1, Option.some_bind, h2 n, feed_cons, h1]
  rfl

/-- C28. In the Escape state (state 2) every character is taken without a
native call, leaving the console, the flags and the terminal state (reloaded
from the console) as they are: a further ESC stays in the Escape state, `[`
enters CSI-Entry (state 3), `]` enters OSC-Number (state 5), and every other
character returns the scanner to Ground (state 1) and is dropped; none but
`[` and `]` touches the pending sequence.  So a run of one or more ESC written
in Ground, followed by any text, is handled as a single ESC followed by that
text. -/
theorem c28_escape_state_transitions {σ : Type} (C : Console σ) (w : World σ)
    (hg : w.parser.state = 2) :
    (∀ c, ∃ w1, parser_char C w c = some w1 ∧
      w1.trace = w.trace ∧ w1.console = w.console ∧ w1.flags = w.flags ∧
      w1.parser.term = term_refresh w.parser.term (C.info w.console) ∧
      w1.parser.state = (if c = 27 then 2 else if c = 91 then 3 else if c = 93 then 5 else 1) ∧
      (c ≠ 91 → c ≠ 93 → w1.parser.es = w.parser.es)) ∧
    (∀ (v : World σ) (n : Nat) (s : List Nat), v.parser.state = 1 → (∀ c ∈ s, c ≠ 0) →
      parser_print C v (List.replicate (n + 1) 27 ++ s) (List.replicate (n + 1) 27 ++ s).length
        = parser_print C v (27 :: s) (27 :: s).length) := by
  constructor
  · intro c
    refine ⟨_, char_escape C w c hg, rfl, rfl, rfl, rfl, rfl, ?_⟩
    intro h91 h93
    show (if c = 27 then w.parser.es else if c = 91 then _ else if c = 93 then _
      else w.parser.es) = w.parser.es
    rw [if_neg h91, if_neg h93]
    split_ifs <;> rfl
  · intro v n s hv hs
    have hnz1 : ∀ c ∈ List.replicate (n + 1) 27 ++ s, c ≠ 0 := by
      intro c hc
      rcases List.mem_append.1 hc with h | h
      · have := List.eq_of_mem_replicate h
        omega
      · exact hs c h
    have hnz2 : ∀ c ∈ 27 :: s, c ≠ 0 := by
      intro c hc
      rcases List.mem_cons.1 hc with h | h
      · omega
      · exact hs c h
    rw [parser_print_eq_feed C _ hnz1, parser_print_eq_feed C _ hnz2, feed_append,
      feed_escapes C v hv n]
    show _ = feed C v ([27] ++ s)
    rw [feed_append]

/-- C28, witness: the sample world put in the Escape state; the letter `A`
returns the scanner to Ground without a native call, and `[` enters
CSI-Entry. -/
theorem c28_escape_state_transitions_witness :
    (∃ w1, parser_char static_console
        { sample_world with parser := { sample_world.parser with state := 2 } } 65 = some w1 ∧
      w1.trace = [] ∧ w1.parser.state = 1) ∧
    (∃ w1, parser_char static_console
        { sample_world with parser := { sample_world.parser with state := 2 } } 91 = some w1 ∧
      w1.trace = [] ∧ w1.parser.state = 3) := by
  have h := (c28_escape_state_transitions static_console
    { sample_world with parser := { sample_world.parser with state := 2 } } rfl).1
  obtain ⟨w1, e1, t1, -, -, -, s1, -⟩ := h 65
  obtain ⟨w2, e2, t2, -, -, -, s2, -⟩ := h 91
  exact ⟨⟨w1, e1, t1, s1⟩, ⟨w2, e2, t2, s2⟩⟩

/-- One event handled with room for six more cells in the string: the loop
goes on, and the string has grown by at most five characters. -/
theorem event_bounded (flags : FLAGS) (w : WSTR) (echoed : List Nat) (ev : INPUT_RECORD)
    (k : Nat) (hc : w.count = k) (hroom : (k : Int) + 6 ≤ w.size)
    (hsize : w.size ≤ 2147483647) :
    ∃ w2 e2, ∃ k2 : Nat, ansi_input_event flags w echoed ev = some (EventResult.next w2 e2) ∧
      w2.size = w.size ∧ w2.count = k2 ∧ k ≤ k2 ∧ k2 ≤ k + 5 := by
  by_cases hk : ev.EventType = KEY_EVENT
  · by_cases hd : ev.KeyEvent.bKeyDown = true
    · by_cases hmod : ev.KeyEvent.dwControlKeyState &&& 15 = 0
      · cases hseq : key_sequence ev.KeyEvent.wVirtualKeyCode with
        | none =>
          obtain ⟨w2, e, z, c, -⟩ := event_char flags w echoed ev k hk hd (Or.inr hseq) hc
            (by omega) hsize
          exact ⟨w2, _, k + 1, e, z, by rw [c]; push_cast; rfl, by omega, by omega⟩
        | some sn =>
          obtain ⟨s, n⟩ := sn
          obtain ⟨-, -, -, f4, -⟩ := key_sequence_facts _ s n hseq
          obtain ⟨w2, e, z, c, -⟩ := event_translated flags w echoed ev k s n hk hd hmod hseq hc
            (by omega) hsize
          exact ⟨w2, _, k + s.length, e, z, by rw [c]; push_cast; rfl, by omega, by omega⟩
      · obtain ⟨w2, e, z, c, -⟩ := event_char flags w echoed ev k hk hd (Or.inl hmod) hc
          (by omega) hsize
        exact ⟨w2, _, k + 1, e, z, by rw [c]; push_cast; rfl, by omega, by omega⟩
    · have hup : ev.KeyEvent.bKeyDown = false := by
        cases h : ev.KeyEvent.bKeyDown
        · rfl
        · exact absurd h hd
      by_cases hv : ev.KeyEvent.wVirtualKeyCode = VK_MENU
      · unfold ansi_input_event
        rw [if_pos hk, if_pos hup, if_pos hv,
          emit_char_room flags w echoed _ k hc (by omega) hsize]
        exact ⟨_, _, k + 1, rfl, rfl, by push_cast; rfl, by omega, by omega⟩
      · unfold ansi_input_event
        rw [if_pos hk, if_pos hup, if_neg hv]
        exact ⟨_, _, k, rfl, rfl, hc, le_refl k, by omega⟩
  · unfold ansi_input_event
    rw [if_neg hk]
    exact ⟨_, _, k, rfl, rfl, hc, le_refl k, by omega⟩

/-- The event loop on a batch that leaves room: it ends without overflow and
the string has grown by at most five characters for each event. -/
theorem ansi_input_loop_bounded (flags : FLAGS) (events : List INPUT_RECORD) (w : WSTR)
    (echoed : List Nat) (k : Nat) (hc : w.count = k)
    (hroom : (k : Int) + 5 * events.length + 1 ≤ w.size) (hsize : w.size ≤ 2147483647) :
    ∃ w2 e2, ∃ k2 : Nat, ansi_input_loop flags w echoed events = some (EventResult.next w2 e2) ∧
      w2.size = w.size ∧ w2.count = k2 ∧ k2 ≤ k + 5 * events.length := by
  induction events generalizing w echoed k with
  | nil => exact ⟨w, echoed, k, rfl, rfl, hc, by simp⟩
  | cons ev evs ih =>
    have hlen : ((ev :: evs).length : Int) = (evs.length : Int) + 1 := by simp
    rw [hlen] at hroom
    obtain ⟨w1, e1, k1, h1, z1, c1, lo1, hi1⟩ := event_bounded flags w echoed ev k hc
      (by omega) hsize
    obtain ⟨w2, e2, k2, h2, z2, c2, hi2⟩ := ih w1 e1 k1 c1 (by rw [z1]; omega)
      (by rw [z1]; exact hsize)
    refine ⟨w2, e2, k2, ?_, z2.trans z1, c2, ?_⟩
    · simp only [ansi_input_loop, h1]
      exact h2
    · simp only [List.length_cons]
      omega

/-- C29. `ansi_input` reads at most `(IO_BUFLEN-1)/5` = 204 events into the
empty string of `IO_BUFLEN` = 1024 cells; each event appends at most five
characters, so every event is handled with room left: no store leaves the
buffer, the overflow check never fails, the call returns 0 and the count it
reports is at most five times the number of events, hence at most 1020. -/
theorem c29_event_batch_fits_buffer :
    (IO_BUFLEN - 1) / 5 = 204 ∧
    (∀ (flags : FLAGS) (events : List INPUT_RECORD) (wide_buffer : Nat → Nat)
        (echoed : List Nat),
      events.length ≤ (IO_BUFLEN - 1) / 5 →
      ∃ w2 e2, ansi_input_loop flags (wstr_create_empty wide_buffer IO_BUFLEN) echoed events
          = some (EventResult.next w2 e2) ∧
        0 ≤ w2.count ∧ w2.count ≤ 5 * events.length ∧ w2.count ≤ 1020) ∧
    (∀ (flags : FLAGS) (queue : List INPUT_RECORD) (wide_buffer : Nat → Nat) (count : Int)
        (echoed : List Nat),
      ∃ r, ansi_input flags queue wide_buffer count echoed = some r ∧ r.ret = 0 ∧
        0 ≤ r.count ∧ r.count ≤ 5 * queue.length ∧ r.count ≤ 1020) := by
  have hloop : ∀ (flags : FLAGS) (events : List INPUT_RECORD) (wide_buffer : Nat → Nat)
      (echoed : List Nat), events.length ≤ 204 →
      ∃ w2 e2, ∃ k2 : Nat,
        ansi_input_loop flags (wstr_create_empty wide_buffer IO_BUFLEN) echoed events
          = some (EventResult.next w2 e2) ∧ w2.count = k2 ∧ k2 ≤ 5 * events.length := by
    intro flags events wide_buffer echoed hlen
    have hs : (wstr_create_empty wide_buffer IO_BUFLEN).size = 1024 := rfl
    obtain ⟨w2, e2, k2, h, -, c, hi⟩ := ansi_input_loop_bounded flags events
      (wstr_create_empty wide_buffer IO_BUFLEN) echoed 0 rfl (by rw [hs]; push_cast; omega)
      (by rw [hs]; decide)
    exact ⟨w2, e2, k2, h, c, by omega⟩
  refine ⟨by decide, ?_, ?_⟩
  · intro flags events wide_buffer echoed hlen
    have h204 : (IO_BUFLEN - 1) / 5 = 204 := by decide
    rw [h204] at hlen
    obtain ⟨w2, e2, k2, h, c, hi⟩ := hloop flags events wide_buffer echoed hlen
    refine ⟨w2, e2, h, ?_, ?_, ?_⟩ <;> (rw [c]; omega)
  · intro flags queue wide_buffer count echoed
    unfold ansi_input
    by_cases h0 : queue.length = 0
    · simp only [h0, if_true]
      refine ⟨_, rfl, rfl, le_refl 0, ?_, ?_⟩
      · show (0 : Int) ≤ 5 * ((0 : Nat) : Int)
        decide
      · show (0 : Int) ≤ 1020
        decide
    · have h204 : (IO_BUFLEN - 1) / 5 = 204 := by decide
      have htake : (queue.take 204).length ≤ 204 := by
        rw [List.length_take]; exact Nat.min_le_left _ _
      have htake2 : (queue.take 204).length ≤ queue.length := by
        rw [List.length_take]; exact Nat.min_le_right _ _
      obtain ⟨w2, e2, k2, h, c, hi⟩ := hloop flags (queue.take 204) wide_buffer echoed htake
      simp only [h0, if_false, h204, h]
      have hd : toDWORD w2.count = (k2 : Int) := by rw [c]; unfold toDWORD; omega
      refine ⟨_, rfl, rfl, ?_, ?_, ?_⟩
      · show 0 ≤ toDWORD w2.count
        rw [hd]; omega
      · show toDWORD w2.count ≤ _
        rw [hd]; omega
      · show toDWORD w2.count ≤ _
        rw [hd]; omega

/-- C29, witness: a batch of the keys F5 and `a` is reported as the six
characters `ESC [ 1 5 ~ a`, with the return value 0. -/
theorem c29_event_batch_fits_buffer_witness :
    (ansi_input flags_initial [key_down VK_F5 0, key_down 65 97] (fun _ => 0) 0 []).map
      (fun r => (r.ret, r.count, r.text)) = some (0, 6, [27, 91, 49, 53, 126, 97]) ∧
    ∃ r, ansi_input flags_initial [key_down VK_F5 0, key_down 65 97] (fun _ => 0) 0 [] = some r ∧
      r.ret = 0 ∧ r.count ≤ 1020 := by
  obtain ⟨r, e, z, -, -, c⟩ := c29_event_batch_fits_buffer.2.2 flags_initial
    [key_down VK_F5 0, key_down 65 97] (fun _ => 0) 0 []
  exact ⟨by decide, r, e, z, c⟩

end Win32Console
